import Mathlib

/-!
Verification of the SEEDS Revised superpixel library (SeedsRevised.h /
SeedsRevised.cpp) against its specification.

The C++ classes SEEDSRevised and SEEDSRevisedMeanPixels are shallowly embedded:

* machine `int` values become `Int` (all divisions below happen on non-negative
  operands, where C++ truncating division and Lean division agree), sizes and
  array indices become `Nat`;
* `float` arithmetic is modelled exactly over `ℚ` (the claims below concern
  comparison logic and bookkeeping, not rounding);
* the two-dimensional C arrays (labels, spatial memory, histograms, pixel
  counts, means) become total functions out of `Nat`, updated pointwise; cells
  that the C++ code never allocates or never reads are simply never relevant;
* imperative loops become explicit folds (`foldN` ascending, `foldDesc`
  descending, `foldRangeAsc` for a `for (x = a; x < b; ++x)` loop); loops that
  only accumulate a pure value become `Finset` sums/cards over the same index
  ranges;
* the preprocessor configuration of the shipped header is used: `MEMORY` is
  defined, `HEURISTIC_MEMORY`, `UNIFORM` and `DEBUG` are not;
* `assert` preconditions are modelled as named `Prop`s;
* the `initializedImage/Labels/Histograms/Means` destructor-bookkeeping flags
  are omitted (they only guard deallocation).

Names follow the source where the development allows it; the C++ methods
`initialize`, `initializeLabels`, `initializeHistograms`, `initializeMeans` and
`reinitializeSpatialMemory` appear here as `initAll`, `initLabels`,
`initHistograms`, `initMeans` and `reinitSpatialMemory`.
-/

namespace SeedsRevised

/-! ## Loop combinators and pointwise array updates -/

/-- Ascending loop `for (k = 0; k < n; ++k)` over a state of type `α`. -/
def foldN {α : Type} (n : Nat) (f : Nat → α → α) (s : α) : α :=
  match n with
  | 0 => s
  | Nat.succ m => f m (foldN m f s)

/-- Descending loop `for (k = n - 1; k > -1; --k)` over a state of type `α`. -/
def foldDesc {α : Type} (n : Nat) (f : Nat → α → α) (s : α) : α :=
  match n with
  | 0 => s
  | Nat.succ m => foldDesc m f (f m s)

/-- Ascending loop `for (k = a; k < b; ++k)` over a state of type `α`. -/
def foldRangeAsc {α : Type} (a b : Nat) (f : Nat → α → α) (s : α) : α :=
  foldN (b - a) (fun k t => f (a + k) t) s

/-- Pointwise update of a two-dimensional array: `g[i][j] = v`. -/
def upd2 {α : Type} (g : Nat → Nat → α) (i j : Nat) (v : α) : Nat → Nat → α :=
  fun a b => if a = i ∧ b = j then v else g a b

/-- Pointwise update of a three-dimensional array: `g[i][j][k] = v`. -/
def upd3 {α : Type} (g : Nat → Nat → Nat → α) (i j k : Nat) (v : α) :
    Nat → Nat → Nat → α :=
  fun a b c => if a = i ∧ b = j ∧ c = k then v else g a b c

/-- Pointwise update of a four-dimensional array: `g[i][j][k][l] = v`. -/
def upd4 {α : Type} (g : Nat → Nat → Nat → Nat → α) (i j k l : Nat) (v : α) :
    Nat → Nat → Nat → Nat → α :=
  fun a b c d => if a = i ∧ b = j ∧ c = k ∧ d = l then v else g a b c d

theorem upd2_same {α : Type} (g : Nat → Nat → α) (i j : Nat) (v : α) :
    upd2 g i j v i j = v := by
  simp [upd2]

theorem upd2_other {α : Type} (g : Nat → Nat → α) {i j a b : Nat} (v : α)
    (h : ¬(a = i ∧ b = j)) : upd2 g i j v a b = g a b := by
  simp [upd2, h]

/-! ## The algorithm state

One record holds every data member of `SEEDSRevised` and of its subclass
`SEEDSRevisedMeanPixels` (the mean-pixels members sit unused in base-class
runs, exactly like uninitialized C++ members). The image is stored as a
function `imagePixel : channel → row → col → value` of the already
color-converted 8-bit samples. -/

structure State where
  width : Nat
  height : Nat
  channels : Nat
  imagePixel : Nat → Nat → Nat → Nat
  numberOfLevels : Nat
  minimumBlockWidth : Nat
  minimumBlockHeight : Nat
  minimumNumberOfSublabels : Int
  neighborhoodSize : Int
  minimumConfidence : ℚ
  numberOfBins : Nat
  currentLabels : Nat → Nat → Int
  currentLevel : Nat
  currentBlockWidth : Nat
  currentBlockHeight : Nat
  currentBlockWidthNumber : Nat
  currentBlockHeightNumber : Nat
  superpixelWidthNumber : Nat
  superpixelHeightNumber : Nat
  superpixelWidth : Nat
  superpixelHeight : Nat
  histograms : Nat → Nat → Nat → Nat → Int
  pixels : Nat → Nat → Nat → Int
  histogramDimensions : Nat
  histogramSize : Nat
  histogramBins : Nat → Nat → Nat
  spatialMemory : Nat → Nat → Bool
  meanDimensions : Nat
  means0 : Nat → Nat → Nat → ℚ
  means1 : Nat → Nat → Nat → ℚ
  colorNormalization : ℚ
  spatialWeight : ℚ
  spatialNormalization : ℚ

/-! ## Pyramid geometry (SeedsRevised.cpp lines 303-333, 990-992) -/

/-- SEEDSRevised::getBlockWidth: `minimumBlockWidth * 2^(level - 1)`. -/
def getBlockWidth (s : State) (level : Nat) : Nat :=
  s.minimumBlockWidth * 2 ^ (level - 1)

/-- SEEDSRevised::getBlockWidthNumber: `width / getBlockWidth(level)`. -/
def getBlockWidthNumber (s : State) (level : Nat) : Nat :=
  s.width / getBlockWidth s level

/-- SEEDSRevised::getBlockHeight: `minimumBlockHeight * 2^(level - 1)`. -/
def getBlockHeight (s : State) (level : Nat) : Nat :=
  s.minimumBlockHeight * 2 ^ (level - 1)

/-- SEEDSRevised::getBlockHeightNumber: `height / getBlockHeight(level)`. -/
def getBlockHeightNumber (s : State) (level : Nat) : Nat :=
  s.height / getBlockHeight s level

/-- SEEDSRevised::getNumberOfSuperpixels:
`getBlockHeightNumber(numberOfLevels) * getBlockWidthNumber(numberOfLevels)`. -/
def getNumberOfSuperpixels (s : State) : Nat :=
  getBlockHeightNumber s s.numberOfLevels * getBlockWidthNumber s s.numberOfLevels

/-- SEEDSRevised::getLevel. -/
def getLevel (s : State) : Nat :=
  s.currentLevel

/-! ## Construction (SeedsRevised.cpp lines 69-153) -/

/-- The only assertion executed by SEEDSRevised::construct:
`assert(channels == 1 || channels == 3)`. -/
def constructPre (channels : Nat) : Prop :=
  channels = 1 ∨ channels = 3

/-- SEEDSRevised::construct. Parameter order follows the C++ declaration
`construct(image, numberOfBins, numberOfLevels, minimumBlockWidth,
minimumBlockHeight, neighborhoodSize, minimumConfidence)`. Fields the source
leaves uninitialized at this point receive arbitrary defaults (never read
before their init routines run). -/
def construct (width height channels : Nat) (imagePixel : Nat → Nat → Nat → Nat)
    (numberOfBins numberOfLevels minimumBlockWidth minimumBlockHeight : Nat)
    (neighborhoodSize : Int) (minimumConfidence : ℚ) : State where
  width := width
  height := height
  channels := channels
  imagePixel := imagePixel
  numberOfLevels := numberOfLevels
  minimumBlockWidth := minimumBlockWidth
  minimumBlockHeight := minimumBlockHeight
  minimumNumberOfSublabels := 1
  neighborhoodSize := neighborhoodSize
  minimumConfidence := minimumConfidence
  numberOfBins := numberOfBins
  currentLabels := fun _ _ => 0
  currentLevel := 0
  currentBlockWidth := 0
  currentBlockHeight := 0
  currentBlockWidthNumber := 0
  currentBlockHeightNumber := 0
  superpixelWidthNumber := 0
  superpixelHeightNumber := 0
  superpixelWidth := 0
  superpixelHeight := 0
  histograms := fun _ _ _ _ => 0
  pixels := fun _ _ _ => 0
  histogramDimensions := 0
  histogramSize := 0
  histogramBins := fun _ _ => 0
  spatialMemory := fun _ _ => false
  meanDimensions := 0
  means0 := fun _ _ _ => 0
  means1 := fun _ _ _ => 0
  colorNormalization := 0
  spatialWeight := 0
  spatialNormalization := 0

/-- The explicit-geometry base constructor
`SEEDSRevised(image, numberOfLevels, minimumBlockWidth, minimumBlockHeight,
numberOfBins, neighborhoodSize, minimumConfidence)`, which forwards to
`construct(image, numberOfBins, numberOfLevels, minimumBlockWidth,
minimumBlockHeight, neighborhoodSize, minimumConfidence)`. -/
def seedsRevisedCtor (width height channels : Nat)
    (imagePixel : Nat → Nat → Nat → Nat)
    (numberOfLevels minimumBlockWidth minimumBlockHeight numberOfBins : Nat)
    (neighborhoodSize : Int) (minimumConfidence : ℚ) : State :=
  construct width height channels imagePixel numberOfBins numberOfLevels
    minimumBlockWidth minimumBlockHeight neighborhoodSize minimumConfidence

/-- The assertions of both SEEDSRevisedMeanPixels constructors:
`assert(spatialWeight >= 0); assert(spatialWeight <= 1)`. -/
def meanPixelsCtorPre (spatialWeight : ℚ) : Prop :=
  0 ≤ spatialWeight ∧ spatialWeight ≤ 1

/-- The explicit-geometry constructor of SEEDSRevisedMeanPixels
(SeedsRevised.cpp lines 994-1001). Its member-initializer list reads
`SEEDSRevised(image, numberOfBins, numberOfLevels, minimumBlockWidth,
minimumBlockHeight, neighborhoodSize, minimumConfidence)`, i.e. it invokes the
7-parameter base constructor positionally, so the base constructor receives
numberOfLevels := numberOfBins, minimumBlockWidth := numberOfLevels,
minimumBlockHeight := minimumBlockWidth and numberOfBins :=
minimumBlockHeight. -/
def meanPixelsCtor (width height channels : Nat)
    (imagePixel : Nat → Nat → Nat → Nat)
    (numberOfLevels minimumBlockWidth minimumBlockHeight numberOfBins : Nat)
    (neighborhoodSize : Int) (minimumConfidence spatialWeight : ℚ) : State :=
  let s := seedsRevisedCtor width height channels imagePixel numberOfBins
    numberOfLevels minimumBlockWidth minimumBlockHeight neighborhoodSize
    minimumConfidence
  { s with spatialWeight := spatialWeight, spatialNormalization := 1 }

/-! ## The auto-sizing (ONE PARAMETER) constructor (SeedsRevised.cpp 73-112) -/

/-- Accumulator of the auto-sizing scan: the C++ locals
`minDifference, minLevels, minBlockWidth, minBlockHeight`. -/
structure AutoAcc where
  minDifference : Int
  minLevels : Nat
  minBlockWidth : Nat
  minBlockHeight : Nat
deriving DecidableEq

/-- Superpixel count the scan computes for a candidate `(w, h, l)`:
`floor(width/(w*2^(l-1))) * floor(height/(h*2^(l-1)))`. -/
def autosizeSuperpixels (width height w h l : Nat) : Nat :=
  (width / (w * 2 ^ (l - 1))) * (height / (h * 2 ^ (l - 1)))

/-- The `difference` computed for a candidate triple `(w, h, l)`:
`abs(desiredNumberOfSuperpixels - superpixels)`. -/
def autosizeDiff (width height : Nat) (S : Int) (t : Nat × Nat × Nat) : Int :=
  |S - (autosizeSuperpixels width height t.1 t.2.1 t.2.2 : Int)|

/-- Body of the innermost scan loop: keep the candidate iff
`difference < minDifference || minDifference < 0`. -/
def autosizeStep (width height : Nat) (S : Int) (w h l : Nat) (acc : AutoAcc) :
    AutoAcc :=
  let difference := autosizeDiff width height S (w, h, l)
  if difference < acc.minDifference ∨ acc.minDifference < 0 then
    ⟨difference, l, w, h⟩
  else acc

/-- The level range of the scan: `for (l = 2; l < maxLevels + 1; ++l)` with
`maxLevels = 12`. -/
def levelList : List Nat :=
  (List.range 11).map (fun k => k + 2)

/-- The nested scan of the ONE PARAMETER constructor over
`minimumBlockWidths = {2,3,4}`, `minimumBlockHeights = {2,3,4}` (skipping
pairs with `abs(w - h) > 1`) and levels `2..12`, starting from
`minDifference = -1`. -/
def autosizeScan (width height : Nat) (S : Int) : AutoAcc :=
  List.foldl (fun acc (w : Nat) =>
    List.foldl (fun acc (h : Nat) =>
      if 1 < ((w : Int) - (h : Int)).natAbs then acc
      else List.foldl (fun acc l => autosizeStep width height S w h l acc)
        acc levelList)
      acc ([2, 3, 4] : List Nat))
    ⟨-1, 0, 0, 0⟩ ([2, 3, 4] : List Nat)

/-- The assertions following the scan:
`assert(minDifference >= 0); assert(minLevels >= 2);
assert(minBlockWidth > 0); assert(minBlockHeight > 0)`. -/
def autosizePost (acc : AutoAcc) : Prop :=
  0 ≤ acc.minDifference ∧ 2 ≤ acc.minLevels ∧
    0 < acc.minBlockWidth ∧ 0 < acc.minBlockHeight

/-- The ONE PARAMETER constructor
`SEEDSRevised(image, desiredNumberOfSuperpixels, numberOfBins,
neighborhoodSize, minimumConfidence)`: run the scan, then construct with the
selected geometry. -/
def seedsRevisedCtorDesired (width height channels : Nat)
    (imagePixel : Nat → Nat → Nat → Nat) (desiredNumberOfSuperpixels : Int)
    (numberOfBins : Nat) (neighborhoodSize : Int) (minimumConfidence : ℚ) :
    State :=
  let acc := autosizeScan width height desiredNumberOfSuperpixels
  construct width height channels imagePixel numberOfBins acc.minLevels
    acc.minBlockWidth acc.minBlockHeight neighborhoodSize minimumConfidence

/-! ### First-argmin characterization of the scan -/

/-- The candidate triples `(w, h, l)` of the scan, flattened in the nested
`(w, h, l)` ascending visit order. -/
def autosizeTriples : List (Nat × Nat × Nat) :=
  ([2, 3, 4] : List Nat).flatMap (fun (w : Nat) =>
    ([2, 3, 4] : List Nat).flatMap (fun (h : Nat) =>
      if 1 < ((w : Int) - (h : Int)).natAbs then []
      else levelList.map (fun l => (w, h, l))))

/-- Running minimum of `autosizeDiff` over a list, seeded with `q`. -/
def bestDiff (width height : Nat) (S : Int) (q : Int) :
    List (Nat × Nat × Nat) → Int
  | [] => q
  | t :: ts => bestDiff width height S (min q (autosizeDiff width height S t)) ts

/-- The minimum of `autosizeDiff` over the whole candidate list. -/
def autosizeBestDiff (width height : Nat) (S : Int) : Int :=
  bestDiff width height S (autosizeDiff width height S (2, 2, 2))
    autosizeTriples.tail

theorem bestDiff_le (width height : Nat) (S : Int) (q : Int)
    (ts : List (Nat × Nat × Nat)) : bestDiff width height S q ts ≤ q := by
  induction ts generalizing q with
  | nil => exact le_refl q
  | cons t ts ih => exact le_trans (ih _) (min_le_left _ _)

theorem bestDiff_le_elem (width height : Nat) (S : Int) (q : Int)
    (ts : List (Nat × Nat × Nat)) (t : Nat × Nat × Nat) (h : t ∈ ts) :
    bestDiff width height S q ts ≤ autosizeDiff width height S t := by
  induction ts generalizing q with
  | nil => cases h
  | cons u ts ih =>
    rcases List.mem_cons.mp h with h1 | h2
    · subst h1
      exact le_trans (bestDiff_le width height S _ ts) (min_le_right _ _)
    · exact ih _ h2

theorem bestDiff_lt_mem (width height : Nat) (S : Int) (q : Int)
    (ts : List (Nat × Nat × Nat)) (h : bestDiff width height S q ts < q) :
    ∃ t ∈ ts, autosizeDiff width height S t = bestDiff width height S q ts := by
  induction ts generalizing q with
  | nil => exact absurd h (lt_irrefl q)
  | cons u ts ih =>
    by_cases hq : bestDiff width height S (min q (autosizeDiff width height S u)) ts
        < min q (autosizeDiff width height S u)
    · obtain ⟨t, ht, he⟩ := ih _ hq
      exact ⟨t, List.mem_cons_of_mem u ht, he⟩
    · have heq : bestDiff width height S q (u :: ts)
          = min q (autosizeDiff width height S u) :=
        le_antisymm (bestDiff_le width height S _ ts) (not_lt.mp hq)
      rcases le_or_lt q (autosizeDiff width height S u) with hle | hlt
      · exfalso
        have hmin : min q (autosizeDiff width height S u) = q := min_eq_left hle
        rw [heq, hmin] at h
        exact lt_irrefl q h
      · refine ⟨u, List.mem_cons_self u ts, ?_⟩
        rw [heq, min_eq_right (le_of_lt hlt)]

theorem find?_congr {α : Type} (p q : α → Bool) (l : List α)
    (h : ∀ a ∈ l, p a = q a) : l.find? p = l.find? q := by
  induction l with
  | nil => rfl
  | cons a l ih =>
    have ha := h a (List.mem_cons_self a l)
    by_cases hp : p a = true
    · rw [List.find?_cons_of_pos _ hp, List.find?_cons_of_pos _ (ha ▸ hp)]
    · rw [List.find?_cons_of_neg _ hp, List.find?_cons_of_neg _ (by rw [← ha]; exact hp),
        ih (fun b hb => h b (List.mem_cons_of_mem a hb))]

/-- Selection predicate used to phrase the scan result: candidate `t` has a
difference below `q` equal to the target value `M`. -/
def autosizePred (width height : Nat) (S q M : Int) (t : Nat × Nat × Nat) :
    Bool :=
  decide (autosizeDiff width height S t < q) &&
    decide (autosizeDiff width height S t = M)

theorem autosizeFold_spec (width height : Nat) (S : Int)
    (ts : List (Nat × Nat × Nat)) (acc : AutoAcc)
    (h : 0 ≤ acc.minDifference) :
    ts.foldl (fun a t => autosizeStep width height S t.1 t.2.1 t.2.2 a) acc =
      ((ts.find? (autosizePred width height S acc.minDifference
          (bestDiff width height S acc.minDifference ts))).map
        (fun t => AutoAcc.mk (autosizeDiff width height S t) t.2.2 t.1 t.2.1)).getD
        acc := by
  induction ts generalizing acc with
  | nil => rfl
  | cons u ts ih =>
    have hstep : autosizeStep width height S u.1 u.2.1 u.2.2 acc =
        if autosizeDiff width height S u < acc.minDifference then
          AutoAcc.mk (autosizeDiff width height S u) u.2.2 u.1 u.2.1
        else acc := by
      unfold autosizeStep
      by_cases hc : autosizeDiff width height S (u.1, u.2.1, u.2.2) < acc.minDifference
      · simp [hc]
      · have hq : ¬ acc.minDifference < 0 := not_lt.mpr h
        simp [hc, hq]
    rw [List.foldl_cons, hstep]
    by_cases hdu : autosizeDiff width height S u < acc.minDifference
    · rw [if_pos hdu]
      have hacc1 : (0 : Int) ≤ autosizeDiff width height S u := abs_nonneg _
      rw [ih _ hacc1]
      have hM : bestDiff width height S acc.minDifference (u :: ts)
          = bestDiff width height S (autosizeDiff width height S u) ts := by
        show bestDiff width height S
            (min acc.minDifference (autosizeDiff width height S u)) ts = _
        rw [min_eq_right (le_of_lt hdu)]
      rw [hM]
      by_cases hEq : autosizeDiff width height S u
          = bestDiff width height S (autosizeDiff width height S u) ts
      · have hpred : autosizePred width height S acc.minDifference
            (bestDiff width height S (autosizeDiff width height S u) ts) u = true := by
          simp only [autosizePred, Bool.and_eq_true, decide_eq_true_eq]
          exact ⟨hdu, hEq⟩
        rw [List.find?_cons_of_pos _ hpred]
        have hnone : ts.find? (autosizePred width height S
            (autosizeDiff width height S u)
            (bestDiff width height S (autosizeDiff width height S u) ts)) = none := by
          apply List.find?_eq_none.mpr
          intro t _
          simp only [autosizePred, Bool.and_eq_true, decide_eq_true_eq, not_and]
          intro hlt hteq
          rw [hteq, ← hEq] at hlt
          exact lt_irrefl _ hlt
        rw [hnone]
        rfl
      · have hMlt : bestDiff width height S (autosizeDiff width height S u) ts
            < autosizeDiff width height S u :=
          lt_of_le_of_ne (bestDiff_le width height S _ ts) (fun he => hEq he.symm)
        have hpred : ¬ autosizePred width height S acc.minDifference
            (bestDiff width height S (autosizeDiff width height S u) ts) u = true := by
          simp only [autosizePred, Bool.and_eq_true, decide_eq_true_eq, not_and]
          intro _ hc
          exact hEq hc
        rw [List.find?_cons_of_neg _ hpred]
        have hcongr : ts.find? (autosizePred width height S
            (autosizeDiff width height S u)
            (bestDiff width height S (autosizeDiff width height S u) ts))
            = ts.find? (autosizePred width height S acc.minDifference
            (bestDiff width height S (autosizeDiff width height S u) ts)) := by
          apply find?_congr
          intro t _
          simp only [autosizePred]
          by_cases hteq : autosizeDiff width height S t
              = bestDiff width height S (autosizeDiff width height S u) ts
          · have h1 : autosizeDiff width height S t < autosizeDiff width height S u := by
              rw [hteq]; exact hMlt
            have h2 : autosizeDiff width height S t < acc.minDifference :=
              lt_trans h1 hdu
            simp [h1, h2]
          · simp [hteq]
        rw [← hcongr]
        obtain ⟨t0, ht0mem, ht0eq⟩ :=
          bestDiff_lt_mem width height S (autosizeDiff width height S u) ts hMlt
        rcases hfind : ts.find? (autosizePred width height S
            (autosizeDiff width height S u)
            (bestDiff width height S (autosizeDiff width height S u) ts)) with _ | t1
        · exfalso
          have hall := List.find?_eq_none.mp hfind t0 ht0mem
          simp only [autosizePred, Bool.and_eq_true, decide_eq_true_eq, not_and] at hall
          exact hall (by rw [ht0eq]; exact hMlt) ht0eq
        · rfl
    · rw [if_neg hdu]
      have hM : bestDiff width height S acc.minDifference (u :: ts)
          = bestDiff width height S acc.minDifference ts := by
        show bestDiff width height S
            (min acc.minDifference (autosizeDiff width height S u)) ts = _
        rw [min_eq_left (not_lt.mp hdu)]
      rw [hM]
      have hpred : ¬ autosizePred width height S acc.minDifference
          (bestDiff width height S acc.minDifference ts) u = true := by
        simp only [autosizePred, Bool.and_eq_true, decide_eq_true_eq, not_and]
        intro hc
        exact absurd hc hdu
      rw [List.find?_cons_of_neg _ hpred]
      exact ih _ h

/-- Claim-facing selection predicate: candidate `t` attains the minimal
difference over the whole scan. -/
def autosizeMinPred (width height : Nat) (S : Int) (t : Nat × Nat × Nat) :
    Bool :=
  decide (autosizeDiff width height S t = autosizeBestDiff width height S)

theorem foldl_flatMap {α β γ : Type} (g : α → List β) (f : γ → β → γ)
    (l : List α) (init : γ) :
    (l.flatMap g).foldl f init = l.foldl (fun a x => (g x).foldl f a) init := by
  induction l generalizing init with
  | nil => rfl
  | cons x l ih => simp only [List.flatMap_cons, List.foldl_append,
      List.foldl_cons, ih]

theorem foldl_ite_nil {β γ : Type} (c : Prop) [Decidable c] (l : List β)
    (f : γ → β → γ) (a : γ) :
    (if c then ([] : List β) else l).foldl f a = if c then a else l.foldl f a := by
  split <;> rfl

theorem autosizeScan_eq_flat (width height : Nat) (S : Int) :
    autosizeScan width height S =
      autosizeTriples.foldl
        (fun a t => autosizeStep width height S t.1 t.2.1 t.2.2 a)
        ⟨-1, 0, 0, 0⟩ := by
  unfold autosizeScan autosizeTriples
  simp only [foldl_flatMap, List.foldl_map, foldl_ite_nil]

theorem autosizeScan_first_argmin (width height : Nat) (S : Int) :
    ∃ t, autosizeTriples.find? (autosizeMinPred width height S) = some t ∧
      autosizeScan width height S =
        ⟨autosizeDiff width height S t, t.2.2, t.1, t.2.1⟩ ∧
      autosizeDiff width height S t = autosizeBestDiff width height S ∧
      ∀ u ∈ autosizeTriples,
        autosizeBestDiff width height S ≤ autosizeDiff width height S u := by
  have hcons : autosizeTriples = (2, 2, 2) :: autosizeTriples.tail := rfl
  have hfirst : autosizeScan width height S =
      autosizeTriples.tail.foldl
        (fun a t => autosizeStep width height S t.1 t.2.1 t.2.2 a)
        ⟨autosizeDiff width height S (2, 2, 2), 2, 2, 2⟩ := by
    rw [autosizeScan_eq_flat, hcons, List.foldl_cons]
    have hsentinel : autosizeStep width height S 2 2 2 ⟨-1, 0, 0, 0⟩ =
        ⟨autosizeDiff width height S (2, 2, 2), 2, 2, 2⟩ := by
      unfold autosizeStep
      norm_num
    rw [hsentinel]
    rfl
  have hspec : autosizeTriples.tail.foldl
      (fun a t => autosizeStep width height S t.1 t.2.1 t.2.2 a)
      ⟨autosizeDiff width height S (2, 2, 2), 2, 2, 2⟩ =
      ((autosizeTriples.tail.find? (autosizePred width height S
          (autosizeDiff width height S (2, 2, 2))
          (autosizeBestDiff width height S))).map
        (fun t => AutoAcc.mk (autosizeDiff width height S t) t.2.2 t.1 t.2.1)).getD
        ⟨autosizeDiff width height S (2, 2, 2), 2, 2, 2⟩ :=
    autosizeFold_spec width height S autosizeTriples.tail
      ⟨autosizeDiff width height S (2, 2, 2), 2, 2, 2⟩ (abs_nonneg _)
  have hMle : autosizeBestDiff width height S
      ≤ autosizeDiff width height S (2, 2, 2) :=
    bestDiff_le width height S _ _
  have hall : ∀ u ∈ autosizeTriples,
      autosizeBestDiff width height S ≤ autosizeDiff width height S u := by
    intro u hu
    rw [hcons] at hu
    rcases List.mem_cons.mp hu with h1 | h2
    · subst h1; exact hMle
    · exact bestDiff_le_elem width height S _ _ u h2
  by_cases hEq : autosizeDiff width height S (2, 2, 2)
      = autosizeBestDiff width height S
  · refine ⟨(2, 2, 2), ?_, ?_, hEq, hall⟩
    · rw [hcons]
      apply List.find?_cons_of_pos
      simp only [autosizeMinPred, decide_eq_true_eq]
      exact hEq
    · rw [hfirst, hspec]
      have hnone : autosizeTriples.tail.find? (autosizePred width height S
          (autosizeDiff width height S (2, 2, 2))
          (autosizeBestDiff width height S)) = none := by
        apply List.find?_eq_none.mpr
        intro t _
        simp only [autosizePred, Bool.and_eq_true, decide_eq_true_eq, not_and]
        intro hlt hteq
        rw [hteq, ← hEq] at hlt
        exact lt_irrefl _ hlt
      rw [hnone]
      rfl
  · have hMlt : autosizeBestDiff width height S
        < autosizeDiff width height S (2, 2, 2) :=
      lt_of_le_of_ne hMle (fun he => hEq he.symm)
    obtain ⟨t0, ht0mem, ht0eq⟩ :=
      bestDiff_lt_mem width height S (autosizeDiff width height S (2, 2, 2))
        autosizeTriples.tail hMlt
    have hcongr : autosizeTriples.tail.find? (autosizePred width height S
        (autosizeDiff width height S (2, 2, 2)) (autosizeBestDiff width height S))
        = autosizeTriples.tail.find? (autosizeMinPred width height S) := by
      apply find?_congr
      intro t _
      simp only [autosizePred, autosizeMinPred]
      by_cases hteq : autosizeDiff width height S t = autosizeBestDiff width height S
      · have h1 : autosizeDiff width height S t
            < autosizeDiff width height S (2, 2, 2) := by
          rw [hteq]; exact hMlt
        simp [h1, hteq, hMlt]
      · simp [hteq]
    rcases hfind : autosizeTriples.tail.find? (autosizeMinPred width height S)
        with _ | t1
    · exfalso
      have hall2 := List.find?_eq_none.mp hfind t0 ht0mem
      simp only [autosizeMinPred, decide_eq_true_eq] at hall2
      exact hall2 ht0eq
    · have ht1 := List.find?_some hfind
      simp only [autosizeMinPred, decide_eq_true_eq] at ht1
      refine ⟨t1, ?_, ?_, ht1, hall⟩
      · rw [hcons]
        have hhead : ¬ autosizeMinPred width height S (2, 2, 2) = true := by
          simp only [autosizeMinPred, decide_eq_true_eq]
          exact hEq
        rw [List.find?_cons_of_neg _ hhead]
        exact hfind
      · rw [hfirst, hspec, hcongr, hfind]
        rfl

/-- Claim C8 (amended): the auto-sizing constructor searches exactly the
candidate triples (w, h, L) with w, h from {2,3,4}, |w - h| <= 1 and L from
[2,12], flattened in nested (w, h, L) ascending scan order
(`autosizeTriples`); it selects the first candidate of that order attaining
the minimal value of |S - floor(W/(w*2^(L-1))) * floor(H/(h*2^(L-1)))|. It
never fails: the constructor assertions (`autosizePost`) hold for every image
size and every desired count; in particular a too-small image silently yields
a degenerate selection instead of a fatal failure. -/
theorem claim_C8_amended (width height : Nat) (S : Int) :
    (∃ t, autosizeTriples.find? (autosizeMinPred width height S) = some t ∧
      autosizeScan width height S =
        ⟨autosizeDiff width height S t, t.2.2, t.1, t.2.1⟩ ∧
      autosizeDiff width height S t = autosizeBestDiff width height S ∧
      ∀ u ∈ autosizeTriples,
        autosizeBestDiff width height S ≤ autosizeDiff width height S u) ∧
    autosizePost (autosizeScan width height S) := by
  obtain ⟨t, hfind, hscan, hbest, hall⟩ := autosizeScan_first_argmin width height S
  refine ⟨⟨t, hfind, hscan, hbest, hall⟩, ?_⟩
  have hmem : t ∈ autosizeTriples := List.mem_of_find?_eq_some hfind
  have hrange : ∀ u ∈ autosizeTriples,
      2 ≤ u.2.2 ∧ 0 < u.1 ∧ 0 < u.2.1 := by decide
  obtain ⟨h1, h2, h3⟩ := hrange t hmem
  rw [hscan]
  exact ⟨abs_nonneg _, h1, h2, h3⟩

set_option maxRecDepth 100000 in
/-- Claim C8 counterexample: on a 1-by-1 image with desired count 10 the
constructor does not fail: the scan selects (w, h, L) = (2, 2, 2) with
difference 10, every constructor assertion holds, and the selected geometry
yields zero superpixels. -/
theorem claim_C8_counterexample :
    autosizeScan 1 1 10 = ⟨10, 2, 2, 2⟩ ∧
    autosizePost (autosizeScan 1 1 10) ∧
    autosizeSuperpixels 1 1 2 2 2 = 0 ∧
    getNumberOfSuperpixels
      (seedsRevisedCtorDesired 1 1 1 (fun _ _ _ => 0) 10 5 1 0) = 0 := by
  refine ⟨by decide, ?_, by decide, by decide⟩
  rw [show autosizeScan 1 1 10 = ⟨10, 2, 2, 2⟩ by decide]
  exact ⟨by decide, by decide, by decide, by decide⟩

set_option maxRecDepth 100000 in
/-- Claim C1 (code bug): for the base class the explicit-geometry constructor
satisfies the documented superpixel-count formula, but the
SEEDSRevisedMeanPixels explicit-geometry constructor forwards its arguments to
the base constructor in scrambled positional order, so on a 16x16 image with
numberOfLevels = 2, minimumBlockWidth = minimumBlockHeight = 2 and
numberOfBins = 5 it stores numberOfLevels = 5 and reports 0 superpixels where
the documented formula gives floor(16/4) * floor(16/4) = 16. -/
theorem claim_C1_meanPixels_ctor_bug :
    getNumberOfSuperpixels
      (seedsRevisedCtor 16 16 1 (fun _ _ _ => 0) 2 2 2 5 1 0) = 16 ∧
    (16 / (2 * 2 ^ (2 - 1))) * (16 / (2 * 2 ^ (2 - 1))) = 16 ∧
    getNumberOfSuperpixels
      (meanPixelsCtor 16 16 1 (fun _ _ _ => 0) 2 2 2 5 1 0 0) = 0 ∧
    (meanPixelsCtor 16 16 1 (fun _ _ _ => 0) 2 2 2 5 1 0 0).numberOfLevels = 5 := by
  refine ⟨by decide, by decide, by decide, by decide⟩

/-! ## Label-to-superpixel index mapping (SeedsRevised.h 627-653) -/

/-- SEEDSRevised::getSuperpixelIFromLabel: `label / superpixelWidthNumber`.
Labels are non-negative in every reachable read, so the `Int.toNat` conversion
to an array index is exact. -/
def getSuperpixelI (s : State) (label : Int) : Nat :=
  (label / (s.superpixelWidthNumber : Int)).toNat

/-- SEEDSRevised::getSuperpixelJFromLabel: `label % superpixelWidthNumber`. -/
def getSuperpixelJ (s : State) (label : Int) : Nat :=
  (label % (s.superpixelWidthNumber : Int)).toNat

/-! ## Topology guard (SeedsRevised.h 667-900)

Each check reads a 2x3 or 3x2 window of `currentLabels` at the clamped
neighbor coordinates handed in by the callers, masks borders to the sentinel
label -1, and tests the three documented adjacency patterns. -/

/-- The three adjacency patterns of checkSplitVerticalForward. -/
def vfPatterns (l11 l12 l13 l21 l22 l23 : Int) : Bool :=
  if l12 ≠ l22 ∧ l21 = l22 ∧ l23 = l22 then true
  else if l11 ≠ l22 ∧ l12 = l22 ∧ l21 = l22 then true
  else if l13 ≠ l22 ∧ l12 = l22 ∧ l23 = l22 then true
  else false

/-- The three adjacency patterns of checkSplitVerticalBackward. -/
def vbPatterns (l21 l22 l23 l31 l32 l33 : Int) : Bool :=
  if l32 ≠ l22 ∧ l21 = l22 ∧ l23 = l22 then true
  else if l31 ≠ l22 ∧ l21 = l22 ∧ l32 = l22 then true
  else if l33 ≠ l22 ∧ l32 = l22 ∧ l23 = l22 then true
  else false

/-- The three adjacency patterns of checkSplitHorizontalForward. -/
def hfPatterns (l11 l12 l21 l22 l31 l32 : Int) : Bool :=
  if l21 ≠ l22 ∧ l12 = l22 ∧ l32 = l22 then true
  else if l11 ≠ l22 ∧ l12 = l22 ∧ l21 = l22 then true
  else if l31 ≠ l22 ∧ l21 = l22 ∧ l32 = l22 then true
  else false

/-- The three adjacency patterns of checkSplitHorizontalBackward. -/
def hbPatterns (l12 l13 l22 l23 l32 l33 : Int) : Bool :=
  if l23 ≠ l22 ∧ l12 = l22 ∧ l32 = l22 then true
  else if l13 ≠ l22 ∧ l12 = l22 ∧ l23 = l22 then true
  else if l33 ≠ l22 ∧ l23 = l22 ∧ l32 = l22 then true
  else false

/-- SEEDSRevised::checkSplitVerticalForward. -/
def checkSplitVerticalForward (s : State)
    (iFrom jFrom iPlusOne iMinusOne jPlusOne jMinusOne : Nat) : Bool :=
  let l11 := s.currentLabels iMinusOne jMinusOne
  let l12 := s.currentLabels iMinusOne jFrom
  let l13 := s.currentLabels iMinusOne jPlusOne
  let l21 := s.currentLabels iFrom jMinusOne
  let l22 := s.currentLabels iFrom jFrom
  let l23 := s.currentLabels iFrom jPlusOne
  let l11 := if iFrom = 0 then -1 else l11
  let l12 := if iFrom = 0 then -1 else l12
  let l13 := if iFrom = 0 then -1 else l13
  let l11 := if jFrom = 0 then -1 else l11
  let l21 := if jFrom = 0 then -1 else l21
  let l13 := if jFrom = s.width - 1 then -1 else l13
  let l23 := if jFrom = s.width - 1 then -1 else l23
  vfPatterns l11 l12 l13 l21 l22 l23

/-- SEEDSRevised::checkSplitVerticalBackward. -/
def checkSplitVerticalBackward (s : State)
    (iFrom jFrom iPlusOne iMinusOne jPlusOne jMinusOne : Nat) : Bool :=
  let l21 := s.currentLabels iFrom jMinusOne
  let l22 := s.currentLabels iFrom jFrom
  let l23 := s.currentLabels iFrom jPlusOne
  let l31 := s.currentLabels iPlusOne jMinusOne
  let l32 := s.currentLabels iPlusOne jFrom
  let l33 := s.currentLabels iPlusOne jPlusOne
  let l31 := if iFrom = s.height - 1 then -1 else l31
  let l32 := if iFrom = s.height - 1 then -1 else l32
  let l33 := if iFrom = s.height - 1 then -1 else l33
  let l21 := if jFrom = 0 then -1 else l21
  let l31 := if jFrom = 0 then -1 else l31
  let l23 := if jFrom = s.width - 1 then -1 else l23
  let l33 := if jFrom = s.width - 1 then -1 else l33
  vbPatterns l21 l22 l23 l31 l32 l33

/-- SEEDSRevised::checkSplitHorizontalForward. -/
def checkSplitHorizontalForward (s : State)
    (iFrom jFrom iPlusOne iMinusOne jPlusOne jMinusOne : Nat) : Bool :=
  let l11 := s.currentLabels iMinusOne jMinusOne
  let l12 := s.currentLabels iMinusOne jFrom
  let l21 := s.currentLabels iFrom jMinusOne
  let l22 := s.currentLabels iFrom jFrom
  let l31 := s.currentLabels iPlusOne jMinusOne
  let l32 := s.currentLabels iPlusOne jFrom
  let l11 := if iFrom = 0 then -1 else l11
  let l12 := if iFrom = 0 then -1 else l12
  let l31 := if iFrom = s.height - 1 then -1 else l31
  let l32 := if iFrom = s.height - 1 then -1 else l32
  let l11 := if jFrom = 0 then -1 else l11
  let l21 := if jFrom = 0 then -1 else l21
  let l31 := if jFrom = 0 then -1 else l31
  hfPatterns l11 l12 l21 l22 l31 l32

/-- SEEDSRevised::checkSplitHorizontalBackward. -/
def checkSplitHorizontalBackward (s : State)
    (iFrom jFrom iPlusOne iMinusOne jPlusOne jMinusOne : Nat) : Bool :=
  let l12 := s.currentLabels iMinusOne jFrom
  let l13 := s.currentLabels iMinusOne jPlusOne
  let l22 := s.currentLabels iFrom jFrom
  let l23 := s.currentLabels iFrom jPlusOne
  let l32 := s.currentLabels iPlusOne jFrom
  let l33 := s.currentLabels iPlusOne jPlusOne
  let l12 := if iFrom = 0 then -1 else l12
  let l13 := if iFrom = 0 then -1 else l13
  let l32 := if iFrom = s.height - 1 then -1 else l32
  let l33 := if iFrom = s.height - 1 then -1 else l33
  let l13 := if jFrom = s.width - 1 then -1 else l13
  let l23 := if jFrom = s.width - 1 then -1 else l23
  let l33 := if jFrom = s.width - 1 then -1 else l33
  hbPatterns l12 l13 l22 l23 l32 l33

/-! ## Block scoring (SeedsRevised.h 381-427) -/

/-- SEEDSRevised::scoreCurrentBlockSegmentation: truncated histogram
intersection between the block and its superpixel with the block removed. The
per-bin loop accumulates a pure sum, written as a `Finset.sum` over the same
bin range. -/
def scoreCurrentBlockSegmentation (s : State)
    (iFrom jFrom iSuperpixelFrom jSuperpixelFrom : Nat) : ℚ :=
  let superpixelMinusBlockPixels : ℚ :=
    (s.pixels (s.numberOfLevels - 1) iSuperpixelFrom jSuperpixelFrom : ℚ) -
      (s.pixels (s.currentLevel - 1) iFrom jFrom : ℚ)
  let blockPixels : ℚ := (s.pixels (s.currentLevel - 1) iFrom jFrom : ℚ)
  ∑ k ∈ Finset.range s.histogramSize,
    if 0 < s.histograms (s.currentLevel - 1) iFrom jFrom k ∧
        s.histograms (s.currentLevel - 1) iFrom jFrom k <
          s.histograms (s.numberOfLevels - 1) iSuperpixelFrom jSuperpixelFrom k then
      min (((s.histograms (s.numberOfLevels - 1) iSuperpixelFrom jSuperpixelFrom k -
              s.histograms (s.currentLevel - 1) iFrom jFrom k : Int) : ℚ) /
            superpixelMinusBlockPixels)
        ((s.histograms (s.currentLevel - 1) iFrom jFrom k : ℚ) / blockPixels)
    else 0

/-- SEEDSRevised::scoreProposedBlockSegmentation: histogram intersection
between the block and the candidate superpixel. -/
def scoreProposedBlockSegmentation (s : State)
    (iFrom jFrom iSuperpixelTo jSuperpixelTo : Nat) : ℚ :=
  let superpixelPixels : ℚ :=
    (s.pixels (s.numberOfLevels - 1) iSuperpixelTo jSuperpixelTo : ℚ)
  let blockPixels : ℚ := (s.pixels (s.currentLevel - 1) iFrom jFrom : ℚ)
  ∑ k ∈ Finset.range s.histogramSize,
    if 0 < s.histograms (s.currentLevel - 1) iFrom jFrom k ∧
        0 < s.histograms (s.numberOfLevels - 1) iSuperpixelTo jSuperpixelTo k then
      min ((s.histograms (s.numberOfLevels - 1) iSuperpixelTo jSuperpixelTo k : ℚ) /
            superpixelPixels)
        ((s.histograms (s.currentLevel - 1) iFrom jFrom k : ℚ) / blockPixels)
    else 0

/-! ## Block updates (SeedsRevised.h 445-483, SeedsRevised.cpp 722-827) -/

/-- SEEDSRevised::updateBlock: reassign the label, transfer the block pixel
count and histogram between the two superpixel buckets, and mark the block and
its four clamped neighbors dirty (`MEMORY` without `HEURISTIC_MEMORY`). -/
def updateBlock (s : State) (iFrom jFrom iTo jTo iSuperpixelFrom jSuperpixelFrom
    iSuperpixelTo jSuperpixelTo iPlusOne iMinusOne jPlusOne jMinusOne : Nat) :
    State :=
  let g1 := upd2 s.currentLabels iFrom jFrom (s.currentLabels iTo jTo)
  let s1 := { s with currentLabels := g1 }
  let spIdx := s1.numberOfLevels - 1
  let blkIdx := s1.currentLevel - 1
  let p2 := upd3 s1.pixels spIdx iSuperpixelFrom jSuperpixelFrom
    (s1.pixels spIdx iSuperpixelFrom jSuperpixelFrom - s1.pixels blkIdx iFrom jFrom)
  let s2 := { s1 with pixels := p2 }
  let p3 := upd3 s2.pixels spIdx iSuperpixelTo jSuperpixelTo
    (s2.pixels spIdx iSuperpixelTo jSuperpixelTo + s2.pixels blkIdx iFrom jFrom)
  let s3 := { s2 with pixels := p3 }
  let h4 := foldN s3.histogramSize (fun k h =>
    let h1 := upd4 h spIdx iSuperpixelFrom jSuperpixelFrom k
      (h spIdx iSuperpixelFrom jSuperpixelFrom k - h blkIdx iFrom jFrom k)
    upd4 h1 spIdx iSuperpixelTo jSuperpixelTo k
      (h1 spIdx iSuperpixelTo jSuperpixelTo k + h1 blkIdx iFrom jFrom k))
    s3.histograms
  let s4 := { s3 with histograms := h4 }
  let m5 := upd2 (upd2 (upd2 (upd2 (upd2 s4.spatialMemory iFrom jFrom true)
    iPlusOne jFrom true) iMinusOne jFrom true) iFrom jPlusOne true)
    iFrom jMinusOne true
  { s4 with spatialMemory := m5 }

/-- The membership quotient of SeedsRevised.cpp line 750:
`pixels[numberOfLevels-1][iSuperpixelFrom][jSuperpixelFrom] /
pixels[currentLevel-1][i][j]` (the local `blocks`). -/
def membershipBlocks (s : State) (i j iSuperpixelFrom jSuperpixelFrom : Nat) :
    Int :=
  s.pixels (s.numberOfLevels - 1) iSuperpixelFrom jSuperpixelFrom /
    s.pixels (s.currentLevel - 1) i j

/-- Candidate accumulator of a block or pixel update: the C++ locals
`iBest, jBest, iSuperpixelBest, jSuperpixelBest, bestScore`. -/
structure BestMove where
  iBest : Nat
  jBest : Nat
  iSuperpixelBest : Nat
  jSuperpixelBest : Nat
  bestScore : ℚ

/-- One candidate-direction block of SEEDSRevised::performBlockUpdate
(lines 761-774 and its three analogues): if the neighbor label differs and the
topology guard passes, score the proposed segmentation and replace the current
best exactly when the score beats the status quo plus the confidence margin
and strictly beats the best score so far. -/
def blockUpdateStep (s : State) (i j : Nat) (currentScore : ℚ)
    (labelNeighbor labelFrom : Int) (chk : Bool) (iTo jTo : Nat)
    (b : BestMove) : BestMove :=
  if labelNeighbor ≠ labelFrom ∧ chk = false then
    let iSuperpixelTo := getSuperpixelI s labelNeighbor
    let jSuperpixelTo := getSuperpixelJ s labelNeighbor
    let proposedScore := scoreProposedBlockSegmentation s i j iSuperpixelTo jSuperpixelTo
    if currentScore + s.minimumConfidence < proposedScore ∧
        b.bestScore < proposedScore then
      ⟨iTo, jTo, iSuperpixelTo, jSuperpixelTo, proposedScore⟩
    else b
  else b

/-- SEEDSRevised::performBlockUpdate. -/
def performBlockUpdate (s : State) (i j : Nat) : State :=
  if s.spatialMemory i j = true then
    let s1 := { s with spatialMemory := upd2 s.spatialMemory i j false }
    let iPlusOne := min (i + 1) (s1.currentBlockHeightNumber - 1)
    let iMinusOne := i - 1
    let jPlusOne := min (j + 1) (s1.currentBlockWidthNumber - 1)
    let jMinusOne := j - 1
    let labelFrom := s1.currentLabels i j
    let labelVerticalForward := s1.currentLabels iPlusOne j
    let labelVerticalBackward := s1.currentLabels iMinusOne j
    let labelHorizontalForward := s1.currentLabels i jPlusOne
    let labelHorizontalBackward := s1.currentLabels i jMinusOne
    if labelVerticalForward ≠ labelFrom ∨ labelVerticalBackward ≠ labelFrom ∨
        labelHorizontalForward ≠ labelFrom ∨ labelHorizontalBackward ≠ labelFrom then
      let iSuperpixelFrom := getSuperpixelI s1 labelFrom
      let jSuperpixelFrom := getSuperpixelJ s1 labelFrom
      if s1.minimumNumberOfSublabels
          < membershipBlocks s1 i j iSuperpixelFrom jSuperpixelFrom then
        let currentScore :=
          scoreCurrentBlockSegmentation s1 i j iSuperpixelFrom jSuperpixelFrom
        let b0 : BestMove := ⟨i, j, iSuperpixelFrom, jSuperpixelFrom, 0⟩
        let b1 := blockUpdateStep s1 i j currentScore labelVerticalForward
          labelFrom (checkSplitVerticalForward s1 i j iPlusOne iMinusOne
            jPlusOne jMinusOne) iPlusOne j b0
        let b2 := blockUpdateStep s1 i j currentScore labelVerticalBackward
          labelFrom (checkSplitVerticalBackward s1 i j iPlusOne iMinusOne
            jPlusOne jMinusOne) iMinusOne j b1
        let b3 := blockUpdateStep s1 i j currentScore labelHorizontalForward
          labelFrom (checkSplitHorizontalForward s1 i j iPlusOne iMinusOne
            jPlusOne jMinusOne) i jPlusOne b2
        let b4 := blockUpdateStep s1 i j currentScore labelHorizontalBackward
          labelFrom (checkSplitHorizontalBackward s1 i j iPlusOne iMinusOne
            jPlusOne jMinusOne) i jMinusOne b3
        if 0 < b4.bestScore then
          updateBlock s1 i j b4.iBest b4.jBest iSuperpixelFrom jSuperpixelFrom
            b4.iSuperpixelBest b4.jSuperpixelBest iPlusOne iMinusOne jPlusOne
            jMinusOne
        else s1
      else s1
    else s1
  else s

/-! ## Pixel updates (SeedsRevised.h 495-619, SeedsRevised.cpp 829-944) -/

/-- SEEDSRevised::scoreCurrentPixelSegmentation: occupancy of the pixel's
color bin in its superpixel, divided by the superpixel pixel count. -/
def scoreCurrentPixelSegmentation (s : State)
    (iFrom jFrom iSuperpixelFrom jSuperpixelFrom : Nat) : ℚ :=
  (s.histograms (s.numberOfLevels - 1) iSuperpixelFrom jSuperpixelFrom
      (s.histogramBins iFrom jFrom) : ℚ) /
    (s.pixels (s.numberOfLevels - 1) iSuperpixelFrom jSuperpixelFrom : ℚ)

/-- SEEDSRevised::scoreProposedPixelSegmentation. -/
def scoreProposedPixelSegmentation (s : State)
    (iFrom jFrom iSuperpixelTo jSuperpixelTo : Nat) : ℚ :=
  (s.histograms (s.numberOfLevels - 1) iSuperpixelTo jSuperpixelTo
      (s.histogramBins iFrom jFrom) : ℚ) /
    (s.pixels (s.numberOfLevels - 1) iSuperpixelTo jSuperpixelTo : ℚ)

/-- The window rows scanned by SEEDSRevised::scorePixelUpdate:
`[max(0, min(iFrom,iTo) - neighborhoodSize),
min(currentBlockHeightNumber, max(iFrom,iTo) + neighborhoodSize + 1))`. -/
def pixelWindowRows (s : State) (iFrom iTo : Nat) : Finset Nat :=
  Finset.Ico (max 0 ((min iFrom iTo : Int) - s.neighborhoodSize)).toNat
    (min (s.currentBlockHeightNumber : Int)
      ((max iFrom iTo : Int) + s.neighborhoodSize + 1)).toNat

/-- The window columns scanned by SEEDSRevised::scorePixelUpdate. -/
def pixelWindowCols (s : State) (jFrom jTo : Nat) : Finset Nat :=
  Finset.Ico (max 0 ((min jFrom jTo : Int) - s.neighborhoodSize)).toNat
    (min (s.currentBlockWidthNumber : Int)
      ((max jFrom jTo : Int) + s.neighborhoodSize + 1)).toNat

/-- The `countFrom` of SEEDSRevised::scorePixelUpdate: window cells whose
label equals `labelFrom`. -/
def pixelCountFrom (s : State) (iFrom jFrom iTo jTo : Nat) : Nat :=
  ((pixelWindowRows s iFrom iTo ×ˢ pixelWindowCols s jFrom jTo).filter
    (fun p => s.currentLabels p.1 p.2 = s.currentLabels iFrom jFrom)).card

/-- The `countTo` of SEEDSRevised::scorePixelUpdate: window cells hitting the
`else if` branch, i.e. label different from `labelFrom` and equal to
`labelTo`. -/
def pixelCountTo (s : State) (iFrom jFrom iTo jTo : Nat) : Nat :=
  ((pixelWindowRows s iFrom iTo ×ˢ pixelWindowCols s jFrom jTo).filter
    (fun p => ¬ s.currentLabels p.1 p.2 = s.currentLabels iFrom jFrom ∧
      s.currentLabels p.1 p.2 = s.currentLabels iTo jTo)).card

/-- SEEDSRevised::scorePixelUpdate (histogram mode smoothing prior): for
`neighborhoodSize > 0` scale the two scores by the same-label window counts,
then return `proposedScore - currentScore`. -/
def scorePixelUpdate (s : State) (iFrom jFrom iTo jTo : Nat)
    (currentScore proposedScore : ℚ) : ℚ :=
  if 0 < s.neighborhoodSize then
    (pixelCountTo s iFrom jFrom iTo jTo : ℚ) * proposedScore -
      (pixelCountFrom s iFrom jFrom iTo jTo : ℚ) * currentScore
  else proposedScore - currentScore

/-- SEEDSRevised::updatePixel: reassign the label, move one count between the
two superpixels, move one unit of the pixel's bin between the two superpixel
histograms, and mark the pixel and its four clamped neighbors dirty. -/
def updatePixel (s : State) (iFrom jFrom iTo jTo iSuperpixelFrom jSuperpixelFrom
    iSuperpixelTo jSuperpixelTo iPlusOne iMinusOne jPlusOne jMinusOne : Nat) :
    State :=
  let g1 := upd2 s.currentLabels iFrom jFrom (s.currentLabels iTo jTo)
  let s1 := { s with currentLabels := g1 }
  let spIdx := s1.numberOfLevels - 1
  let p2 := upd3 s1.pixels spIdx iSuperpixelFrom jSuperpixelFrom
    (s1.pixels spIdx iSuperpixelFrom jSuperpixelFrom - 1)
  let s2 := { s1 with pixels := p2 }
  let p3 := upd3 s2.pixels spIdx iSuperpixelTo jSuperpixelTo
    (s2.pixels spIdx iSuperpixelTo jSuperpixelTo + 1)
  let s3 := { s2 with pixels := p3 }
  let b := s3.histogramBins iFrom jFrom
  let h4 := upd4 s3.histograms spIdx iSuperpixelFrom jSuperpixelFrom b
    (s3.histograms spIdx iSuperpixelFrom jSuperpixelFrom b - 1)
  let s4 := { s3 with histograms := h4 }
  let h5 := upd4 s4.histograms spIdx iSuperpixelTo jSuperpixelTo b
    (s4.histograms spIdx iSuperpixelTo jSuperpixelTo b + 1)
  let s5 := { s4 with histograms := h5 }
  let m6 := upd2 (upd2 (upd2 (upd2 (upd2 s5.spatialMemory iFrom jFrom true)
    iPlusOne jFrom true) iMinusOne jFrom true) iFrom jPlusOne true)
    iFrom jMinusOne true
  { s5 with spatialMemory := m6 }

/-- One candidate-direction block of SEEDSRevised::performPixelUpdate
(SeedsRevised.cpp 849-863 and its three analogues): if the neighbor label
differs and the topology guard passes, compute the smoothed score difference
via scorePixelUpdate and replace the current best exactly when it is strictly
positive and strictly beats the best score so far. -/
def pixelUpdateStep (s : State) (i j : Nat) (currentScore : ℚ)
    (labelNeighbor labelFrom : Int) (chk : Bool) (iTo jTo : Nat)
    (b : BestMove) : BestMove :=
  if labelNeighbor ≠ labelFrom ∧ chk = false then
    let iSuperpixelTo := getSuperpixelI s labelNeighbor
    let jSuperpixelTo := getSuperpixelJ s labelNeighbor
    let proposedScore :=
      scoreProposedPixelSegmentation s i j iSuperpixelTo jSuperpixelTo
    let score := scorePixelUpdate s i j iTo jTo currentScore proposedScore
    if 0 < score ∧ b.bestScore < score then
      ⟨iTo, jTo, iSuperpixelTo, jSuperpixelTo, score⟩
    else b
  else b

/-- SEEDSRevised::performPixelUpdate. -/
def performPixelUpdate (s : State) (i j : Nat) : State :=
  if s.spatialMemory i j = true then
    let s1 := { s with spatialMemory := upd2 s.spatialMemory i j false }
    let iPlusOne := min (i + 1) (s1.height - 1)
    let iMinusOne := i - 1
    let jPlusOne := min (j + 1) (s1.width - 1)
    let jMinusOne := j - 1
    let labelFrom := s1.currentLabels i j
    let labelVerticalForward := s1.currentLabels iPlusOne j
    let labelVerticalBackward := s1.currentLabels iMinusOne j
    let labelHorizontalForward := s1.currentLabels i jPlusOne
    let labelHorizontalBackward := s1.currentLabels i jMinusOne
    if labelVerticalForward ≠ labelFrom ∨ labelVerticalBackward ≠ labelFrom ∨
        labelHorizontalForward ≠ labelFrom ∨ labelHorizontalBackward ≠ labelFrom then
      let iSuperpixelFrom := getSuperpixelI s1 labelFrom
      let jSuperpixelFrom := getSuperpixelJ s1 labelFrom
      if s1.minimumNumberOfSublabels
          < s1.pixels (s1.numberOfLevels - 1) iSuperpixelFrom jSuperpixelFrom then
        let currentScore :=
          scoreCurrentPixelSegmentation s1 i j iSuperpixelFrom jSuperpixelFrom
        let b0 : BestMove := ⟨i, j, iSuperpixelFrom, jSuperpixelFrom, 0⟩
        let b1 := pixelUpdateStep s1 i j currentScore labelVerticalForward
          labelFrom (checkSplitVerticalForward s1 i j iPlusOne iMinusOne
            jPlusOne jMinusOne) iPlusOne j b0
        let b2 := pixelUpdateStep s1 i j currentScore labelVerticalBackward
          labelFrom (checkSplitVerticalBackward s1 i j iPlusOne iMinusOne
            jPlusOne jMinusOne) iMinusOne j b1
        let b3 := pixelUpdateStep s1 i j currentScore labelHorizontalForward
          labelFrom (checkSplitHorizontalForward s1 i j iPlusOne iMinusOne
            jPlusOne jMinusOne) i jPlusOne b2
        let b4 := pixelUpdateStep s1 i j currentScore labelHorizontalBackward
          labelFrom (checkSplitHorizontalBackward s1 i j iPlusOne iMinusOne
            jPlusOne jMinusOne) i jMinusOne b3
        if 0 < b4.bestScore then
          updatePixel s1 i j b4.iBest b4.jBest iSuperpixelFrom jSuperpixelFrom
            b4.iSuperpixelBest b4.jSuperpixelBest iPlusOne iMinusOne jPlusOne
            jMinusOne
        else s1
      else s1
    else s1
  else s

/-! ## Label grid and level transition (SeedsRevised.cpp 244-431) -/

/-- One C++ assignment `labels[a][b] = labels[si][sj]` on the evolving grid. -/
def wrc (a b si sj : Nat) (g : Nat → Nat → Int) : Nat → Nat → Int :=
  upd2 g a b (g si sj)

/-- Body of the per-cell work of the level-descent loop (SeedsRevised.cpp
347-378): copy the cell label to its four children, then handle the bottom
right corner, the last-row remainder and the last-column remainder. -/
def goDownCell (cbhn cbwn nbhn nbwn i j : Nat) (g : Nat → Nat → Int) :
    Nat → Nat → Int :=
  let g1 := wrc (2 * i) (2 * j) i j g
  let g2 := wrc (2 * i + 1) (2 * j) i j g1
  let g3 := wrc (2 * i) (2 * j + 1) i j g2
  let g4 := wrc (2 * i + 1) (2 * j + 1) i j g3
  let g5 := if i = cbhn - 1 ∧ j = cbwn - 1 then
      foldRangeAsc (2 * i + 2) nbhn (fun k g =>
        foldRangeAsc (2 * j + 2) nbwn (fun l g => wrc k l i j g) g) g4
    else g4
  let g6 := if i = cbhn - 1 then
      foldRangeAsc (2 * i + 2) nbhn (fun k g =>
        wrc k (2 * j + 1) i j (wrc k (2 * j) i j g)) g5
    else g5
  let g7 := if j = cbwn - 1 then
      foldRangeAsc (2 * j + 2) nbwn (fun l g =>
        wrc (2 * i + 1) l i j (wrc (2 * i) l i j g)) g6
    else g6
  g7

/-- SEEDSRevised::goDownOneLevel. At levels above zero the current block
labels are copied down to the finer grid by the descending double loop; at
level zero every level-1 block stamps its label (read from the snapshot
`blockLabels`) onto its pixel extent, widened to the image boundary in the
last row/column. -/
def goDownOneLevel (s : State) : State :=
  let s1 := { s with currentLevel := s.currentLevel - 1 }
  if 0 < s1.currentLevel then
    let newBlockWidthNumber := getBlockWidthNumber s1 s1.currentLevel
    let newBlockHeightNumber := getBlockHeightNumber s1 s1.currentLevel
    let g := foldDesc s1.currentBlockHeightNumber (fun i g =>
      foldDesc s1.currentBlockWidthNumber (fun j g =>
        goDownCell s1.currentBlockHeightNumber s1.currentBlockWidthNumber
          newBlockHeightNumber newBlockWidthNumber i j g) g) s1.currentLabels
    { s1 with
      currentLabels := g,
      currentBlockWidthNumber := newBlockWidthNumber,
      currentBlockHeightNumber := newBlockHeightNumber,
      currentBlockWidth := getBlockWidth s1 s1.currentLevel,
      currentBlockHeight := getBlockHeight s1 s1.currentLevel }
  else
    let blockLabels := s1.currentLabels
    let g := foldN s1.currentBlockHeightNumber (fun i g =>
      foldN s1.currentBlockWidthNumber (fun j g =>
        let heightEnd := if i = s1.currentBlockHeightNumber - 1 then s1.height
          else s1.minimumBlockHeight * i + s1.minimumBlockHeight
        let widthEnd := if j = s1.currentBlockWidthNumber - 1 then s1.width
          else s1.minimumBlockWidth * j + s1.minimumBlockWidth
        foldRangeAsc (s1.minimumBlockHeight * i) heightEnd (fun k g =>
          foldRangeAsc (s1.minimumBlockWidth * j) widthEnd (fun l g =>
            upd2 g k l (blockLabels i j)) g) g) g) s1.currentLabels
    { s1 with
      currentLabels := g,
      currentBlockWidth := 1,
      currentBlockHeight := 1,
      currentBlockWidthNumber := s1.width,
      currentBlockHeightNumber := s1.height }

/-- SEEDSRevised::initializeLabels: set the geometry fields for the coarsest
level, hand out sequential row-major labels on the superpixel grid (-1
elsewhere), reset the spatial memory, and descend one level. -/
def initLabels (s : State) : State :=
  let s1 := { s with currentLevel := s.numberOfLevels }
  let s2 := { s1 with
    currentBlockWidth := getBlockWidth s1 s1.currentLevel,
    currentBlockHeight := getBlockHeight s1 s1.currentLevel,
    currentBlockWidthNumber := getBlockWidthNumber s1 s1.currentLevel,
    currentBlockHeightNumber := getBlockHeightNumber s1 s1.currentLevel,
    superpixelWidthNumber := getBlockWidthNumber s1 s1.numberOfLevels,
    superpixelHeightNumber := getBlockHeightNumber s1 s1.numberOfLevels,
    superpixelWidth := getBlockWidth s1 s1.numberOfLevels,
    superpixelHeight := getBlockHeight s1 s1.numberOfLevels }
  let gl := foldN s2.height (fun i acc =>
    foldN s2.width (fun j (acc : (Nat → Nat → Int) × Int) =>
      if i < s2.superpixelHeightNumber ∧ j < s2.superpixelWidthNumber then
        (upd2 acc.1 i j acc.2, acc.2 + 1)
      else (upd2 acc.1 i j (-1), acc.2)) acc) (s2.currentLabels, 0)
  let sm := foldN s2.height (fun i m =>
    foldN s2.width (fun j m => upd2 m i j true) m) s2.spatialMemory
  goDownOneLevel { s2 with currentLabels := gl.1, spatialMemory := sm }

/-- SEEDSRevised::reinitializeSpatialMemory. -/
def reinitSpatialMemory (s : State) : State :=
  let m := foldN s.currentBlockHeightNumber (fun i m =>
    foldN s.currentBlockWidthNumber (fun j m => upd2 m i j true) m)
    s.spatialMemory
  { s with spatialMemory := m }

/-! ## Histogram construction (SeedsRevised.cpp 474-720)

The default (non-`UNIFORM`) equalized binning samples every fifth row and
column, accumulates per-channel value histograms, turns them into inclusive
prefix sums, and maps each pixel through
`cumulative[value] / equiHeight` per channel with mixed-radix combination. -/

/-- The deterministic sparse sample grid: points `(5a, 5b)` for
`a < ceil(height/5)`, `b < ceil(width/5)`. -/
def samplePoints (s : State) : Finset (Nat × Nat) :=
  Finset.range ((s.height + 4) / 5) ×ˢ Finset.range ((s.width + 4) / 5)

/-- The sample counter `count` of the binning loop. -/
def sampleCount (s : State) : Nat :=
  (samplePoints s).card

/-- The per-channel sample histogram `channels[k][v]` before the prefix sum:
how many sample points have value `v` in channel `k`. -/
def sampleHist (s : State) (k v : Nat) : Nat :=
  ((samplePoints s).filter
    (fun p => s.imagePixel k (5 * p.1) (5 * p.2) = v)).card

/-- The integral array `channels[k][v]` after the in-place prefix sum:
inclusive cumulative counts. -/
def channelsCum (s : State) (k v : Nat) : Nat :=
  ∑ l ∈ Finset.range (v + 1), sampleHist s k l

/-- `equiHeight = ceil((count + 1) / numberOfBins)`, written as Nat ceiling
division. -/
def equiHeight (s : State) : Nat :=
  (sampleCount s + s.numberOfBins) / s.numberOfBins

/-- The per-pixel bin table of equalized binning. A channel count other than
1 or 3 leaves the initial out-of-range value `histogramSize` in place, exactly
like the C++ initialization of `histogramBins[i][j]`. -/
def histogramBinsOf (s : State) : Nat → Nat → Nat := fun i j =>
  if s.histogramDimensions = 1 then
    channelsCum s 0 (s.imagePixel 0 i j) / equiHeight s
  else if s.histogramDimensions = 3 then
    channelsCum s 0 (s.imagePixel 0 i j) / equiHeight s +
      s.numberOfBins * (channelsCum s 1 (s.imagePixel 1 i j) / equiHeight s) +
      s.numberOfBins * s.numberOfBins *
        (channelsCum s 2 (s.imagePixel 2 i j) / equiHeight s)
  else s.histogramSize

/-- Exclusive end row of level-1 block row `i` (widened to the image boundary
in the last row). -/
def blockHeightEnd (s : State) (i : Nat) : Nat :=
  if i = getBlockHeightNumber s 1 - 1 then s.height
  else (i + 1) * s.minimumBlockHeight

/-- Exclusive end column of level-1 block column `j`. -/
def blockWidthEnd (s : State) (j : Nat) : Nat :=
  if j = getBlockWidthNumber s 1 - 1 then s.width
  else (j + 1) * s.minimumBlockWidth

/-- The pixel rectangle of level-1 block `(i, j)`. -/
def blockRect (s : State) (i j : Nat) : Finset (Nat × Nat) :=
  Finset.Ico (i * s.minimumBlockHeight) (blockHeightEnd s i) ×ˢ
    Finset.Ico (j * s.minimumBlockWidth) (blockWidthEnd s j)

/-- The pixel counts array built by SEEDSRevised::initializeHistograms:
index 0 is level 1 (exhaustive per-pixel scan of each block rectangle), index
`lvlIdx+1` is level `lvlIdx+2` (sum of the four children at the level below,
plus the guarded last-row / last-column / corner remainder children). -/
def levelPixels (s : State) : Nat → Nat → Nat → Int
  | 0, i, j => ((blockRect s i j).card : Int)
  | lvlIdx + 1, i, j =>
    let below := levelPixels s lvlIdx
    let bhn := getBlockHeightNumber s (lvlIdx + 2)
    let bwn := getBlockWidthNumber s (lvlIdx + 2)
    let bhnBelow := getBlockHeightNumber s (lvlIdx + 1)
    let bwnBelow := getBlockWidthNumber s (lvlIdx + 1)
    below (2 * i) (2 * j) + below (2 * i + 1) (2 * j) +
      below (2 * i) (2 * j + 1) + below (2 * i + 1) (2 * j + 1) +
      (if i = bhn - 1 ∧ 2 * i + 2 < bhnBelow then
        below (2 * i + 2) (2 * j) + below (2 * i + 2) (2 * j + 1) else 0) +
      (if j = bwn - 1 ∧ 2 * j + 2 < bwnBelow then
        below (2 * i) (2 * j + 2) + below (2 * i + 1) (2 * j + 2) else 0) +
      (if i = bhn - 1 ∧ j = bwn - 1 ∧ 2 * i + 2 < bhnBelow ∧ 2 * j + 2 < bwnBelow
        then below (2 * i + 2) (2 * j + 2) else 0)

/-- Pixels of level-1 block `(i, j)` falling into color bin `b`. -/
def binRect (s : State) (i j b : Nat) : Finset (Nat × Nat) :=
  (blockRect s i j).filter (fun p => s.histogramBins p.1 p.2 = b)

/-- The histograms array built by SEEDSRevised::initializeHistograms, with the
same level layout and remainder handling as `levelPixels`. -/
def levelHistograms (s : State) : Nat → Nat → Nat → Nat → Int
  | 0, i, j, b => ((binRect s i j b).card : Int)
  | lvlIdx + 1, i, j, b =>
    let below := levelHistograms s lvlIdx
    let bhn := getBlockHeightNumber s (lvlIdx + 2)
    let bwn := getBlockWidthNumber s (lvlIdx + 2)
    let bhnBelow := getBlockHeightNumber s (lvlIdx + 1)
    let bwnBelow := getBlockWidthNumber s (lvlIdx + 1)
    below (2 * i) (2 * j) b + below (2 * i + 1) (2 * j) b +
      below (2 * i) (2 * j + 1) b + below (2 * i + 1) (2 * j + 1) b +
      (if i = bhn - 1 ∧ 2 * i + 2 < bhnBelow then
        below (2 * i + 2) (2 * j) b + below (2 * i + 2) (2 * j + 1) b else 0) +
      (if j = bwn - 1 ∧ 2 * j + 2 < bwnBelow then
        below (2 * i) (2 * j + 2) b + below (2 * i + 1) (2 * j + 2) b else 0) +
      (if i = bhn - 1 ∧ j = bwn - 1 ∧ 2 * i + 2 < bhnBelow ∧ 2 * j + 2 < bwnBelow
        then below (2 * i + 2) (2 * j + 2) b else 0)

/-- SEEDSRevised::initializeHistograms: set `histogramDimensions` and
`histogramSize`, build the equalized per-pixel bin table, then build the pixel
counts and histograms of every level bottom-up. -/
def initHistograms (s : State) : State :=
  let s1 := { s with
    histogramDimensions := s.channels,
    histogramSize := s.numberOfBins ^ s.channels }
  let s2 := { s1 with histogramBins := histogramBinsOf s1 }
  { s2 with pixels := levelPixels s2, histograms := levelHistograms s2 }

/-- SEEDSRevised::initialize: labels first, then histograms. -/
def initAll (s : State) : State :=
  initHistograms (initLabels s)

/-! ## Iteration drivers (SeedsRevised.cpp 946-970, 1044-1069) -/

/-- One full row-major block sweep repeated `iterations` times at the current
level, as in SEEDSRevised::iterate. -/
def blockSweeps (s : State) (iterations : Nat) : State :=
  foldN iterations (fun _ t =>
    foldN s.currentBlockHeightNumber (fun i t =>
      foldN s.currentBlockWidthNumber (fun j t => performBlockUpdate t i j) t) t) s

/-- The `while (currentLevel > 0)` loop of SEEDSRevised::iterate. Each pass
descends exactly one level, so the fuel `currentLevel` makes the recursion
run until level zero exactly as the C++ loop does. -/
def iterLevels (iterations : Nat) : Nat → State → State
  | 0, s => s
  | fuel + 1, s =>
    if 0 < s.currentLevel then
      iterLevels iterations fuel
        (goDownOneLevel (blockSweeps (reinitSpatialMemory s) iterations))
    else s

/-- SEEDSRevised::iterate: block sweeps with level descent until the pixel
level, then `2 * iterations` row-major pixel sweeps. -/
def iterate (s : State) (iterations : Nat) : State :=
  let s1 := iterLevels iterations s.currentLevel s
  let s2 := reinitSpatialMemory s1
  foldN (2 * iterations) (fun _ t =>
    foldN s2.height (fun i t =>
      foldN s2.width (fun j t => performPixelUpdate t i j) t) t) s2

/-! ## The mean-pixels variant (SeedsRevised.h 1151-1305, SeedsRevised.cpp
1044-1137) -/

/-- SEEDSRevisedMeanPixels::initializeMeans: per-pixel feature vectors
(channel values, then x = column, then y = row) and per-superpixel running
sums accumulated from the current label grid, plus the normalization
constants. -/
def initMeans (s : State) : State :=
  let meanDims := s.histogramDimensions + 2
  let m0 : Nat → Nat → Nat → ℚ := fun i j k =>
    if k < s.histogramDimensions then (s.imagePixel k i j : ℚ)
    else if k = meanDims - 2 then (j : ℚ)
    else if k = meanDims - 1 then (i : ℚ)
    else 0
  let m1 : Nat → Nat → Nat → ℚ := fun a b k =>
    ∑ p ∈ Finset.range s.height ×ˢ Finset.range s.width,
      if getSuperpixelI s (s.currentLabels p.1 p.2) = a ∧
          getSuperpixelJ s (s.currentLabels p.1 p.2) = b ∧ k < meanDims then
        m0 p.1 p.2 k
      else 0
  { s with
    meanDimensions := meanDims,
    means0 := m0,
    means1 := m1,
    colorNormalization := (255 : ℚ) * 255 * s.histogramDimensions,
    spatialNormalization := (s.height : ℚ) * s.height + (s.width : ℚ) * s.width }

/-- SEEDSRevisedMeanPixels::scoreCurrentPixelSegmentation: normalized squared
color distance to the superpixel mean, blended with the normalized squared
spatial distance when `spatialWeight > 0`. -/
def meanScoreCurrentPixelSegmentation (s : State)
    (iFrom jFrom iSuperpixelFrom jSuperpixelFrom : Nat) : ℚ :=
  let p : ℚ := (s.pixels (s.numberOfLevels - 1) iSuperpixelFrom jSuperpixelFrom : ℚ)
  let currentColorScore : ℚ :=
    if s.histogramDimensions = 1 then
      let difference := s.means1 iSuperpixelFrom jSuperpixelFrom 0 / p -
        s.means0 iFrom jFrom 0
      difference * difference / s.colorNormalization
    else
      let differenceL := s.means1 iSuperpixelFrom jSuperpixelFrom 0 / p -
        s.means0 iFrom jFrom 0
      let differenceA := s.means1 iSuperpixelFrom jSuperpixelFrom 1 / p -
        s.means0 iFrom jFrom 1
      let differenceB := s.means1 iSuperpixelFrom jSuperpixelFrom 2 / p -
        s.means0 iFrom jFrom 2
      (differenceL * differenceL + differenceA * differenceA +
        differenceB * differenceB) / s.colorNormalization
  if 0 < s.spatialWeight then
    let differenceX := s.means1 iSuperpixelFrom jSuperpixelFrom
        (s.meanDimensions - 2) / p - s.means0 iFrom jFrom (s.meanDimensions - 2)
    let differenceY := s.means1 iSuperpixelFrom jSuperpixelFrom
        (s.meanDimensions - 1) / p - s.means0 iFrom jFrom (s.meanDimensions - 1)
    let currentSpatialScore := (differenceX * differenceX +
      differenceY * differenceY) / s.spatialNormalization
    (1 - s.spatialWeight) * currentColorScore + s.spatialWeight * currentSpatialScore
  else currentColorScore

/-- SEEDSRevisedMeanPixels::scoreProposedPixelSegmentation. -/
def meanScoreProposedPixelSegmentation (s : State)
    (iFrom jFrom iSuperpixelTo jSuperpixelTo : Nat) : ℚ :=
  let p : ℚ := (s.pixels (s.numberOfLevels - 1) iSuperpixelTo jSuperpixelTo : ℚ)
  let proposedColorScore : ℚ :=
    if s.histogramDimensions = 1 then
      let difference := s.means1 iSuperpixelTo jSuperpixelTo 0 / p -
        s.means0 iFrom jFrom 0
      difference * difference / s.colorNormalization
    else
      let differenceL := s.means1 iSuperpixelTo jSuperpixelTo 0 / p -
        s.means0 iFrom jFrom 0
      let differenceA := s.means1 iSuperpixelTo jSuperpixelTo 1 / p -
        s.means0 iFrom jFrom 1
      let differenceB := s.means1 iSuperpixelTo jSuperpixelTo 2 / p -
        s.means0 iFrom jFrom 2
      (differenceL * differenceL + differenceA * differenceA +
        differenceB * differenceB) / s.colorNormalization
  if 0 < s.spatialWeight then
    let differenceX := s.means1 iSuperpixelTo jSuperpixelTo
        (s.meanDimensions - 2) / p - s.means0 iFrom jFrom (s.meanDimensions - 2)
    let differenceY := s.means1 iSuperpixelTo jSuperpixelTo
        (s.meanDimensions - 1) / p - s.means0 iFrom jFrom (s.meanDimensions - 1)
    let proposedSpatialScore := (differenceX * differenceX +
      differenceY * differenceY) / s.spatialNormalization
    (1 - s.spatialWeight) * proposedColorScore + s.spatialWeight * proposedSpatialScore
  else proposedColorScore

/-- SEEDSRevisedMeanPixels::scorePixelUpdate: divide by the window counts and
return `currentScore - proposedScore` (smaller blended distance wins). -/
def meanScorePixelUpdate (s : State) (iFrom jFrom iTo jTo : Nat)
    (currentScore proposedScore : ℚ) : ℚ :=
  if 0 < s.neighborhoodSize then
    currentScore / (pixelCountFrom s iFrom jFrom iTo jTo : ℚ) -
      proposedScore / (pixelCountTo s iFrom jFrom iTo jTo : ℚ)
  else currentScore - proposedScore

/-- SEEDSRevisedMeanPixels::updatePixel: the base-class update followed by the
transfer of the pixel feature vector between the two superpixel mean sums. -/
def meanUpdatePixel (s : State) (iFrom jFrom iTo jTo iSuperpixelFrom
    jSuperpixelFrom iSuperpixelTo jSuperpixelTo iPlusOne iMinusOne jPlusOne
    jMinusOne : Nat) : State :=
  let s1 := updatePixel s iFrom jFrom iTo jTo iSuperpixelFrom jSuperpixelFrom
    iSuperpixelTo jSuperpixelTo iPlusOne iMinusOne jPlusOne jMinusOne
  let m := foldN s1.meanDimensions (fun k m =>
    let ma := upd3 m iSuperpixelFrom jSuperpixelFrom k
      (m iSuperpixelFrom jSuperpixelFrom k - s1.means0 iFrom jFrom k)
    upd3 ma iSuperpixelTo jSuperpixelTo k
      (ma iSuperpixelTo jSuperpixelTo k + s1.means0 iFrom jFrom k)) s1.means1
  { s1 with means1 := m }

/-- SEEDSRevised::performPixelUpdate as dispatched from a
SEEDSRevisedMeanPixels instance: the same skeleton with the overridden virtual
scoring and update members. -/
def meanPerformPixelUpdate (s : State) (i j : Nat) : State :=
  if s.spatialMemory i j = true then
    let s1 := { s with spatialMemory := upd2 s.spatialMemory i j false }
    let iPlusOne := min (i + 1) (s1.height - 1)
    let iMinusOne := i - 1
    let jPlusOne := min (j + 1) (s1.width - 1)
    let jMinusOne := j - 1
    let labelFrom := s1.currentLabels i j
    let labelVerticalForward := s1.currentLabels iPlusOne j
    let labelVerticalBackward := s1.currentLabels iMinusOne j
    let labelHorizontalForward := s1.currentLabels i jPlusOne
    let labelHorizontalBackward := s1.currentLabels i jMinusOne
    if labelVerticalForward ≠ labelFrom ∨ labelVerticalBackward ≠ labelFrom ∨
        labelHorizontalForward ≠ labelFrom ∨ labelHorizontalBackward ≠ labelFrom then
      let iSuperpixelFrom := getSuperpixelI s1 labelFrom
      let jSuperpixelFrom := getSuperpixelJ s1 labelFrom
      if s1.minimumNumberOfSublabels
          < s1.pixels (s1.numberOfLevels - 1) iSuperpixelFrom jSuperpixelFrom then
        let currentScore :=
          meanScoreCurrentPixelSegmentation s1 i j iSuperpixelFrom jSuperpixelFrom
        let b0 : BestMove := ⟨i, j, iSuperpixelFrom, jSuperpixelFrom, 0⟩
        let b1 := if labelVerticalForward ≠ labelFrom ∧
            checkSplitVerticalForward s1 i j iPlusOne iMinusOne jPlusOne jMinusOne
              = false then
            let iSuperpixelTo := getSuperpixelI s1 labelVerticalForward
            let jSuperpixelTo := getSuperpixelJ s1 labelVerticalForward
            let proposedScore :=
              meanScoreProposedPixelSegmentation s1 i j iSuperpixelTo jSuperpixelTo
            let score := meanScorePixelUpdate s1 i j iPlusOne j currentScore
              proposedScore
            if 0 < score ∧ b0.bestScore < score then
              ⟨iPlusOne, j, iSuperpixelTo, jSuperpixelTo, score⟩
            else b0
          else b0
        let b2 := if labelVerticalBackward ≠ labelFrom ∧
            checkSplitVerticalBackward s1 i j iPlusOne iMinusOne jPlusOne jMinusOne
              = false then
            let iSuperpixelTo := getSuperpixelI s1 labelVerticalBackward
            let jSuperpixelTo := getSuperpixelJ s1 labelVerticalBackward
            let proposedScore :=
              meanScoreProposedPixelSegmentation s1 i j iSuperpixelTo jSuperpixelTo
            let score := meanScorePixelUpdate s1 i j iMinusOne j currentScore
              proposedScore
            if 0 < score ∧ b1.bestScore < score then
              ⟨iMinusOne, j, iSuperpixelTo, jSuperpixelTo, score⟩
            else b1
          else b1
        let b3 := if labelHorizontalForward ≠ labelFrom ∧
            checkSplitHorizontalForward s1 i j iPlusOne iMinusOne jPlusOne jMinusOne
              = false then
            let iSuperpixelTo := getSuperpixelI s1 labelHorizontalForward
            let jSuperpixelTo := getSuperpixelJ s1 labelHorizontalForward
            let proposedScore :=
              meanScoreProposedPixelSegmentation s1 i j iSuperpixelTo jSuperpixelTo
            let score := meanScorePixelUpdate s1 i j i jPlusOne currentScore
              proposedScore
            if 0 < score ∧ b2.bestScore < score then
              ⟨i, jPlusOne, iSuperpixelTo, jSuperpixelTo, score⟩
            else b2
          else b2
        let b4 := if labelHorizontalBackward ≠ labelFrom ∧
            checkSplitHorizontalBackward s1 i j iPlusOne iMinusOne jPlusOne jMinusOne
              = false then
            let iSuperpixelTo := getSuperpixelI s1 labelHorizontalBackward
            let jSuperpixelTo := getSuperpixelJ s1 labelHorizontalBackward
            let proposedScore :=
              meanScoreProposedPixelSegmentation s1 i j iSuperpixelTo jSuperpixelTo
            let score := meanScorePixelUpdate s1 i j i jMinusOne currentScore
              proposedScore
            if 0 < score ∧ b3.bestScore < score then
              ⟨i, jMinusOne, iSuperpixelTo, jSuperpixelTo, score⟩
            else b3
          else b3
        if 0 < b4.bestScore then
          meanUpdatePixel s1 i j b4.iBest b4.jBest iSuperpixelFrom jSuperpixelFrom
            b4.iSuperpixelBest b4.jSuperpixelBest iPlusOne iMinusOne jPlusOne
            jMinusOne
        else s1
      else s1
    else s1
  else s

/-- SEEDSRevisedMeanPixels::iterate: block phase as in the base class, then
initializeMeans, then the pixel sweeps with the overridden members. -/
def meanIterate (s : State) (iterations : Nat) : State :=
  let s1 := iterLevels iterations s.currentLevel s
  let s2 := initMeans s1
  let s3 := reinitSpatialMemory s2
  foldN (2 * iterations) (fun _ t =>
    foldN s3.height (fun i t =>
      foldN s3.width (fun j t => meanPerformPixelUpdate t i j) t) t) s3

/-! ## Setter preconditions (SeedsRevised.cpp 209-237) -/

/-- Assertion of SEEDSRevised::setNeighborhoodSize:
`assert(neighborhoodSize >= 0)`. -/
def setNeighborhoodSizePre (neighborhoodSize : Int) : Prop :=
  0 ≤ neighborhoodSize

/-- SEEDSRevised::setNeighborhoodSize. -/
def setNeighborhoodSize (s : State) (neighborhoodSize : Int) : State :=
  { s with neighborhoodSize := neighborhoodSize }

/-! ## Frame lemmas -/

theorem goDownOneLevel_currentLevel (s : State) :
    (goDownOneLevel s).currentLevel = s.currentLevel - 1 := by
  by_cases h : 0 < s.currentLevel - 1 <;> simp [goDownOneLevel, h]

theorem initHistograms_currentLevel (s : State) :
    (initHistograms s).currentLevel = s.currentLevel :=
  rfl

theorem initLabels_currentLevel (s : State) :
    (initLabels s).currentLevel = s.numberOfLevels - 1 := by
  unfold initLabels
  rw [goDownOneLevel_currentLevel]

/-! ## Claim theorems: C9 and C10 -/

/-- Claim C9 (amended): a negative neighborhood size is not rejected at
construction time: the constructor's only assertion is the channel-count
check, and the given neighborhood size (negative or not) is stored unchanged
into the configuration; the `neighborhoodSize >= 0` assertion exists only in
the setter SEEDSRevised::setNeighborhoodSize. -/
theorem claim_C9_amended (width height channels : Nat)
    (imagePixel : Nat → Nat → Nat → Nat)
    (numberOfBins numberOfLevels minimumBlockWidth minimumBlockHeight : Nat)
    (neighborhoodSize : Int) (minimumConfidence : ℚ) :
    (construct width height channels imagePixel numberOfBins numberOfLevels
        minimumBlockWidth minimumBlockHeight neighborhoodSize
        minimumConfidence).neighborhoodSize = neighborhoodSize ∧
    (constructPre channels ↔ channels = 1 ∨ channels = 3) ∧
    (setNeighborhoodSizePre neighborhoodSize ↔ 0 ≤ neighborhoodSize) ∧
    (setNeighborhoodSize (construct width height channels imagePixel
        numberOfBins numberOfLevels minimumBlockWidth minimumBlockHeight
        neighborhoodSize minimumConfidence)
        neighborhoodSize).neighborhoodSize = neighborhoodSize :=
  ⟨rfl, Iff.rfl, Iff.rfl, rfl⟩

/-- Claim C9 counterexample: constructing with neighborhoodSize = -1 passes
every construction-time assertion (the channel check) and silently stores -1
in the instance configuration, although the documented precondition
`neighborhoodSize >= 0` fails. -/
theorem claim_C9_counterexample :
    constructPre 1 ∧
    (construct 8 8 1 (fun _ _ _ => 0) 5 2 2 2 (-1) 0).neighborhoodSize = -1 ∧
    ¬ setNeighborhoodSizePre (-1) := by
  refine ⟨Or.inl rfl, rfl, ?_⟩
  show ¬ (0 : Int) ≤ -1
  decide

/-- Claim C10: immediately after initialize() (initAll), getLevel returns
numberOfLevels - 1, not numberOfLevels: initializeLabels performs one level
descent via goDownOneLevel as its final step. -/
theorem claim_C10 (s : State) :
    getLevel (initAll s) = s.numberOfLevels - 1 ∧
    (1 ≤ s.numberOfLevels → getLevel (initAll s) ≠ s.numberOfLevels) := by
  have h : getLevel (initAll s) = s.numberOfLevels - 1 := by
    show (initHistograms (initLabels s)).currentLevel = s.numberOfLevels - 1
    rw [initHistograms_currentLevel, initLabels_currentLevel]
  refine ⟨h, fun hL => ?_⟩
  rw [h]
  omega

/-- Shared concrete instance for witnesses: a 5-by-4 single-channel image with
two levels and 1-by-1 minimum blocks. -/
def tinyState : State :=
  seedsRevisedCtor 5 4 1 (fun _ _ j => if j < 2 then 0 else 1) 2 1 1 2 0 0

/-- Witness for claim C10 at the concrete instance `tinyState`. -/
theorem claim_C10_witness :
    getLevel (initAll tinyState) = tinyState.numberOfLevels - 1 ∧
    getLevel (initAll tinyState) ≠ tinyState.numberOfLevels :=
  ⟨(claim_C10 tinyState).1, (claim_C10 tinyState).2 (by decide)⟩

/-! ## Claim C5: the membership check of performBlockUpdate -/

/-- Number of other blocks of the current grid carrying the same label as
block `(i, j)` (the remaining members of its superpixel, in the claim's
sense). -/
def remainingMembers (s : State) (i j : Nat) : Nat :=
  ((Finset.range s.currentBlockHeightNumber ×ˢ
      Finset.range s.currentBlockWidthNumber).filter
    (fun p => ¬(p.1 = i ∧ p.2 = j) ∧
      s.currentLabels p.1 p.2 = s.currentLabels i j)).card

/-- Claim C5 (amended): the membership check of a block update rejects the
move exactly when the superpixel's pixel count is smaller than twice the
block's pixel count (integer quotient at most minimumNumberOfSublabels = 1);
in particular it always rejects when the block is the superpixel's only
content (`spPixels = blockPixels`), but the quotient test is not equivalent to
counting remaining members when member blocks have unequal sizes. -/
theorem claim_C5_amended (s : State) (i j iSuperpixelFrom jSuperpixelFrom : Nat)
    (hmin : s.minimumNumberOfSublabels = 1)
    (hblk : 0 < s.pixels (s.currentLevel - 1) i j)
    (hsp : 0 ≤ s.pixels (s.numberOfLevels - 1) iSuperpixelFrom jSuperpixelFrom) :
    (¬ s.minimumNumberOfSublabels
        < membershipBlocks s i j iSuperpixelFrom jSuperpixelFrom ↔
      s.pixels (s.numberOfLevels - 1) iSuperpixelFrom jSuperpixelFrom
        < 2 * s.pixels (s.currentLevel - 1) i j) ∧
    (s.pixels (s.numberOfLevels - 1) iSuperpixelFrom jSuperpixelFrom
        = s.pixels (s.currentLevel - 1) i j →
      ¬ s.minimumNumberOfSublabels
        < membershipBlocks s i j iSuperpixelFrom jSuperpixelFrom) := by
  have hquot : (1 : Int) < membershipBlocks s i j iSuperpixelFrom jSuperpixelFrom ↔
      2 * s.pixels (s.currentLevel - 1) i j
        ≤ s.pixels (s.numberOfLevels - 1) iSuperpixelFrom jSuperpixelFrom := by
    unfold membershipBlocks
    constructor
    · intro h
      have h2 : (2 : Int) ≤ s.pixels (s.numberOfLevels - 1) iSuperpixelFrom
          jSuperpixelFrom / s.pixels (s.currentLevel - 1) i j := h
      have := (Int.le_ediv_iff_mul_le hblk).mp h2
      linarith
    · intro h
      have h2 : (2 : Int) * s.pixels (s.currentLevel - 1) i j
          ≤ s.pixels (s.numberOfLevels - 1) iSuperpixelFrom jSuperpixelFrom := h
      have h3 : (2 : Int) ≤ s.pixels (s.numberOfLevels - 1) iSuperpixelFrom
          jSuperpixelFrom / s.pixels (s.currentLevel - 1) i j :=
        (Int.le_ediv_iff_mul_le hblk).mpr h2
      linarith
  constructor
  · rw [hmin, not_lt, ← not_lt, hquot]
    push_neg
    rfl
  · intro heq
    rw [hmin, hquot, heq]
    intro hcon
    linarith

/-- Concrete mid-run block-level state for claims C5/C4: an 11-by-4 image,
minimum block size 2-by-2, two levels; the level-1 grid is 2-by-5 with
boundary column 4 three pixels wide; superpixel 1 currently holds the two
blocks (0,3) (4 pixels) and (0,4) (6 pixels), every other block carries
label 0. -/
def cexC5 : State :=
  { seedsRevisedCtor 11 4 1 (fun _ _ _ => 0) 2 2 2 5 0 0 with
    currentLevel := 1,
    currentBlockWidthNumber := 5,
    currentBlockHeightNumber := 2,
    currentBlockWidth := 2,
    currentBlockHeight := 2,
    superpixelWidthNumber := 2,
    superpixelHeightNumber := 1,
    superpixelWidth := 4,
    superpixelHeight := 4,
    currentLabels := fun i j => if i = 0 ∧ (j = 3 ∨ j = 4) then 1 else 0,
    pixels := fun lvl i j =>
      if lvl = 0 then (if i ≤ 1 ∧ j = 4 then 6 else 4)
      else if j = 0 then 34 else 10,
    spatialMemory := fun _ _ => true }

/-- Claim C5 counterexample: in `cexC5` the block (0,4) still has one other
member (0,3) in its superpixel (whose pixel count 10 is consistently the sum
of its two members), yet the membership check computes
`blocks = 10 / 6 = 1`, not greater than minimumNumberOfSublabels = 1, and
rejects the move outright: performBlockUpdate only clears the dirty flag. -/
theorem claim_C5_counterexample :
    remainingMembers cexC5 0 4 = 1 ∧
    cexC5.pixels 1 0 1 = cexC5.pixels 0 0 3 + cexC5.pixels 0 0 4 ∧
    membershipBlocks cexC5 0 4 0 1 = 1 ∧
    ¬ cexC5.minimumNumberOfSublabels < membershipBlocks cexC5 0 4 0 1 ∧
    getSuperpixelI cexC5 (cexC5.currentLabels 0 4) = 0 ∧
    getSuperpixelJ cexC5 (cexC5.currentLabels 0 4) = 1 ∧
    performBlockUpdate cexC5 0 4 =
      { cexC5 with spatialMemory := upd2 cexC5.spatialMemory 0 4 false } := by
  refine ⟨by decide, by decide, by decide, by decide, by decide, by decide, ?_⟩
  rfl

/-- Witness for claim C5 (amended) at the concrete state `cexC5`. -/
theorem claim_C5_witness :
    (¬ cexC5.minimumNumberOfSublabels < membershipBlocks cexC5 0 4 0 1 ↔
      cexC5.pixels (cexC5.numberOfLevels - 1) 0 1
        < 2 * cexC5.pixels (cexC5.currentLevel - 1) 0 4) ∧
    (cexC5.pixels (cexC5.numberOfLevels - 1) 0 1
        = cexC5.pixels (cexC5.currentLevel - 1) 0 4 →
      ¬ cexC5.minimumNumberOfSublabels < membershipBlocks cexC5 0 4 0 1) :=
  claim_C5_amended cexC5 0 4 0 1 (by decide) (by decide) (by decide)

/-! ## Claim C6: border handling of the topology guard -/

/-- Label lookup with a "no label" sentinel for coordinates outside the
current grid, following the claim: out-of-range neighbors of the current
(block or pixel) grid are treated as the distinct sentinel -1. -/
def sentinelLabel (s : State) (a b : Int) : Int :=
  if 0 ≤ a ∧ a < (s.currentBlockHeightNumber : Int) ∧
      0 ≤ b ∧ b < (s.currentBlockWidthNumber : Int) then
    s.currentLabels a.toNat b.toNat
  else -1

theorem sentinelLabel_pos (s : State) (a b : Int)
    (h : 0 ≤ a ∧ a < (s.currentBlockHeightNumber : Int) ∧
      0 ≤ b ∧ b < (s.currentBlockWidthNumber : Int)) :
    sentinelLabel s a b = s.currentLabels a.toNat b.toNat := by
  unfold sentinelLabel
  exact if_pos h

theorem sentinelLabel_neg (s : State) (a b : Int)
    (h : ¬(0 ≤ a ∧ a < (s.currentBlockHeightNumber : Int) ∧
      0 ≤ b ∧ b < (s.currentBlockWidthNumber : Int))) :
    sentinelLabel s a b = -1 := by
  unfold sentinelLabel
  exact if_neg h

/-- Modelled from the claim: the vertical-forward window test with sentinel
out-of-range handling relative to the current grid. -/
def specCheckSplitVerticalForward (s : State) (iFrom jFrom : Nat) : Bool :=
  vfPatterns (sentinelLabel s ((iFrom : Int) - 1) ((jFrom : Int) - 1))
    (sentinelLabel s ((iFrom : Int) - 1) (jFrom : Int))
    (sentinelLabel s ((iFrom : Int) - 1) ((jFrom : Int) + 1))
    (sentinelLabel s (iFrom : Int) ((jFrom : Int) - 1))
    (s.currentLabels iFrom jFrom)
    (sentinelLabel s (iFrom : Int) ((jFrom : Int) + 1))

/-- Modelled from the claim: the vertical-backward window test with sentinel
out-of-range handling relative to the current grid. -/
def specCheckSplitVerticalBackward (s : State) (iFrom jFrom : Nat) : Bool :=
  vbPatterns (sentinelLabel s (iFrom : Int) ((jFrom : Int) - 1))
    (s.currentLabels iFrom jFrom)
    (sentinelLabel s (iFrom : Int) ((jFrom : Int) + 1))
    (sentinelLabel s ((iFrom : Int) + 1) ((jFrom : Int) - 1))
    (sentinelLabel s ((iFrom : Int) + 1) (jFrom : Int))
    (sentinelLabel s ((iFrom : Int) + 1) ((jFrom : Int) + 1))

/-- Modelled from the claim: the horizontal-forward window test with sentinel
out-of-range handling relative to the current grid. -/
def specCheckSplitHorizontalForward (s : State) (iFrom jFrom : Nat) : Bool :=
  hfPatterns (sentinelLabel s ((iFrom : Int) - 1) ((jFrom : Int) - 1))
    (sentinelLabel s ((iFrom : Int) - 1) (jFrom : Int))
    (sentinelLabel s (iFrom : Int) ((jFrom : Int) - 1))
    (s.currentLabels iFrom jFrom)
    (sentinelLabel s ((iFrom : Int) + 1) ((jFrom : Int) - 1))
    (sentinelLabel s ((iFrom : Int) + 1) (jFrom : Int))

/-- Modelled from the claim: the horizontal-backward window test with sentinel
out-of-range handling relative to the current grid. -/
def specCheckSplitHorizontalBackward (s : State) (iFrom jFrom : Nat) : Bool :=
  hbPatterns (sentinelLabel s ((iFrom : Int) - 1) (jFrom : Int))
    (sentinelLabel s ((iFrom : Int) - 1) ((jFrom : Int) + 1))
    (s.currentLabels iFrom jFrom)
    (sentinelLabel s (iFrom : Int) ((jFrom : Int) + 1))
    (sentinelLabel s ((iFrom : Int) + 1) (jFrom : Int))
    (sentinelLabel s ((iFrom : Int) + 1) ((jFrom : Int) + 1))

section MaskLemmas

variable (s : State) (i j : Nat)

theorem maskUL (hh : s.currentBlockHeightNumber = s.height)
    (hw : s.currentBlockWidthNumber = s.width)
    (hi : i < s.height) (hj : j < s.width) :
    (if j = 0 then (-1 : Int) else if i = 0 then -1 else
      s.currentLabels (i - 1) (j - 1)) =
    sentinelLabel s ((i : Int) - 1) ((j : Int) - 1) := by
  by_cases hj0 : j = 0
  · rw [if_pos hj0, sentinelLabel_neg _ _ _ (by omega)]
  · by_cases hi0 : i = 0
    · rw [if_neg hj0, if_pos hi0, sentinelLabel_neg _ _ _ (by omega)]
    · rw [if_neg hj0, if_neg hi0, sentinelLabel_pos _ _ _ (by omega)]
      have t1 : ((i : Int) - 1).toNat = i - 1 := by omega
      have t2 : ((j : Int) - 1).toNat = j - 1 := by omega
      rw [t1, t2]

theorem maskU (hh : s.currentBlockHeightNumber = s.height)
    (hw : s.currentBlockWidthNumber = s.width)
    (hi : i < s.height) (hj : j < s.width) :
    (if i = 0 then (-1 : Int) else s.currentLabels (i - 1) j) =
    sentinelLabel s ((i : Int) - 1) (j : Int) := by
  by_cases hi0 : i = 0
  · rw [if_pos hi0, sentinelLabel_neg _ _ _ (by omega)]
  · rw [if_neg hi0, sentinelLabel_pos _ _ _ (by omega)]
    have t1 : ((i : Int) - 1).toNat = i - 1 := by omega
    have t2 : ((j : Int)).toNat = j := by omega
    rw [t1, t2]

theorem maskUR (hh : s.currentBlockHeightNumber = s.height)
    (hw : s.currentBlockWidthNumber = s.width)
    (hi : i < s.height) (hj : j < s.width) :
    (if j = s.width - 1 then (-1 : Int) else if i = 0 then -1 else
      s.currentLabels (i - 1) (min (j + 1) (s.width - 1))) =
    sentinelLabel s ((i : Int) - 1) ((j : Int) + 1) := by
  by_cases hjw : j = s.width - 1
  · rw [if_pos hjw, sentinelLabel_neg _ _ _ (by omega)]
  · by_cases hi0 : i = 0
    · rw [if_neg hjw, if_pos hi0, sentinelLabel_neg _ _ _ (by omega)]
    · rw [if_neg hjw, if_neg hi0, sentinelLabel_pos _ _ _ (by omega)]
      have t1 : ((i : Int) - 1).toNat = i - 1 := by omega
      have t2 : ((j : Int) + 1).toNat = j + 1 := by omega
      have t3 : min (j + 1) (s.width - 1) = j + 1 := by omega
      rw [t1, t2, t3]

theorem maskL (hh : s.currentBlockHeightNumber = s.height)
    (hw : s.currentBlockWidthNumber = s.width)
    (hi : i < s.height) (hj : j < s.width) :
    (if j = 0 then (-1 : Int) else s.currentLabels i (j - 1)) =
    sentinelLabel s (i : Int) ((j : Int) - 1) := by
  by_cases hj0 : j = 0
  · rw [if_pos hj0, sentinelLabel_neg _ _ _ (by omega)]
  · rw [if_neg hj0, sentinelLabel_pos _ _ _ (by omega)]
    have t1 : ((i : Int)).toNat = i := by omega
    have t2 : ((j : Int) - 1).toNat = j - 1 := by omega
    rw [t1, t2]

theorem maskR (hh : s.currentBlockHeightNumber = s.height)
    (hw : s.currentBlockWidthNumber = s.width)
    (hi : i < s.height) (hj : j < s.width) :
    (if j = s.width - 1 then (-1 : Int) else
      s.currentLabels i (min (j + 1) (s.width - 1))) =
    sentinelLabel s (i : Int) ((j : Int) + 1) := by
  by_cases hjw : j = s.width - 1
  · rw [if_pos hjw, sentinelLabel_neg _ _ _ (by omega)]
  · rw [if_neg hjw, sentinelLabel_pos _ _ _ (by omega)]
    have t1 : ((i : Int)).toNat = i := by omega
    have t2 : ((j : Int) + 1).toNat = j + 1 := by omega
    have t3 : min (j + 1) (s.width - 1) = j + 1 := by omega
    rw [t1, t2, t3]

theorem maskDL (hh : s.currentBlockHeightNumber = s.height)
    (hw : s.currentBlockWidthNumber = s.width)
    (hi : i < s.height) (hj : j < s.width) :
    (if j = 0 then (-1 : Int) else if i = s.height - 1 then -1 else
      s.currentLabels (min (i + 1) (s.height - 1)) (j - 1)) =
    sentinelLabel s ((i : Int) + 1) ((j : Int) - 1) := by
  by_cases hj0 : j = 0
  · rw [if_pos hj0, sentinelLabel_neg _ _ _ (by omega)]
  · by_cases hih : i = s.height - 1
    · rw [if_neg hj0, if_pos hih, sentinelLabel_neg _ _ _ (by omega)]
    · rw [if_neg hj0, if_neg hih, sentinelLabel_pos _ _ _ (by omega)]
      have t1 : ((i : Int) + 1).toNat = i + 1 := by omega
      have t2 : ((j : Int) - 1).toNat = j - 1 := by omega
      have t3 : min (i + 1) (s.height - 1) = i + 1 := by omega
      rw [t1, t2, t3]

theorem maskD (hh : s.currentBlockHeightNumber = s.height)
    (hw : s.currentBlockWidthNumber = s.width)
    (hi : i < s.height) (hj : j < s.width) :
    (if i = s.height - 1 then (-1 : Int) else
      s.currentLabels (min (i + 1) (s.height - 1)) j) =
    sentinelLabel s ((i : Int) + 1) (j : Int) := by
  by_cases hih : i = s.height - 1
  · rw [if_pos hih, sentinelLabel_neg _ _ _ (by omega)]
  · rw [if_neg hih, sentinelLabel_pos _ _ _ (by omega)]
    have t1 : ((i : Int) + 1).toNat = i + 1 := by omega
    have t2 : ((j : Int)).toNat = j := by omega
    have t3 : min (i + 1) (s.height - 1) = i + 1 := by omega
    rw [t1, t2, t3]

theorem maskDR (hh : s.currentBlockHeightNumber = s.height)
    (hw : s.currentBlockWidthNumber = s.width)
    (hi : i < s.height) (hj : j < s.width) :
    (if j = s.width - 1 then (-1 : Int) else if i = s.height - 1 then -1 else
      s.currentLabels (min (i + 1) (s.height - 1)) (min (j + 1) (s.width - 1))) =
    sentinelLabel s ((i : Int) + 1) ((j : Int) + 1) := by
  by_cases hjw : j = s.width - 1
  · rw [if_pos hjw, sentinelLabel_neg _ _ _ (by omega)]
  · by_cases hih : i = s.height - 1
    · rw [if_neg hjw, if_pos hih, sentinelLabel_neg _ _ _ (by omega)]
    · rw [if_neg hjw, if_neg hih, sentinelLabel_pos _ _ _ (by omega)]
      have t1 : ((i : Int) + 1).toNat = i + 1 := by omega
      have t2 : ((j : Int) + 1).toNat = j + 1 := by omega
      have t3 : min (i + 1) (s.height - 1) = i + 1 := by omega
      have t4 : min (j + 1) (s.width - 1) = j + 1 := by omega
      rw [t1, t2, t3, t4]

end MaskLemmas

theorem checkSplitVF_pixelLevel (s : State) (i j : Nat)
    (hh : s.currentBlockHeightNumber = s.height)
    (hw : s.currentBlockWidthNumber = s.width)
    (hi : i < s.height) (hj : j < s.width) :
    checkSplitVerticalForward s i j (min (i + 1) (s.height - 1)) (i - 1)
      (min (j + 1) (s.width - 1)) (j - 1) =
    specCheckSplitVerticalForward s i j := by
  unfold checkSplitVerticalForward specCheckSplitVerticalForward
  dsimp only
  rw [maskUL s i j hh hw hi hj, maskU s i j hh hw hi hj,
    maskUR s i j hh hw hi hj, maskL s i j hh hw hi hj,
    maskR s i j hh hw hi hj]

theorem checkSplitVB_pixelLevel (s : State) (i j : Nat)
    (hh : s.currentBlockHeightNumber = s.height)
    (hw : s.currentBlockWidthNumber = s.width)
    (hi : i < s.height) (hj : j < s.width) :
    checkSplitVerticalBackward s i j (min (i + 1) (s.height - 1)) (i - 1)
      (min (j + 1) (s.width - 1)) (j - 1) =
    specCheckSplitVerticalBackward s i j := by
  unfold checkSplitVerticalBackward specCheckSplitVerticalBackward
  dsimp only
  rw [maskL s i j hh hw hi hj, maskR s i j hh hw hi hj,
    maskDL s i j hh hw hi hj, maskD s i j hh hw hi hj,
    maskDR s i j hh hw hi hj]

theorem checkSplitHF_pixelLevel (s : State) (i j : Nat)
    (hh : s.currentBlockHeightNumber = s.height)
    (hw : s.currentBlockWidthNumber = s.width)
    (hi : i < s.height) (hj : j < s.width) :
    checkSplitHorizontalForward s i j (min (i + 1) (s.height - 1)) (i - 1)
      (min (j + 1) (s.width - 1)) (j - 1) =
    specCheckSplitHorizontalForward s i j := by
  unfold checkSplitHorizontalForward specCheckSplitHorizontalForward
  dsimp only
  rw [maskUL s i j hh hw hi hj, maskU s i j hh hw hi hj,
    maskL s i j hh hw hi hj, maskDL s i j hh hw hi hj,
    maskD s i j hh hw hi hj]

theorem checkSplitHB_pixelLevel (s : State) (i j : Nat)
    (hh : s.currentBlockHeightNumber = s.height)
    (hw : s.currentBlockWidthNumber = s.width)
    (hi : i < s.height) (hj : j < s.width) :
    checkSplitHorizontalBackward s i j (min (i + 1) (s.height - 1)) (i - 1)
      (min (j + 1) (s.width - 1)) (j - 1) =
    specCheckSplitHorizontalBackward s i j := by
  unfold checkSplitHorizontalBackward specCheckSplitHorizontalBackward
  dsimp only
  rw [maskU s i j hh hw hi hj, maskUR s i j hh hw hi hj,
    maskR s i j hh hw hi hj, maskD s i j hh hw hi hj,
    maskDR s i j hh hw hi hj]

/-- Claim C6 (amended): the border sentinel tests of the topology guard
compare against the image borders (row/column 0 and height-1 / width-1), so
at the pixel level, where the current grid is the image grid, every direction
check equals the sentinel-window semantics of the claim; at block levels the
far-border tests do not use the block-grid bounds (see the counterexample). -/
theorem claim_C6_amended (s : State) (i j : Nat)
    (hh : s.currentBlockHeightNumber = s.height)
    (hw : s.currentBlockWidthNumber = s.width)
    (hi : i < s.height) (hj : j < s.width) :
    checkSplitVerticalForward s i j (min (i + 1) (s.height - 1)) (i - 1)
        (min (j + 1) (s.width - 1)) (j - 1) =
      specCheckSplitVerticalForward s i j ∧
    checkSplitVerticalBackward s i j (min (i + 1) (s.height - 1)) (i - 1)
        (min (j + 1) (s.width - 1)) (j - 1) =
      specCheckSplitVerticalBackward s i j ∧
    checkSplitHorizontalForward s i j (min (i + 1) (s.height - 1)) (i - 1)
        (min (j + 1) (s.width - 1)) (j - 1) =
      specCheckSplitHorizontalForward s i j ∧
    checkSplitHorizontalBackward s i j (min (i + 1) (s.height - 1)) (i - 1)
        (min (j + 1) (s.width - 1)) (j - 1) =
      specCheckSplitHorizontalBackward s i j :=
  ⟨checkSplitVF_pixelLevel s i j hh hw hi hj,
    checkSplitVB_pixelLevel s i j hh hw hi hj,
    checkSplitHF_pixelLevel s i j hh hw hi hj,
    checkSplitHB_pixelLevel s i j hh hw hi hj⟩

/-- Concrete block-level state for the C6 counterexample: an 8-by-8 image at
block level with a 2-by-2 block grid (32 blocks would be 2x2 at level 2 of a
2-level pyramid with 2x2 minimum blocks); the top block row carries label 1,
the bottom row label 0. -/
def cexC6 : State :=
  { seedsRevisedCtor 8 8 1 (fun _ _ _ => 0) 2 2 2 5 0 0 with
    currentLevel := 2,
    currentBlockWidthNumber := 2,
    currentBlockHeightNumber := 2,
    currentBlockWidth := 4,
    currentBlockHeight := 4,
    superpixelWidthNumber := 2,
    superpixelHeightNumber := 2,
    currentLabels := fun i _ => if i = 0 then 1 else 0 }

/-- Claim C6 counterexample: in `cexC6` the block (1,1) lies in the last
column of the current block grid but not in the last image column, so the
vertical-forward check reads its clamped duplicated right neighbor as a real
same-labeled neighbor and forbids the move (returns true), while the
sentinel-window semantics of the claim returns false. -/
theorem claim_C6_counterexample :
    checkSplitVerticalForward cexC6 1 1 (min (1 + 1) (cexC6.currentBlockHeightNumber - 1))
        (1 - 1) (min (1 + 1) (cexC6.currentBlockWidthNumber - 1)) (1 - 1) = true ∧
    specCheckSplitVerticalForward cexC6 1 1 = false ∧
    1 = cexC6.currentBlockWidthNumber - 1 ∧
    ¬ 1 = cexC6.width - 1 := by
  refine ⟨by decide, by decide, by decide, by decide⟩

/-- Concrete pixel-level state for the C6 witness: a 3-by-2 image at level 0,
where the current grid is the pixel grid. -/
def cexC6pix : State :=
  { seedsRevisedCtor 3 2 1 (fun _ _ _ => 0) 2 1 1 2 0 0 with
    currentLevel := 0,
    currentBlockWidthNumber := 3,
    currentBlockHeightNumber := 2,
    currentBlockWidth := 1,
    currentBlockHeight := 1,
    superpixelWidthNumber := 1,
    superpixelHeightNumber := 1,
    currentLabels := fun i j => ((i + j : Nat) : Int) }

/-- Witness for claim C6 (amended) at the concrete pixel-level state
`cexC6pix` and pixel (0, 1). -/
theorem claim_C6_witness :
    checkSplitVerticalForward cexC6pix 0 1
        (min (0 + 1) (cexC6pix.height - 1)) (0 - 1)
        (min (1 + 1) (cexC6pix.width - 1)) (1 - 1) =
      specCheckSplitVerticalForward cexC6pix 0 1 ∧
    checkSplitVerticalBackward cexC6pix 0 1
        (min (0 + 1) (cexC6pix.height - 1)) (0 - 1)
        (min (1 + 1) (cexC6pix.width - 1)) (1 - 1) =
      specCheckSplitVerticalBackward cexC6pix 0 1 ∧
    checkSplitHorizontalForward cexC6pix 0 1
        (min (0 + 1) (cexC6pix.height - 1)) (0 - 1)
        (min (1 + 1) (cexC6pix.width - 1)) (1 - 1) =
      specCheckSplitHorizontalForward cexC6pix 0 1 ∧
    checkSplitHorizontalBackward cexC6pix 0 1
        (min (0 + 1) (cexC6pix.height - 1)) (0 - 1)
        (min (1 + 1) (cexC6pix.width - 1)) (1 - 1) =
      specCheckSplitHorizontalBackward cexC6pix 0 1 :=
  claim_C6_amended cexC6pix 0 1 rfl rfl (by decide) (by decide)

/-! ## Claim C4: best-move selection discipline of performBlockUpdate -/

/-- A candidate move examined by `performBlockUpdate`: the target cell, the
target superpixel, the proposed score, and whether the candidate is eligible
(the neighbor label differs, the topology guard passes, and the proposed
score clears the status-quo score plus the confidence margin). -/
structure Cand where
  iBest : Nat
  jBest : Nat
  iSuperpixelBest : Nat
  jSuperpixelBest : Nat
  score : ℚ
  elig : Bool

/-- One selection step: an eligible candidate replaces the running best
exactly when its score is strictly greater. -/
def selStep (b : BestMove) (c : Cand) : BestMove :=
  if c.elig = true ∧ b.bestScore < c.score then
    ⟨c.iBest, c.jBest, c.iSuperpixelBest, c.jSuperpixelBest, c.score⟩
  else b

/-- Folding the selection steps over a candidate list. -/
def selRun (b : BestMove) (cs : List Cand) : BestMove := cs.foldl selStep b

/-- Running maximum of the eligible candidate scores, seeded with `q`. -/
def runBest (q : ℚ) : List Cand → ℚ
  | [] => q
  | c :: cs => runBest (if c.elig = true then max q c.score else q) cs

theorem runBest_ge (q : ℚ) (cs : List Cand) : q ≤ runBest q cs := by
  induction cs generalizing q with
  | nil => exact le_refl q
  | cons c cs ih =>
    show q ≤ runBest (if c.elig = true then max q c.score else q) cs
    refine le_trans ?_ (ih _)
    by_cases he : c.elig = true
    · rw [if_pos he]; exact le_max_left q c.score
    · rw [if_neg he]

theorem runBest_gt_mem (q : ℚ) (cs : List Cand) (h : q < runBest q cs) :
    ∃ c ∈ cs, c.elig = true ∧ c.score = runBest q cs := by
  induction cs generalizing q with
  | nil => exact absurd h (lt_irrefl q)
  | cons u cs ih =>
    rw [show runBest q (u :: cs)
        = runBest (if u.elig = true then max q u.score else q) cs from rfl] at h ⊢
    by_cases hq : (if u.elig = true then max q u.score else q)
        < runBest (if u.elig = true then max q u.score else q) cs
    · obtain ⟨c, hc, hce, hse⟩ := ih _ hq
      exact ⟨c, List.mem_cons_of_mem u hc, hce, hse⟩
    · have heq : runBest (if u.elig = true then max q u.score else q) cs
          = (if u.elig = true then max q u.score else q) :=
        le_antisymm (not_lt.mp hq) (runBest_ge _ cs)
      rw [heq] at h ⊢
      by_cases he : u.elig = true
      · rw [if_pos he] at h ⊢
        rcases max_cases q u.score with ⟨hm, _⟩ | ⟨hm, _⟩
        · exfalso; rw [hm] at h; exact lt_irrefl q h
        · exact ⟨u, List.mem_cons_self u cs, he, by rw [hm]⟩
      · rw [if_neg he] at h
        exact absurd h (lt_irrefl q)

/-- Selection predicate used to phrase the fold result: candidate `c` is
eligible, beats the threshold `q`, and attains the target value `M`. -/
def selPred3 (q M : ℚ) (c : Cand) : Bool :=
  c.elig && decide (q < c.score) && decide (c.score = M)

/-- The `BestMove` recorded when a candidate is selected. -/
def mkBestMove (c : Cand) : BestMove :=
  ⟨c.iBest, c.jBest, c.iSuperpixelBest, c.jSuperpixelBest, c.score⟩

theorem selFold_spec (cs : List Cand) (b : BestMove) :
    selRun b cs =
      ((cs.find? (selPred3 b.bestScore (runBest b.bestScore cs))).map
        mkBestMove).getD b := by
  induction cs generalizing b with
  | nil => rfl
  | cons u cs ih =>
    show selRun (selStep b u) cs = _
    by_cases hdu : u.elig = true ∧ b.bestScore < u.score
    · have hstep : selStep b u = mkBestMove u := by
        unfold selStep mkBestMove; rw [if_pos hdu]
      rw [hstep, ih]
      have hbs : (mkBestMove u).bestScore = u.score := rfl
      rw [hbs]
      have hM : runBest b.bestScore (u :: cs) = runBest u.score cs := by
        show runBest (if u.elig = true then max b.bestScore u.score
            else b.bestScore) cs = _
        rw [if_pos hdu.1, max_eq_right (le_of_lt hdu.2)]
      rw [hM]
      by_cases hEq : u.score = runBest u.score cs
      · have hpred : selPred3 b.bestScore (runBest u.score cs) u = true := by
          simp only [selPred3, Bool.and_eq_true, decide_eq_true_eq]
          exact ⟨⟨hdu.1, hdu.2⟩, hEq⟩
        rw [List.find?_cons_of_pos _ hpred]
        have hnone : cs.find? (selPred3 u.score (runBest u.score cs)) = none := by
          apply List.find?_eq_none.mpr
          intro c _
          simp only [selPred3, Bool.and_eq_true, decide_eq_true_eq, not_and]
          intro hab hceq
          rw [hceq, ← hEq] at hab
          exact lt_irrefl _ hab.2
        rw [hnone]
        rfl
      · have hMlt : u.score < runBest u.score cs :=
          lt_of_le_of_ne (runBest_ge _ cs) hEq
        have hpred : ¬ selPred3 b.bestScore (runBest u.score cs) u = true := by
          simp only [selPred3, Bool.and_eq_true, decide_eq_true_eq, not_and]
          intro _ hceq
          exact hEq hceq
        rw [List.find?_cons_of_neg _ hpred]
        have hcongr : cs.find? (selPred3 u.score (runBest u.score cs))
            = cs.find? (selPred3 b.bestScore (runBest u.score cs)) := by
          apply find?_congr
          intro c _
          simp only [selPred3]
          by_cases hceq : c.score = runBest u.score cs
          · have h1 : u.score < c.score := by rw [hceq]; exact hMlt
            have h2 : b.bestScore < c.score := lt_trans hdu.2 h1
            simp [h1, h2]
          · simp [hceq]
        rw [← hcongr]
        obtain ⟨c0, hc0m, hc0e, hc0s⟩ := runBest_gt_mem u.score cs hMlt
        rcases hfind : cs.find? (selPred3 u.score (runBest u.score cs)) with _ | c1
        · exfalso
          have hall := List.find?_eq_none.mp hfind c0 hc0m
          simp only [selPred3, Bool.and_eq_true, decide_eq_true_eq,
            not_and] at hall
          exact hall ⟨hc0e, by rw [hc0s]; exact hMlt⟩ hc0s
        · rfl
    · have hstep : selStep b u = b := by
        unfold selStep; rw [if_neg hdu]
      rw [hstep, ih]
      have hM : runBest b.bestScore (u :: cs) = runBest b.bestScore cs := by
        show runBest (if u.elig = true then max b.bestScore u.score
            else b.bestScore) cs = _
        by_cases he : u.elig = true
        · have hle : u.score ≤ b.bestScore := by
            by_contra hlt
            exact hdu ⟨he, not_le.mp hlt⟩
          rw [if_pos he, max_eq_left hle]
        · rw [if_neg he]
      rw [hM]
      have hpred : ¬ selPred3 b.bestScore (runBest b.bestScore cs) u = true := by
        simp only [selPred3, Bool.and_eq_true, decide_eq_true_eq, not_and]
        intro hab
        exact absurd hab hdu
      rw [List.find?_cons_of_neg _ hpred]

/-- Claim-facing selection predicate: an eligible candidate attaining the
maximal eligible score of the whole list. -/
def selMaxPred (M : ℚ) (c : Cand) : Bool :=
  c.elig && decide (c.score = M)

/-- The candidate record built by one direction of performBlockUpdate. -/
def blockCand (s : State) (i j : Nat) (currentScore : ℚ)
    (labelNeighbor labelFrom : Int) (chk : Bool) (iTo jTo : Nat) : Cand :=
  ⟨iTo, jTo, getSuperpixelI s labelNeighbor, getSuperpixelJ s labelNeighbor,
    scoreProposedBlockSegmentation s i j (getSuperpixelI s labelNeighbor)
      (getSuperpixelJ s labelNeighbor),
    decide (labelNeighbor ≠ labelFrom) && !chk &&
      decide (currentScore + s.minimumConfidence <
        scoreProposedBlockSegmentation s i j (getSuperpixelI s labelNeighbor)
          (getSuperpixelJ s labelNeighbor))⟩

/-- The four candidate moves examined by performBlockUpdate at block (i, j),
in source order: vertical forward, vertical backward, horizontal forward,
horizontal backward (SeedsRevised.cpp 752-848). -/
def blockCandidates (s : State) (i j : Nat) : List Cand :=
  let iPlusOne := min (i + 1) (s.currentBlockHeightNumber - 1)
  let iMinusOne := i - 1
  let jPlusOne := min (j + 1) (s.currentBlockWidthNumber - 1)
  let jMinusOne := j - 1
  let labelFrom := s.currentLabels i j
  let currentScore := scoreCurrentBlockSegmentation s i j
    (getSuperpixelI s labelFrom) (getSuperpixelJ s labelFrom)
  [blockCand s i j currentScore (s.currentLabels iPlusOne j) labelFrom
      (checkSplitVerticalForward s i j iPlusOne iMinusOne jPlusOne jMinusOne)
      iPlusOne j,
    blockCand s i j currentScore (s.currentLabels iMinusOne j) labelFrom
      (checkSplitVerticalBackward s i j iPlusOne iMinusOne jPlusOne jMinusOne)
      iMinusOne j,
    blockCand s i j currentScore (s.currentLabels i jPlusOne) labelFrom
      (checkSplitHorizontalForward s i j iPlusOne iMinusOne jPlusOne jMinusOne)
      i jPlusOne,
    blockCand s i j currentScore (s.currentLabels i jMinusOne) labelFrom
      (checkSplitHorizontalBackward s i j iPlusOne iMinusOne jPlusOne jMinusOne)
      i jMinusOne]

theorem blockUpdateStep_eq_selStep (s : State) (i j : Nat) (cur : ℚ)
    (lN lF : Int) (chk : Bool) (iTo jTo : Nat) (b : BestMove) :
    blockUpdateStep s i j cur lN lF chk iTo jTo b =
      selStep b (blockCand s i j cur lN lF chk iTo jTo) := by
  unfold blockUpdateStep blockCand selStep
  rcases Bool.eq_false_or_eq_true chk with hc | hc <;>
    by_cases h1 : lN = lF <;>
    by_cases h3 : cur + s.minimumConfidence <
      scoreProposedBlockSegmentation s i j (getSuperpixelI s lN)
        (getSuperpixelJ s lN) <;>
    by_cases h4 : b.bestScore <
      scoreProposedBlockSegmentation s i j (getSuperpixelI s lN)
        (getSuperpixelJ s lN) <;>
    simp [hc, h1, h3, h4]

theorem blockCandidates_elig_gt (s : State) (i j : Nat)
    (hconf : 0 ≤ s.minimumConfidence)
    (hcur : 0 ≤ scoreCurrentBlockSegmentation s i j
      (getSuperpixelI s (s.currentLabels i j))
      (getSuperpixelJ s (s.currentLabels i j))) :
    ∀ c ∈ blockCandidates s i j, c.elig = true →
      scoreCurrentBlockSegmentation s i j
          (getSuperpixelI s (s.currentLabels i j))
          (getSuperpixelJ s (s.currentLabels i j))
        + s.minimumConfidence < c.score ∧ 0 < c.score := by
  intro c hc he
  simp only [blockCandidates, List.mem_cons, List.mem_singleton,
    List.not_mem_nil, or_false] at hc
  have hgen : ∀ cur lN lF chk iTo jTo,
      c = blockCand s i j cur lN lF chk iTo jTo →
      cur + s.minimumConfidence < c.score := by
    intro cur lN lF chk iTo jTo hceq
    subst hceq
    simp only [blockCand, Bool.and_eq_true, decide_eq_true_eq] at he
    exact he.2
  rcases hc with hc | hc | hc | hc <;>
    (have hm := hgen _ _ _ _ _ _ hc
     exact ⟨hm, lt_of_le_of_lt (by linarith) hm⟩)

/-- The state produced by the selection outcome: apply `updateBlock` at the
first candidate (in list order) attaining the maximal eligible score if some
candidate is eligible, else keep the state. -/
def selOutcome (t : State) (i j iSpF jSpF iP iM jP jM : Nat)
    (cs : List Cand) : State :=
  match cs.find? (selMaxPred (runBest 0 cs)) with
  | some c => updateBlock t i j c.iBest c.jBest iSpF jSpF c.iSuperpixelBest
      c.jSuperpixelBest iP iM jP jM
  | none => t

theorem selGoal_spec (b0 : BestMove) (cs : List Cand) (t : State)
    (i j iSpF jSpF iP iM jP jM : Nat) (hb : b0.bestScore = 0)
    (hpos : ∀ c ∈ cs, c.elig = true → 0 < c.score) :
    (if 0 < (selRun b0 cs).bestScore then
        updateBlock t i j (selRun b0 cs).iBest (selRun b0 cs).jBest iSpF jSpF
          (selRun b0 cs).iSuperpixelBest (selRun b0 cs).jSuperpixelBest
          iP iM jP jM
      else t) = selOutcome t i j iSpF jSpF iP iM jP jM cs := by
  have hsel := selFold_spec cs b0
  rw [hb] at hsel
  have hcongr : cs.find? (selPred3 0 (runBest 0 cs))
      = cs.find? (selMaxPred (runBest 0 cs)) := by
    apply find?_congr
    intro c hc
    simp only [selPred3, selMaxPred]
    by_cases he : c.elig = true
    · by_cases hEq : c.score = runBest 0 cs
      · have h0 : (0 : ℚ) < c.score := hpos c hc he
        have h0M : (0 : ℚ) < runBest 0 cs := hEq ▸ h0
        simp [he, hEq, h0M]
      · simp [hEq]
    · simp [he]
  rw [hcongr] at hsel
  unfold selOutcome
  rw [hsel]
  rcases hfind : cs.find? (selMaxPred (runBest 0 cs)) with _ | c
  · simp [hb]
  · have hcm := List.mem_of_find?_eq_some hfind
    have hce := List.find?_some hfind
    simp only [selMaxPred, Bool.and_eq_true, decide_eq_true_eq] at hce
    have h0 : (0 : ℚ) < c.score := hpos c hcm hce.1
    simp [mkBestMove, h0]

set_option maxHeartbeats 1000000 in
/-- Claim C4: in performBlockUpdate a move is accepted only if its proposed
score strictly exceeds the status-quo score plus the minimum-confidence
margin (the eligibility flag of each entry of `blockCandidates` contains
exactly that test, and every eligible candidate clears the margin and is
strictly positive); candidates are evaluated in the fixed order vertical
forward, vertical backward, horizontal forward, horizontal backward (the
order of `blockCandidates`), and a later candidate replaces the running
winner only with a strictly greater score, so the accepted candidate is the
first one attaining the maximum qualifying score (the `List.find?` of
`selOutcome`). -/
theorem claim_C4 (s : State) (i j : Nat)
    (hmem : s.spatialMemory i j = true)
    (hdiff : s.currentLabels (min (i + 1) (s.currentBlockHeightNumber - 1)) j
        ≠ s.currentLabels i j ∨
      s.currentLabels (i - 1) j ≠ s.currentLabels i j ∨
      s.currentLabels i (min (j + 1) (s.currentBlockWidthNumber - 1))
        ≠ s.currentLabels i j ∨
      s.currentLabels i (j - 1) ≠ s.currentLabels i j)
    (hblocks : s.minimumNumberOfSublabels < membershipBlocks s i j
      (getSuperpixelI s (s.currentLabels i j))
      (getSuperpixelJ s (s.currentLabels i j)))
    (hconf : 0 ≤ s.minimumConfidence)
    (hcur : 0 ≤ scoreCurrentBlockSegmentation s i j
      (getSuperpixelI s (s.currentLabels i j))
      (getSuperpixelJ s (s.currentLabels i j))) :
    performBlockUpdate s i j =
      selOutcome { s with spatialMemory := upd2 s.spatialMemory i j false }
        i j (getSuperpixelI s (s.currentLabels i j))
        (getSuperpixelJ s (s.currentLabels i j))
        (min (i + 1) (s.currentBlockHeightNumber - 1)) (i - 1)
        (min (j + 1) (s.currentBlockWidthNumber - 1)) (j - 1)
        (blockCandidates s i j) ∧
    (∀ c ∈ blockCandidates s i j, c.elig = true →
      scoreCurrentBlockSegmentation s i j
          (getSuperpixelI s (s.currentLabels i j))
          (getSuperpixelJ s (s.currentLabels i j))
        + s.minimumConfidence < c.score ∧ 0 < c.score) := by
  have hq := blockCandidates_elig_gt s i j hconf hcur
  refine ⟨?_, hq⟩
  unfold performBlockUpdate
  rw [if_pos hmem]
  dsimp only
  rw [if_pos hdiff]
  split
  · simp only [blockUpdateStep_eq_selStep]
    exact selGoal_spec
      ⟨i, j, getSuperpixelI s (s.currentLabels i j),
        getSuperpixelJ s (s.currentLabels i j), 0⟩
      (blockCandidates s i j)
      { s with spatialMemory := upd2 s.spatialMemory i j false } i j
      (getSuperpixelI s (s.currentLabels i j))
      (getSuperpixelJ s (s.currentLabels i j))
      (min (i + 1) (s.currentBlockHeightNumber - 1)) (i - 1)
      (min (j + 1) (s.currentBlockWidthNumber - 1)) (j - 1) rfl
      (fun c hc he => (hq c hc he).2)
  · rename_i hc
    exact absurd hblocks hc

/-- A concrete state exercising claim C4: a 4x4 image at block level 1 with a
2x2 block grid, row-striped labels, empty histograms, all blocks dirty, and
block pixel counts 1 below superpixel counts 2. -/
def cexC4w : State :=
  { seedsRevisedCtor 4 4 1 (fun _ _ _ => 0) 2 1 1 2 0 0 with
    currentLevel := 1
    currentBlockHeightNumber := 2
    currentBlockWidthNumber := 2
    currentLabels := fun i _ => (i : Int)
    spatialMemory := fun _ _ => true
    histograms := fun _ _ _ _ => 0
    pixels := fun lvl _ _ => if lvl = 0 then 1 else 2 }

/-- Witness for claim C4 at block (0, 0) of cexC4w. -/
theorem claim_C4_witness :
    performBlockUpdate cexC4w 0 0 =
      selOutcome { cexC4w with
          spatialMemory := upd2 cexC4w.spatialMemory 0 0 false }
        0 0 (getSuperpixelI cexC4w (cexC4w.currentLabels 0 0))
        (getSuperpixelJ cexC4w (cexC4w.currentLabels 0 0))
        (min (0 + 1) (cexC4w.currentBlockHeightNumber - 1)) (0 - 1)
        (min (0 + 1) (cexC4w.currentBlockWidthNumber - 1)) (0 - 1)
        (blockCandidates cexC4w 0 0) ∧
    (∀ c ∈ blockCandidates cexC4w 0 0, c.elig = true →
      scoreCurrentBlockSegmentation cexC4w 0 0
          (getSuperpixelI cexC4w (cexC4w.currentLabels 0 0))
          (getSuperpixelJ cexC4w (cexC4w.currentLabels 0 0))
        + cexC4w.minimumConfidence < c.score ∧ 0 < c.score) :=
  claim_C4 cexC4w 0 0 rfl (by decide) (by decide) (le_refl 0)
    (by simp [scoreCurrentBlockSegmentation, cexC4w])

/-! ## Claim C7: pixel-update window and selection discipline -/

/-- The candidate record built by one direction of performPixelUpdate. -/
def pixelCand (s : State) (i j : Nat) (currentScore : ℚ)
    (labelNeighbor labelFrom : Int) (chk : Bool) (iTo jTo : Nat) : Cand :=
  ⟨iTo, jTo, getSuperpixelI s labelNeighbor, getSuperpixelJ s labelNeighbor,
    scorePixelUpdate s i j iTo jTo currentScore
      (scoreProposedPixelSegmentation s i j (getSuperpixelI s labelNeighbor)
        (getSuperpixelJ s labelNeighbor)),
    decide (labelNeighbor ≠ labelFrom) && !chk &&
      decide (0 < scorePixelUpdate s i j iTo jTo currentScore
        (scoreProposedPixelSegmentation s i j (getSuperpixelI s labelNeighbor)
          (getSuperpixelJ s labelNeighbor)))⟩

/-- The four candidate moves examined by performPixelUpdate at pixel (i, j),
in source order: vertical forward, vertical backward, horizontal forward,
horizontal backward (SeedsRevised.cpp 849-909). -/
def pixelCandidates (s : State) (i j : Nat) : List Cand :=
  let iPlusOne := min (i + 1) (s.height - 1)
  let iMinusOne := i - 1
  let jPlusOne := min (j + 1) (s.width - 1)
  let jMinusOne := j - 1
  let labelFrom := s.currentLabels i j
  let currentScore := scoreCurrentPixelSegmentation s i j
    (getSuperpixelI s labelFrom) (getSuperpixelJ s labelFrom)
  [pixelCand s i j currentScore (s.currentLabels iPlusOne j) labelFrom
      (checkSplitVerticalForward s i j iPlusOne iMinusOne jPlusOne jMinusOne)
      iPlusOne j,
    pixelCand s i j currentScore (s.currentLabels iMinusOne j) labelFrom
      (checkSplitVerticalBackward s i j iPlusOne iMinusOne jPlusOne jMinusOne)
      iMinusOne j,
    pixelCand s i j currentScore (s.currentLabels i jPlusOne) labelFrom
      (checkSplitHorizontalForward s i j iPlusOne iMinusOne jPlusOne jMinusOne)
      i jPlusOne,
    pixelCand s i j currentScore (s.currentLabels i jMinusOne) labelFrom
      (checkSplitHorizontalBackward s i j iPlusOne iMinusOne jPlusOne jMinusOne)
      i jMinusOne]

theorem pixelUpdateStep_eq_selStep (s : State) (i j : Nat) (cur : ℚ)
    (lN lF : Int) (chk : Bool) (iTo jTo : Nat) (b : BestMove) :
    pixelUpdateStep s i j cur lN lF chk iTo jTo b =
      selStep b (pixelCand s i j cur lN lF chk iTo jTo) := by
  unfold pixelUpdateStep pixelCand selStep
  rcases Bool.eq_false_or_eq_true chk with hc | hc <;>
    by_cases h1 : lN = lF <;>
    by_cases h3 : 0 < scorePixelUpdate s i j iTo jTo cur
      (scoreProposedPixelSegmentation s i j (getSuperpixelI s lN)
        (getSuperpixelJ s lN)) <;>
    by_cases h4 : b.bestScore < scorePixelUpdate s i j iTo jTo cur
      (scoreProposedPixelSegmentation s i j (getSuperpixelI s lN)
        (getSuperpixelJ s lN)) <;>
    simp [hc, h1, h3, h4]

theorem pixelCandidates_elig_pos (s : State) (i j : Nat) :
    ∀ c ∈ pixelCandidates s i j, c.elig = true → 0 < c.score := by
  intro c hc he
  simp only [pixelCandidates, List.mem_cons, List.mem_singleton,
    List.not_mem_nil, or_false] at hc
  have hgen : ∀ cur lN lF chk iTo jTo,
      c = pixelCand s i j cur lN lF chk iTo jTo → 0 < c.score := by
    intro cur lN lF chk iTo jTo hceq
    subst hceq
    simp only [pixelCand, Bool.and_eq_true, decide_eq_true_eq] at he
    exact he.2
  rcases hc with hc | hc | hc | hc <;> exact hgen _ _ _ _ _ _ hc

/-- The state produced by the pixel-level selection: apply `updatePixel` at
the first candidate (in list order) attaining the maximal eligible score if
some candidate is eligible, else keep the state. -/
def selOutcomePixel (t : State) (i j iSpF jSpF iP iM jP jM : Nat)
    (cs : List Cand) : State :=
  match cs.find? (selMaxPred (runBest 0 cs)) with
  | some c => updatePixel t i j c.iBest c.jBest iSpF jSpF c.iSuperpixelBest
      c.jSuperpixelBest iP iM jP jM
  | none => t

theorem selGoalPixel_spec (b0 : BestMove) (cs : List Cand) (t : State)
    (i j iSpF jSpF iP iM jP jM : Nat) (hb : b0.bestScore = 0)
    (hpos : ∀ c ∈ cs, c.elig = true → 0 < c.score) :
    (if 0 < (selRun b0 cs).bestScore then
        updatePixel t i j (selRun b0 cs).iBest (selRun b0 cs).jBest iSpF jSpF
          (selRun b0 cs).iSuperpixelBest (selRun b0 cs).jSuperpixelBest
          iP iM jP jM
      else t) = selOutcomePixel t i j iSpF jSpF iP iM jP jM cs := by
  have hsel := selFold_spec cs b0
  rw [hb] at hsel
  have hcongr : cs.find? (selPred3 0 (runBest 0 cs))
      = cs.find? (selMaxPred (runBest 0 cs)) := by
    apply find?_congr
    intro c hc
    simp only [selPred3, selMaxPred]
    by_cases he : c.elig = true
    · by_cases hEq : c.score = runBest 0 cs
      · have h0 : (0 : ℚ) < c.score := hpos c hc he
        have h0M : (0 : ℚ) < runBest 0 cs := hEq ▸ h0
        simp [he, hEq, h0M]
      · simp [hEq]
    · simp [he]
  rw [hcongr] at hsel
  unfold selOutcomePixel
  rw [hsel]
  rcases hfind : cs.find? (selMaxPred (runBest 0 cs)) with _ | c
  · simp [hb]
  · have hcm := List.mem_of_find?_eq_some hfind
    have hce := List.find?_some hfind
    simp only [selMaxPred, Bool.and_eq_true, decide_eq_true_eq] at hce
    have h0 : (0 : ℚ) < c.score := hpos c hcm hce.1
    simp [mkBestMove, h0]

/-- The window side length asserted by the spec for the smoothing prior:
2N + 1 cells in each dimension. -/
def specPixelWindowSide (s : State) : Nat := 2 * s.neighborhoodSize.toNat + 1

set_option maxHeartbeats 1000000 in
/-- Claim C7 (amended): in histogram mode with neighborhoodSize N > 0 the
current and proposed scores are multiplied by the same-label counts over the
clamped window of scorePixelUpdate and compared as (scaled proposed - scaled
current); the accepted direction is the first one attaining the maximum
strictly positive value. However the unclamped window is not
(2N+1)x(2N+1): each dimension spans 2N+1 cells plus the distance between
the pixel and the candidate cell, i.e. 2N+2 cells in the move direction. -/
theorem claim_C7_amended (s : State) (i j : Nat)
    (hmem : s.spatialMemory i j = true)
    (hdiff : s.currentLabels (min (i + 1) (s.height - 1)) j
        ≠ s.currentLabels i j ∨
      s.currentLabels (i - 1) j ≠ s.currentLabels i j ∨
      s.currentLabels i (min (j + 1) (s.width - 1)) ≠ s.currentLabels i j ∨
      s.currentLabels i (j - 1) ≠ s.currentLabels i j)
    (hpix : s.minimumNumberOfSublabels < s.pixels (s.numberOfLevels - 1)
      (getSuperpixelI s (s.currentLabels i j))
      (getSuperpixelJ s (s.currentLabels i j))) :
    performPixelUpdate s i j =
      selOutcomePixel { s with spatialMemory := upd2 s.spatialMemory i j false }
        i j (getSuperpixelI s (s.currentLabels i j))
        (getSuperpixelJ s (s.currentLabels i j))
        (min (i + 1) (s.height - 1)) (i - 1)
        (min (j + 1) (s.width - 1)) (j - 1)
        (pixelCandidates s i j) ∧
    (0 < s.neighborhoodSize → ∀ iTo jTo : Nat, ∀ cur prop : ℚ,
      scorePixelUpdate s i j iTo jTo cur prop =
        (pixelCountTo s i j iTo jTo : ℚ) * prop -
          (pixelCountFrom s i j iTo jTo : ℚ) * cur) ∧
    (∀ iF iT : Nat, iF ≤ iT → 0 ≤ s.neighborhoodSize →
      s.neighborhoodSize ≤ (iF : Int) →
      (iT : Int) + s.neighborhoodSize + 1 ≤ (s.currentBlockHeightNumber : Int) →
      (pixelWindowRows s iF iT).card = (iT - iF) + specPixelWindowSide s) ∧
    (∀ jF jT : Nat, jF ≤ jT → 0 ≤ s.neighborhoodSize →
      s.neighborhoodSize ≤ (jF : Int) →
      (jT : Int) + s.neighborhoodSize + 1 ≤ (s.currentBlockWidthNumber : Int) →
      (pixelWindowCols s jF jT).card = (jT - jF) + specPixelWindowSide s) := by
  refine ⟨?_, ?_, ?_, ?_⟩
  · unfold performPixelUpdate
    rw [if_pos hmem]
    dsimp only
    rw [if_pos hdiff]
    split
    · simp only [pixelUpdateStep_eq_selStep]
      exact selGoalPixel_spec
        ⟨i, j, getSuperpixelI s (s.currentLabels i j),
          getSuperpixelJ s (s.currentLabels i j), 0⟩
        (pixelCandidates s i j)
        { s with spatialMemory := upd2 s.spatialMemory i j false } i j
        (getSuperpixelI s (s.currentLabels i j))
        (getSuperpixelJ s (s.currentLabels i j))
        (min (i + 1) (s.height - 1)) (i - 1)
        (min (j + 1) (s.width - 1)) (j - 1) rfl
        (pixelCandidates_elig_pos s i j)
    · rename_i hcnd
      exact absurd hpix hcnd
  · intro hN iTo jTo cur prop
    simp [scorePixelUpdate, hN]
  · intro iF iT h1 h2 h3 h4
    simp only [pixelWindowRows, Nat.card_Ico, specPixelWindowSide]
    omega
  · intro jF jT h1 h2 h3 h4
    simp only [pixelWindowCols, Nat.card_Ico, specPixelWindowSide]
    omega

/-- A state with neighborhoodSize 1 and an 8x8 pixel-level grid, used to
measure the smoothing window of scorePixelUpdate. -/
def cexC7 : State :=
  { seedsRevisedCtor 8 8 1 (fun _ _ _ => 0) 2 1 1 2 1 0 with
    currentBlockHeightNumber := 8
    currentBlockWidthNumber := 8 }

/-- Claim C7 counterexample: with N = 1, for the interior vertical move from
row 1 to row 2 the window of scorePixelUpdate has 4 = 2N+2 rows, not the
claimed 2N+1 = 3 (the orthogonal dimension does have 2N+1 columns). -/
theorem claim_C7_counterexample :
    cexC7.neighborhoodSize = 1 ∧
    specPixelWindowSide cexC7 = 3 ∧
    (pixelWindowCols cexC7 1 1).card = specPixelWindowSide cexC7 ∧
    (pixelWindowRows cexC7 1 2).card = specPixelWindowSide cexC7 + 1 ∧
    ¬ (pixelWindowRows cexC7 1 2).card = specPixelWindowSide cexC7 := by
  refine ⟨by decide, by decide, by decide, by decide, by decide⟩

/-- A concrete state exercising claim C7 at pixel (0, 0): 4x4 image at the
pixel level, top row labeled 0 and the rest 1, empty histograms, all pixels
dirty, superpixel pixel counts 2. -/
def cexC7w : State :=
  { seedsRevisedCtor 4 4 1 (fun _ _ _ => 0) 2 1 1 2 1 0 with
    currentLevel := 1
    currentBlockHeightNumber := 4
    currentBlockWidthNumber := 4
    currentLabels := fun i _ => if i = 0 then 0 else 1
    spatialMemory := fun _ _ => true
    histograms := fun _ _ _ _ => 0
    pixels := fun lvl _ _ => if lvl = 0 then 1 else 2 }

/-- Witness for claim C7 at pixel (0, 0) of cexC7w. -/
theorem claim_C7_witness :
    (performPixelUpdate cexC7w 0 0 =
      selOutcomePixel { cexC7w with
          spatialMemory := upd2 cexC7w.spatialMemory 0 0 false }
        0 0 (getSuperpixelI cexC7w (cexC7w.currentLabels 0 0))
        (getSuperpixelJ cexC7w (cexC7w.currentLabels 0 0))
        (min (0 + 1) (cexC7w.height - 1)) (0 - 1)
        (min (0 + 1) (cexC7w.width - 1)) (0 - 1)
        (pixelCandidates cexC7w 0 0)) ∧
    (0 < cexC7w.neighborhoodSize → ∀ iTo jTo : Nat, ∀ cur prop : ℚ,
      scorePixelUpdate cexC7w 0 0 iTo jTo cur prop =
        (pixelCountTo cexC7w 0 0 iTo jTo : ℚ) * prop -
          (pixelCountFrom cexC7w 0 0 iTo jTo : ℚ) * cur) ∧
    (∀ iF iT : Nat, iF ≤ iT → 0 ≤ cexC7w.neighborhoodSize →
      cexC7w.neighborhoodSize ≤ (iF : Int) →
      (iT : Int) + cexC7w.neighborhoodSize + 1
        ≤ (cexC7w.currentBlockHeightNumber : Int) →
      (pixelWindowRows cexC7w iF iT).card =
        (iT - iF) + specPixelWindowSide cexC7w) ∧
    (∀ jF jT : Nat, jF ≤ jT → 0 ≤ cexC7w.neighborhoodSize →
      cexC7w.neighborhoodSize ≤ (jF : Int) →
      (jT : Int) + cexC7w.neighborhoodSize + 1
        ≤ (cexC7w.currentBlockWidthNumber : Int) →
      (pixelWindowCols cexC7w jF jT).card =
        (jT - jF) + specPixelWindowSide cexC7w) :=
  claim_C7_amended cexC7w 0 0 rfl (by decide) (by decide)

/-! ## Claim C3: histogram bin sums equal stored pixel counts -/

/-- The histogram invariant of the claim: for every level and every cell, the
sum of the histogram bins equals the stored pixel count. -/
def HistInvariant (s : State) : Prop :=
  ∀ lvl i j, ∑ b ∈ Finset.range s.histogramSize, s.histograms lvl i j b
    = s.pixels lvl i j

theorem upd3_apply {α : Type} (g : Nat → Nat → Nat → α) (i j k : Nat) (v : α)
    (a b c : Nat) :
    upd3 g i j k v a b c = if a = i ∧ b = j ∧ c = k then v else g a b c := rfl

theorem upd4_apply {α : Type} (g : Nat → Nat → Nat → Nat → α) (i j k l : Nat)
    (v : α) (a b c d : Nat) :
    upd4 g i j k l v a b c d
      = if a = i ∧ b = j ∧ c = k ∧ d = l then v else g a b c d := rfl

/-- Replacing the value of one bin shifts the bin sum by the difference. -/
theorem sum_upd_bin (n b0 : Nat) (hb : b0 < n) (g g2 : Nat → Int) :
    ∑ b ∈ Finset.range n, (if b = b0 then g2 b else g b)
      = (∑ b ∈ Finset.range n, g b) + g2 b0 - g b0 := by
  have hmem : b0 ∈ Finset.range n := Finset.mem_range.mpr hb
  rw [Finset.sum_eq_sum_diff_singleton_add hmem
      (fun b => if b = b0 then g2 b else g b),
    Finset.sum_eq_sum_diff_singleton_add hmem g]
  have hcong : ∑ b ∈ Finset.range n \ {b0}, (if b = b0 then g2 b else g b)
      = ∑ b ∈ Finset.range n \ {b0}, g b := by
    apply Finset.sum_congr rfl
    intro b hbm
    have hne : ¬ b = b0 := by
      simp only [Finset.mem_sdiff, Finset.mem_singleton] at hbm
      exact hbm.2
    simp [hne]
  rw [hcong]
  have hv : (if b0 = b0 then g2 b0 else g b0) = g2 b0 := if_pos rfl
  rw [hv]
  ring

/-- Mixed-radix bound: three digits below `b` combine below `b ^ 3`. -/
theorem radix3_lt (b c0 c1 c2 : Nat) (h0 : c0 < b) (h1 : c1 < b)
    (h2 : c2 < b) : c0 + b * c1 + b * b * c2 < b * b * b := by
  have e1 : c0 + b * c1 < b * b := by
    calc c0 + b * c1 < b + b * c1 := by omega
      _ = b * (c1 + 1) := by ring
      _ ≤ b * b := Nat.mul_le_mul_left b h1
  calc c0 + b * c1 + b * b * c2 < b * b + b * b * c2 := by omega
    _ = b * b * (c2 + 1) := by ring
    _ ≤ b * b * b := Nat.mul_le_mul_left (b * b) h2

/-- The inclusive cumulative sample counts never exceed the sample count. -/
theorem channelsCum_le (s : State) (k v : Nat) :
    channelsCum s k v ≤ sampleCount s := by
  unfold channelsCum sampleHist sampleCount
  have hdisj : ∀ x ∈ Finset.range (v + 1), ∀ y ∈ Finset.range (v + 1),
      x ≠ y → Disjoint
        ((samplePoints s).filter (fun p => s.imagePixel k (5 * p.1) (5 * p.2) = x))
        ((samplePoints s).filter (fun p => s.imagePixel k (5 * p.1) (5 * p.2) = y)) := by
    intro x _ y _ hxy
    apply Finset.disjoint_left.mpr
    intro p hpx hpy
    simp only [Finset.mem_filter] at hpx hpy
    exact hxy (hpx.2 ▸ hpy.2 ▸ rfl)
  rw [← Finset.card_biUnion hdisj]
  apply Finset.card_le_card
  intro p hp
  simp only [Finset.mem_biUnion] at hp
  obtain ⟨x, _, hpx⟩ := hp
  exact (Finset.mem_filter.mp hpx).1

/-- Every equalized bin index is strictly below the histogram size. -/
theorem histogramBinsOf_lt (s : State) (hbins : 1 ≤ s.numberOfBins)
    (hch : s.histogramDimensions = 1 ∨ s.histogramDimensions = 3)
    (hsize : s.histogramSize = s.numberOfBins ^ s.histogramDimensions) :
    ∀ i j, histogramBinsOf s i j < s.histogramSize := by
  have hb0 : 0 < s.numberOfBins := hbins
  have hequi : 0 < equiHeight s := by
    unfold equiHeight
    exact Nat.div_pos (by omega) hb0
  have hlt : sampleCount s < s.numberOfBins * equiHeight s := by
    have hdm := Nat.div_add_mod (sampleCount s + s.numberOfBins) s.numberOfBins
    have hmod := Nat.mod_lt (sampleCount s + s.numberOfBins) hb0
    show sampleCount s
      < s.numberOfBins * ((sampleCount s + s.numberOfBins) / s.numberOfBins)
    linarith
  have hdigit : ∀ k v, channelsCum s k v / equiHeight s < s.numberOfBins := by
    intro k v
    rw [Nat.div_lt_iff_lt_mul hequi]
    exact lt_of_le_of_lt (channelsCum_le s k v) hlt
  intro i j
  unfold histogramBinsOf
  rcases hch with hd | hd
  · rw [if_pos hd, hsize, hd, pow_one]
    exact hdigit 0 (s.imagePixel 0 i j)
  · have hne : ¬ s.histogramDimensions = 1 := by omega
    rw [if_neg hne, if_pos hd, hsize, hd]
    have hp3 : s.numberOfBins ^ 3
        = s.numberOfBins * s.numberOfBins * s.numberOfBins := by ring
    rw [hp3]
    have h0 := hdigit 0 (s.imagePixel 0 i j)
    have h1 := hdigit 1 (s.imagePixel 1 i j)
    have h2 := hdigit 2 (s.imagePixel 2 i j)
    have := radix3_lt s.numberOfBins
      (channelsCum s 0 (s.imagePixel 0 i j) / equiHeight s)
      (channelsCum s 1 (s.imagePixel 1 i j) / equiHeight s)
      (channelsCum s 2 (s.imagePixel 2 i j) / equiHeight s) h0 h1 h2
    calc channelsCum s 0 (s.imagePixel 0 i j) / equiHeight s +
          s.numberOfBins * (channelsCum s 1 (s.imagePixel 1 i j) / equiHeight s) +
          s.numberOfBins * s.numberOfBins *
            (channelsCum s 2 (s.imagePixel 2 i j) / equiHeight s)
        < s.numberOfBins * s.numberOfBins * s.numberOfBins := this

/-- At level 1 (index 0) the per-bin rectangle cards sum to the rectangle
card: every pixel falls into exactly one in-range bin. -/
theorem sum_level0 (s : State)
    (hlt : ∀ a b : Nat, s.histogramBins a b < s.histogramSize) (i j : Nat) :
    ∑ b ∈ Finset.range s.histogramSize, ((binRect s i j b).card : Int)
      = ((blockRect s i j).card : Int) := by
  have h := Finset.card_eq_sum_card_fiberwise
    (s := blockRect s i j) (t := Finset.range s.histogramSize)
    (f := fun p => s.histogramBins p.1 p.2)
    (fun p _ => Finset.mem_range.mpr (hlt p.1 p.2))
  have h2 : ∑ b ∈ Finset.range s.histogramSize, ((binRect s i j b).card : Int)
      = ((∑ b ∈ Finset.range s.histogramSize, (binRect s i j b).card : Nat) : Int) := by
    push_cast
    rfl
  rw [h2]
  exact_mod_cast h.symm

/-- The bin sums of the bottom-up histogram pyramid equal the bottom-up pixel
counts at every level. -/
theorem sum_levelHistograms (s : State)
    (hlt : ∀ a b : Nat, s.histogramBins a b < s.histogramSize) :
    ∀ lvlIdx i j,
      ∑ b ∈ Finset.range s.histogramSize, levelHistograms s lvlIdx i j b
        = levelPixels s lvlIdx i j := by
  intro lvlIdx
  induction lvlIdx with
  | zero =>
    intro i j
    exact sum_level0 s hlt i j
  | succ n ih =>
    intro i j
    simp only [levelHistograms, levelPixels]
    by_cases h1 : i = getBlockHeightNumber s (n + 2) - 1 ∧
        2 * i + 2 < getBlockHeightNumber s (n + 1) <;>
      by_cases h2 : j = getBlockWidthNumber s (n + 2) - 1 ∧
        2 * j + 2 < getBlockWidthNumber s (n + 1) <;>
      by_cases h3 : i = getBlockHeightNumber s (n + 2) - 1 ∧
        j = getBlockWidthNumber s (n + 2) - 1 ∧
        2 * i + 2 < getBlockHeightNumber s (n + 1) ∧
        2 * j + 2 < getBlockWidthNumber s (n + 1) <;>
      simp [h1, h2, h3, Finset.sum_add_distrib, ih]

/-- Pointwise effect of the per-bin histogram transfer loop of updateBlock:
bins below `n` of the source cell lose the block histogram, bins below `n` of
the target cell gain it, and everything else is untouched. -/
theorem histTransferFold (H0 : Nat → Nat → Nat → Nat → Int)
    (spIdx blkIdx iSpF jSpF iSpT jSpT iF jF : Nat)
    (hlvl : ¬ blkIdx = spIdx) (hcells : ¬(iSpF = iSpT ∧ jSpF = jSpT)) :
    ∀ n : Nat,
      (∀ l a b k, ¬(l = spIdx ∧ a = iSpF ∧ b = jSpF) →
        ¬(l = spIdx ∧ a = iSpT ∧ b = jSpT) →
        foldN n (fun k h =>
          let h1 := upd4 h spIdx iSpF jSpF k
            (h spIdx iSpF jSpF k - h blkIdx iF jF k)
          upd4 h1 spIdx iSpT jSpT k
            (h1 spIdx iSpT jSpT k + h1 blkIdx iF jF k)) H0 l a b k
          = H0 l a b k) ∧
      (∀ k, n ≤ k →
        foldN n (fun k h =>
          let h1 := upd4 h spIdx iSpF jSpF k
            (h spIdx iSpF jSpF k - h blkIdx iF jF k)
          upd4 h1 spIdx iSpT jSpT k
            (h1 spIdx iSpT jSpT k + h1 blkIdx iF jF k)) H0 spIdx iSpF jSpF k
          = H0 spIdx iSpF jSpF k ∧
        foldN n (fun k h =>
          let h1 := upd4 h spIdx iSpF jSpF k
            (h spIdx iSpF jSpF k - h blkIdx iF jF k)
          upd4 h1 spIdx iSpT jSpT k
            (h1 spIdx iSpT jSpT k + h1 blkIdx iF jF k)) H0 spIdx iSpT jSpT k
          = H0 spIdx iSpT jSpT k) ∧
      (∀ k, k < n →
        foldN n (fun k h =>
          let h1 := upd4 h spIdx iSpF jSpF k
            (h spIdx iSpF jSpF k - h blkIdx iF jF k)
          upd4 h1 spIdx iSpT jSpT k
            (h1 spIdx iSpT jSpT k + h1 blkIdx iF jF k)) H0 spIdx iSpF jSpF k
          = H0 spIdx iSpF jSpF k - H0 blkIdx iF jF k ∧
        foldN n (fun k h =>
          let h1 := upd4 h spIdx iSpF jSpF k
            (h spIdx iSpF jSpF k - h blkIdx iF jF k)
          upd4 h1 spIdx iSpT jSpT k
            (h1 spIdx iSpT jSpT k + h1 blkIdx iF jF k)) H0 spIdx iSpT jSpT k
          = H0 spIdx iSpT jSpT k + H0 blkIdx iF jF k) := by
  intro n
  induction n with
  | zero =>
    refine ⟨fun l a b k _ _ => rfl, fun k _ => ⟨rfl, rfl⟩, fun k hk => absurd hk (by omega)⟩
  | succ m ih =>
    obtain ⟨ihA, ihB, ihC⟩ := ih
    have hFne : ¬(spIdx = spIdx ∧ iSpT = iSpF ∧ jSpT = jSpF ∧ m = m) := by
      rintro ⟨-, x, y, -⟩
      exact hcells ⟨x.symm, y.symm⟩
    have hBneF : ¬(blkIdx = spIdx ∧ iF = iSpF ∧ jF = jSpF ∧ m = m) := by
      rintro ⟨x, -⟩
      exact hlvl x
    have hBneT : ¬(blkIdx = spIdx ∧ iF = iSpT ∧ jF = jSpT ∧ m = m) := by
      rintro ⟨x, -⟩
      exact hlvl x
    have hblk : ∀ k, foldN m (fun k h =>
        let h1 := upd4 h spIdx iSpF jSpF k
          (h spIdx iSpF jSpF k - h blkIdx iF jF k)
        upd4 h1 spIdx iSpT jSpT k
          (h1 spIdx iSpT jSpT k + h1 blkIdx iF jF k)) H0 blkIdx iF jF k
        = H0 blkIdx iF jF k := by
      intro k
      exact ihA blkIdx iF jF k (fun h => hlvl h.1) (fun h => hlvl h.1)
    refine ⟨?_, ?_, ?_⟩
    · intro l a b k hnF hnT
      show upd4 _ spIdx iSpT jSpT m _ l a b k = H0 l a b k
      rw [upd4_apply, if_neg (fun h => hnT ⟨h.1, h.2.1, h.2.2.1⟩),
        upd4_apply, if_neg (fun h => hnF ⟨h.1, h.2.1, h.2.2.1⟩)]
      exact ihA l a b k hnF hnT
    · intro k hk
      have hkm : ¬ k = m := by omega
      constructor
      · show upd4 _ spIdx iSpT jSpT m _ spIdx iSpF jSpF k = _
        rw [upd4_apply, if_neg (fun h => hkm h.2.2.2),
          upd4_apply, if_neg (fun h => hkm h.2.2.2)]
        exact (ihB k (by omega)).1
      · show upd4 _ spIdx iSpT jSpT m _ spIdx iSpT jSpT k = _
        rw [upd4_apply, if_neg (fun h => hkm h.2.2.2),
          upd4_apply, if_neg (fun h => hFne ⟨rfl, h.2.1, h.2.2.1, rfl⟩)]
        exact (ihB k (by omega)).2
    · intro k hk
      by_cases hkm : k = m
      · subst hkm
        constructor
        · show upd4 _ spIdx iSpT jSpT k _ spIdx iSpF jSpF k = _
          rw [upd4_apply, if_neg (fun h => hFne ⟨rfl, h.2.1.symm, h.2.2.1.symm, rfl⟩)]
          rw [upd4_apply, if_pos ⟨rfl, rfl, rfl, rfl⟩]
          rw [(ihB k (le_refl k)).1, hblk k]
        · show upd4 _ spIdx iSpT jSpT k _ spIdx iSpT jSpT k = _
          rw [upd4_apply, if_pos ⟨rfl, rfl, rfl, rfl⟩]
          rw [upd4_apply, if_neg hFne, upd4_apply,
            if_neg hBneF]
          rw [(ihB k (le_refl k)).2, hblk k]
      · have hkm2 : k < m := by omega
        constructor
        · show upd4 _ spIdx iSpT jSpT m _ spIdx iSpF jSpF k = _
          rw [upd4_apply, if_neg (fun h => hkm h.2.2.2),
            upd4_apply, if_neg (fun h => hkm h.2.2.2)]
          exact (ihC k hkm2).1
        · show upd4 _ spIdx iSpT jSpT m _ spIdx iSpT jSpT k = _
          rw [upd4_apply, if_neg (fun h => hkm h.2.2.2),
            upd4_apply, if_neg (fun h => hFne ⟨rfl, h.2.1, h.2.2.1, rfl⟩)]
          exact (ihC k hkm2).2

/-- Pointwise effect of the two pixel-count writes of updateBlock. -/
theorem blockMoveApply (P0 : Nat → Nat → Nat → Int)
    (spIdx blkIdx iSpF jSpF iSpT jSpT iF jF : Nat)
    (hlvl : ¬ blkIdx = spIdx) (hcells : ¬(iSpF = iSpT ∧ jSpF = jSpT)) :
    ∀ l a b,
      upd3 (upd3 P0 spIdx iSpF jSpF (P0 spIdx iSpF jSpF - P0 blkIdx iF jF))
        spIdx iSpT jSpT
        ((upd3 P0 spIdx iSpF jSpF (P0 spIdx iSpF jSpF - P0 blkIdx iF jF))
            spIdx iSpT jSpT
          + (upd3 P0 spIdx iSpF jSpF (P0 spIdx iSpF jSpF - P0 blkIdx iF jF))
            blkIdx iF jF) l a b
      = if l = spIdx ∧ a = iSpF ∧ b = jSpF then P0 l a b - P0 blkIdx iF jF
        else if l = spIdx ∧ a = iSpT ∧ b = jSpT then P0 l a b + P0 blkIdx iF jF
        else P0 l a b := by
  intro l a b
  have hV1 : (upd3 P0 spIdx iSpF jSpF (P0 spIdx iSpF jSpF - P0 blkIdx iF jF))
      spIdx iSpT jSpT = P0 spIdx iSpT jSpT := by
    rw [upd3_apply]
    exact if_neg (fun h => hcells ⟨h.2.1.symm, h.2.2.symm⟩)
  have hV2 : (upd3 P0 spIdx iSpF jSpF (P0 spIdx iSpF jSpF - P0 blkIdx iF jF))
      blkIdx iF jF = P0 blkIdx iF jF := by
    rw [upd3_apply]
    exact if_neg (fun h => hlvl h.1)
  rw [hV1, hV2, upd3_apply]
  by_cases cT : l = spIdx ∧ a = iSpT ∧ b = jSpT
  · obtain ⟨e1, e2, e3⟩ := cT
    subst e1; subst e2; subst e3
    rw [if_pos ⟨rfl, rfl, rfl⟩, if_neg (fun h => hcells ⟨h.2.1.symm, h.2.2.symm⟩),
      if_pos ⟨rfl, rfl, rfl⟩]
  · rw [if_neg cT, upd3_apply]
    by_cases cF : l = spIdx ∧ a = iSpF ∧ b = jSpF
    · obtain ⟨e1, e2, e3⟩ := cF
      subst e1; subst e2; subst e3
      rw [if_pos ⟨rfl, rfl, rfl⟩, if_pos ⟨rfl, rfl, rfl⟩]
    · rw [if_neg cF, if_neg cF, if_neg cT]

/-- Pointwise effect of the two histogram writes of updatePixel. -/
theorem pixelTransferApply (H0 : Nat → Nat → Nat → Nat → Int)
    (spIdx iSpF jSpF iSpT jSpT bin0 : Nat)
    (hcells : ¬(iSpF = iSpT ∧ jSpF = jSpT)) :
    ∀ l a b k,
      upd4 (upd4 H0 spIdx iSpF jSpF bin0 (H0 spIdx iSpF jSpF bin0 - 1))
        spIdx iSpT jSpT bin0
        ((upd4 H0 spIdx iSpF jSpF bin0 (H0 spIdx iSpF jSpF bin0 - 1))
          spIdx iSpT jSpT bin0 + 1) l a b k
      = if l = spIdx ∧ a = iSpF ∧ b = jSpF ∧ k = bin0 then H0 l a b k - 1
        else if l = spIdx ∧ a = iSpT ∧ b = jSpT ∧ k = bin0 then H0 l a b k + 1
        else H0 l a b k := by
  intro l a b k
  have hV : (upd4 H0 spIdx iSpF jSpF bin0 (H0 spIdx iSpF jSpF bin0 - 1))
      spIdx iSpT jSpT bin0 = H0 spIdx iSpT jSpT bin0 := by
    rw [upd4_apply]
    exact if_neg (fun h => hcells ⟨h.2.1.symm, h.2.2.1.symm⟩)
  rw [hV, upd4_apply]
  by_cases cT : l = spIdx ∧ a = iSpT ∧ b = jSpT ∧ k = bin0
  · obtain ⟨e1, e2, e3, e4⟩ := cT
    subst e1; subst e2; subst e3; subst e4
    rw [if_pos ⟨rfl, rfl, rfl, rfl⟩,
      if_neg (fun h => hcells ⟨h.2.1.symm, h.2.2.1.symm⟩),
      if_pos ⟨rfl, rfl, rfl, rfl⟩]
  · rw [if_neg cT, upd4_apply]
    by_cases cF : l = spIdx ∧ a = iSpF ∧ b = jSpF ∧ k = bin0
    · obtain ⟨e1, e2, e3, e4⟩ := cF
      subst e1; subst e2; subst e3; subst e4
      rw [if_pos ⟨rfl, rfl, rfl, rfl⟩, if_pos ⟨rfl, rfl, rfl, rfl⟩]
    · rw [if_neg cF, if_neg cF, if_neg cT]

/-- Pointwise effect of the two pixel-count writes of updatePixel. -/
theorem pixelMoveApply (P0 : Nat → Nat → Nat → Int)
    (spIdx iSpF jSpF iSpT jSpT : Nat)
    (hcells : ¬(iSpF = iSpT ∧ jSpF = jSpT)) :
    ∀ l a b,
      upd3 (upd3 P0 spIdx iSpF jSpF (P0 spIdx iSpF jSpF - 1)) spIdx iSpT jSpT
        ((upd3 P0 spIdx iSpF jSpF (P0 spIdx iSpF jSpF - 1)) spIdx iSpT jSpT + 1)
        l a b
      = if l = spIdx ∧ a = iSpF ∧ b = jSpF then P0 l a b - 1
        else if l = spIdx ∧ a = iSpT ∧ b = jSpT then P0 l a b + 1
        else P0 l a b := by
  intro l a b
  have hV : (upd3 P0 spIdx iSpF jSpF (P0 spIdx iSpF jSpF - 1))
      spIdx iSpT jSpT = P0 spIdx iSpT jSpT := by
    rw [upd3_apply]
    exact if_neg (fun h => hcells ⟨h.2.1.symm, h.2.2.symm⟩)
  rw [hV, upd3_apply]
  by_cases cT : l = spIdx ∧ a = iSpT ∧ b = jSpT
  · obtain ⟨e1, e2, e3⟩ := cT
    subst e1; subst e2; subst e3
    rw [if_pos ⟨rfl, rfl, rfl⟩, if_neg (fun h => hcells ⟨h.2.1.symm, h.2.2.symm⟩),
      if_pos ⟨rfl, rfl, rfl⟩]
  · rw [if_neg cT, upd3_apply]
    by_cases cF : l = spIdx ∧ a = iSpF ∧ b = jSpF
    · obtain ⟨e1, e2, e3⟩ := cF
      subst e1; subst e2; subst e3
      rw [if_pos ⟨rfl, rfl, rfl⟩, if_pos ⟨rfl, rfl, rfl⟩]
    · rw [if_neg cF, if_neg cF, if_neg cT]

/-- updateBlock preserves the histogram invariant when the block level is
strictly below the superpixel level and the two superpixels differ. -/
theorem updateBlock_histInvariant (s : State)
    (iF jF iT jT iSpF jSpF iSpT jSpT iP iM jP jM : Nat)
    (hinv : HistInvariant s)
    (hlvl : ¬ s.currentLevel - 1 = s.numberOfLevels - 1)
    (hcells : ¬(iSpF = iSpT ∧ jSpF = jSpT)) :
    HistInvariant (updateBlock s iF jF iT jT iSpF jSpF iSpT jSpT iP iM jP jM) := by
  obtain ⟨foldA, foldB, foldC⟩ := histTransferFold s.histograms
    (s.numberOfLevels - 1) (s.currentLevel - 1) iSpF jSpF iSpT jSpT iF jF
    hlvl hcells s.histogramSize
  intro lvl a b
  show ∑ k ∈ Finset.range s.histogramSize,
      foldN s.histogramSize (fun k h =>
        let h1 := upd4 h (s.numberOfLevels - 1) iSpF jSpF k
          (h (s.numberOfLevels - 1) iSpF jSpF k - h (s.currentLevel - 1) iF jF k)
        upd4 h1 (s.numberOfLevels - 1) iSpT jSpT k
          (h1 (s.numberOfLevels - 1) iSpT jSpT k
            + h1 (s.currentLevel - 1) iF jF k))
        s.histograms lvl a b k
    = upd3 (upd3 s.pixels (s.numberOfLevels - 1) iSpF jSpF
          (s.pixels (s.numberOfLevels - 1) iSpF jSpF
            - s.pixels (s.currentLevel - 1) iF jF))
        (s.numberOfLevels - 1) iSpT jSpT
        ((upd3 s.pixels (s.numberOfLevels - 1) iSpF jSpF
            (s.pixels (s.numberOfLevels - 1) iSpF jSpF
              - s.pixels (s.currentLevel - 1) iF jF))
          (s.numberOfLevels - 1) iSpT jSpT
        + (upd3 s.pixels (s.numberOfLevels - 1) iSpF jSpF
            (s.pixels (s.numberOfLevels - 1) iSpF jSpF
              - s.pixels (s.currentLevel - 1) iF jF))
          (s.currentLevel - 1) iF jF) lvl a b
  rw [blockMoveApply s.pixels (s.numberOfLevels - 1) (s.currentLevel - 1)
    iSpF jSpF iSpT jSpT iF jF hlvl hcells]
  by_cases cF : lvl = s.numberOfLevels - 1 ∧ a = iSpF ∧ b = jSpF
  · obtain ⟨e1, e2, e3⟩ := cF
    rw [e1, e2, e3, if_pos ⟨rfl, rfl, rfl⟩]
    rw [Finset.sum_congr rfl (fun k hk => (foldC k (Finset.mem_range.mp hk)).1)]
    rw [Finset.sum_sub_distrib, hinv, hinv]
  · by_cases cT : lvl = s.numberOfLevels - 1 ∧ a = iSpT ∧ b = jSpT
    · obtain ⟨e1, e2, e3⟩ := cT
      rw [e1, e2, e3]
      rw [if_neg (fun h => hcells ⟨h.2.1.symm, h.2.2.symm⟩),
        if_pos ⟨rfl, rfl, rfl⟩]
      rw [Finset.sum_congr rfl (fun k hk => (foldC k (Finset.mem_range.mp hk)).2)]
      rw [Finset.sum_add_distrib, hinv, hinv]
    · rw [if_neg cF, if_neg cT]
      rw [Finset.sum_congr rfl (fun k hk => foldA lvl a b k cF cT)]
      exact hinv lvl a b

/-- updatePixel preserves the histogram invariant when the pixel's bin is in
range and the two superpixels differ. -/
theorem updatePixel_histInvariant (s : State)
    (iF jF iT jT iSpF jSpF iSpT jSpT iP iM jP jM : Nat)
    (hinv : HistInvariant s)
    (hcells : ¬(iSpF = iSpT ∧ jSpF = jSpT))
    (hbin : s.histogramBins iF jF < s.histogramSize) :
    HistInvariant (updatePixel s iF jF iT jT iSpF jSpF iSpT jSpT iP iM jP jM) := by
  intro lvl a b
  show ∑ k ∈ Finset.range s.histogramSize,
      upd4 (upd4 s.histograms (s.numberOfLevels - 1) iSpF jSpF
          (s.histogramBins iF jF)
          (s.histograms (s.numberOfLevels - 1) iSpF jSpF
            (s.histogramBins iF jF) - 1))
        (s.numberOfLevels - 1) iSpT jSpT (s.histogramBins iF jF)
        ((upd4 s.histograms (s.numberOfLevels - 1) iSpF jSpF
            (s.histogramBins iF jF)
            (s.histograms (s.numberOfLevels - 1) iSpF jSpF
              (s.histogramBins iF jF) - 1))
          (s.numberOfLevels - 1) iSpT jSpT (s.histogramBins iF jF) + 1)
        lvl a b k
    = upd3 (upd3 s.pixels (s.numberOfLevels - 1) iSpF jSpF
          (s.pixels (s.numberOfLevels - 1) iSpF jSpF - 1))
        (s.numberOfLevels - 1) iSpT jSpT
        ((upd3 s.pixels (s.numberOfLevels - 1) iSpF jSpF
            (s.pixels (s.numberOfLevels - 1) iSpF jSpF - 1))
          (s.numberOfLevels - 1) iSpT jSpT + 1) lvl a b
  rw [pixelMoveApply s.pixels (s.numberOfLevels - 1) iSpF jSpF iSpT jSpT hcells]
  simp only [pixelTransferApply s.histograms (s.numberOfLevels - 1)
    iSpF jSpF iSpT jSpT (s.histogramBins iF jF) hcells]
  by_cases cF : lvl = s.numberOfLevels - 1 ∧ a = iSpF ∧ b = jSpF
  · obtain ⟨e1, e2, e3⟩ := cF
    rw [e1, e2, e3, if_pos ⟨rfl, rfl, rfl⟩]
    have h2 : ∀ k : Nat, ¬(s.numberOfLevels - 1 = s.numberOfLevels - 1 ∧
        iSpF = iSpT ∧ jSpF = jSpT ∧ k = s.histogramBins iF jF) :=
      fun k h => hcells ⟨h.2.1, h.2.2.1⟩
    have h1 : ∀ k : Nat, (s.numberOfLevels - 1 = s.numberOfLevels - 1 ∧
        iSpF = iSpF ∧ jSpF = jSpF ∧ k = s.histogramBins iF jF)
        ↔ k = s.histogramBins iF jF := by
      intro k
      constructor
      · exact fun h => h.2.2.2
      · exact fun h => ⟨rfl, rfl, rfl, h⟩
    rw [Finset.sum_congr rfl (fun k _ => by rw [if_congr (h1 k) rfl rfl, if_neg (h2 k)])]
    rw [sum_upd_bin s.histogramSize (s.histogramBins iF jF) hbin, hinv]
    ring
  · by_cases cT : lvl = s.numberOfLevels - 1 ∧ a = iSpT ∧ b = jSpT
    · obtain ⟨e1, e2, e3⟩ := cT
      rw [e1, e2, e3]
      rw [if_neg (fun h => hcells ⟨h.2.1.symm, h.2.2.symm⟩),
        if_pos ⟨rfl, rfl, rfl⟩]
      have h1 : ∀ k : Nat, ¬(s.numberOfLevels - 1 = s.numberOfLevels - 1 ∧
          iSpT = iSpF ∧ jSpT = jSpF ∧ k = s.histogramBins iF jF) :=
        fun k h => hcells ⟨h.2.1.symm, h.2.2.1.symm⟩
      have h2 : ∀ k : Nat, (s.numberOfLevels - 1 = s.numberOfLevels - 1 ∧
          iSpT = iSpT ∧ jSpT = jSpT ∧ k = s.histogramBins iF jF)
          ↔ k = s.histogramBins iF jF := by
        intro k
        constructor
        · exact fun h => h.2.2.2
        · exact fun h => ⟨rfl, rfl, rfl, h⟩
      rw [Finset.sum_congr rfl (fun k _ => by rw [if_neg (h1 k), if_congr (h2 k) rfl rfl])]
      rw [sum_upd_bin s.histogramSize (s.histogramBins iF jF) hbin, hinv]
      ring
    · rw [if_neg cF, if_neg cT]
      have h1 : ∀ k : Nat, ¬(lvl = s.numberOfLevels - 1 ∧
          a = iSpF ∧ b = jSpF ∧ k = s.histogramBins iF jF) :=
        fun k h => cF ⟨h.1, h.2.1, h.2.2.1⟩
      have h2 : ∀ k : Nat, ¬(lvl = s.numberOfLevels - 1 ∧
          a = iSpT ∧ b = jSpT ∧ k = s.histogramBins iF jF) :=
        fun k h => cT ⟨h.1, h.2.1, h.2.2.1⟩
      rw [Finset.sum_congr rfl (fun k _ => by rw [if_neg (h1 k), if_neg (h2 k)])]
      exact hinv lvl a b

/-- initializeHistograms establishes the histogram invariant for a valid
channel count and at least one bin. -/
theorem initHistograms_histInvariant (t : State) (hbins : 1 ≤ t.numberOfBins)
    (hch : t.channels = 1 ∨ t.channels = 3) :
    HistInvariant (initHistograms t) := by
  intro lvl a b
  have hlt : ∀ i2 j2 : Nat,
      ({ t with
          histogramDimensions := t.channels,
          histogramSize := t.numberOfBins ^ t.channels,
          histogramBins := histogramBinsOf { t with
            histogramDimensions := t.channels,
            histogramSize := t.numberOfBins ^ t.channels } } : State).histogramBins
        i2 j2
      < ({ t with
          histogramDimensions := t.channels,
          histogramSize := t.numberOfBins ^ t.channels,
          histogramBins := histogramBinsOf { t with
            histogramDimensions := t.channels,
            histogramSize := t.numberOfBins ^ t.channels } } : State).histogramSize := by
    intro i2 j2
    exact histogramBinsOf_lt
      { t with
        histogramDimensions := t.channels,
        histogramSize := t.numberOfBins ^ t.channels } hbins hch rfl i2 j2
  exact sum_levelHistograms
    { t with
      histogramDimensions := t.channels,
      histogramSize := t.numberOfBins ^ t.channels,
      histogramBins := histogramBinsOf { t with
        histogramDimensions := t.channels,
        histogramSize := t.numberOfBins ^ t.channels } } hlt lvl a b

theorem goDownOneLevel_numberOfBins (s : State) :
    (goDownOneLevel s).numberOfBins = s.numberOfBins := by
  by_cases h : 0 < s.currentLevel - 1 <;> simp [goDownOneLevel, h]

theorem goDownOneLevel_channels (s : State) :
    (goDownOneLevel s).channels = s.channels := by
  by_cases h : 0 < s.currentLevel - 1 <;> simp [goDownOneLevel, h]

theorem initLabels_numberOfBins (s : State) :
    (initLabels s).numberOfBins = s.numberOfBins := by
  simp only [initLabels]
  rw [goDownOneLevel_numberOfBins]

theorem initLabels_channels (s : State) :
    (initLabels s).channels = s.channels := by
  simp only [initLabels]
  rw [goDownOneLevel_channels]

/-- Claim C3: after histogram initialization the sum of every cell's
histogram bins equals its stored pixel count, at every level; the invariant
is preserved by every updateBlock (block level strictly below the superpixel
level, distinct source and target superpixels) and by every updatePixel
(in-range bin, distinct source and target superpixels), hence it holds before
and after every accepted move. -/
theorem claim_C3 (s t : State)
    (iF jF iT jT iSpF jSpF iSpT jSpT iP iM jP jM : Nat)
    (hbins : 1 ≤ s.numberOfBins) (hch : s.channels = 1 ∨ s.channels = 3)
    (hinv : HistInvariant t)
    (hlvl : ¬ t.currentLevel - 1 = t.numberOfLevels - 1)
    (hcells : ¬(iSpF = iSpT ∧ jSpF = jSpT))
    (hbin : t.histogramBins iF jF < t.histogramSize) :
    HistInvariant (initAll s) ∧
    HistInvariant (updateBlock t iF jF iT jT iSpF jSpF iSpT jSpT iP iM jP jM) ∧
    HistInvariant (updatePixel t iF jF iT jT iSpF jSpF iSpT jSpT iP iM jP jM) := by
  refine ⟨?_,
    updateBlock_histInvariant t iF jF iT jT iSpF jSpF iSpT jSpT iP iM jP jM
      hinv hlvl hcells,
    updatePixel_histInvariant t iF jF iT jT iSpF jSpF iSpT jSpT iP iM jP jM
      hinv hcells hbin⟩
  have hb : 1 ≤ (initLabels s).numberOfBins := by
    rw [initLabels_numberOfBins]; exact hbins
  have hc : (initLabels s).channels = 1 ∨ (initLabels s).channels = 3 := by
    rw [initLabels_channels]; exact hch
  exact initHistograms_histInvariant (initLabels s) hb hc

/-- A state with zeroed histograms and pixel counts, trivially satisfying the
histogram invariant, used to exercise the preservation part of claim C3. -/
def cexC3w : State :=
  { seedsRevisedCtor 4 4 1 (fun _ _ _ => 0) 2 1 1 2 0 0 with
    currentLevel := 1
    histograms := fun _ _ _ _ => 0
    pixels := fun _ _ _ => 0
    histogramBins := fun _ _ => 0
    histogramSize := 1 }

/-- Witness for claim C3: a concrete 5x4 initialization and a concrete block
and pixel move on cexC3w. -/
theorem claim_C3_witness :
    HistInvariant (initAll (seedsRevisedCtor 5 4 1
      (fun _ _ j => if j < 2 then 0 else 1) 2 1 1 2 0 0)) ∧
    HistInvariant (updateBlock cexC3w 0 0 0 1 0 0 0 1 1 0 1 0) ∧
    HistInvariant (updatePixel cexC3w 0 0 0 1 0 0 0 1 1 0 1 0) :=
  claim_C3 (seedsRevisedCtor 5 4 1 (fun _ _ j => if j < 2 then 0 else 1)
      2 1 1 2 0 0) cexC3w 0 0 0 1 0 0 0 1 1 0 1 0
    (by decide) (by decide) (fun lvl i j => by simp [cexC3w])
    (by decide) (by decide) (by decide)

/-! ## Claim C2: label ranges and grid dimensions through the pipeline -/

/-- A single grid cell holds a label in `[0, S)`. -/
def cellOk (S : Int) (g : Nat → Nat → Int) (r c : Nat) : Prop :=
  0 ≤ g r c ∧ g r c < S

/-- All cells of the `rows x cols` region hold labels in `[0, S)`. -/
def GridInv (S : Int) (rows cols : Nat) (g : Nat → Nat → Int) : Prop :=
  ∀ r c, r < rows → c < cols → cellOk S g r c

/-- A grid transformation is good when it preserves the region invariant and
every already-in-range cell (it only ever writes in-range values). -/
def Good (S : Int) (rows cols : Nat)
    (F : (Nat → Nat → Int) → (Nat → Nat → Int)) : Prop :=
  ∀ g, GridInv S rows cols g →
    GridInv S rows cols (F g) ∧ ∀ r c, cellOk S g r c → cellOk S (F g) r c

theorem good_id (S : Int) (rows cols : Nat) :
    Good S rows cols (fun g => g) :=
  fun _ hg => ⟨hg, fun _ _ h => h⟩

/-- Writing an in-range value anywhere is good and makes the target cell
in-range. -/
theorem updOk (S : Int) (rows cols : Nat) (a b : Nat) (g : Nat → Nat → Int)
    (v : Int) (hv : 0 ≤ v ∧ v < S) (hg : GridInv S rows cols g) :
    GridInv S rows cols (upd2 g a b v) ∧
    (∀ r c, cellOk S g r c → cellOk S (upd2 g a b v) r c) ∧
    cellOk S (upd2 g a b v) a b := by
  have hval : ∀ r c, cellOk S g r c → cellOk S (upd2 g a b v) r c := by
    intro r c h
    unfold cellOk upd2
    by_cases hrc : r = a ∧ c = b
    · rw [if_pos hrc]; exact hv
    · rw [if_neg hrc]; exact h
  refine ⟨fun r c hr hc => hval r c (hg r c hr hc), hval, ?_⟩
  unfold cellOk upd2
  rw [if_pos ⟨rfl, rfl⟩]
  exact hv

theorem foldN_good (S : Int) (rows cols : Nat)
    (f : Nat → (Nat → Nat → Int) → (Nat → Nat → Int)) :
    ∀ n, (∀ k, k < n → Good S rows cols (f k)) →
      Good S rows cols (foldN n f) := by
  intro n
  induction n with
  | zero => intro _ g hg; exact ⟨hg, fun _ _ h => h⟩
  | succ m ih =>
    intro hf g hg
    obtain ⟨h1, h2⟩ := ih (fun k hk => hf k (by omega)) g hg
    obtain ⟨h3, h4⟩ := hf m (by omega) (foldN m f g) h1
    exact ⟨h3, fun r c h => h4 r c (h2 r c h)⟩

theorem foldN_estabT (S : Int) (rows cols : Nat)
    (f : Nat → (Nat → Nat → Int) → (Nat → Nat → Int))
    (T : Nat → Nat → Nat → Prop) :
    ∀ n, (∀ k, k < n → Good S rows cols (f k)) →
      (∀ k, k < n → ∀ g, GridInv S rows cols g →
        ∀ r c, T k r c → cellOk S (f k g) r c) →
      ∀ g, GridInv S rows cols g →
        ∀ k, k < n → ∀ r c, T k r c → cellOk S (foldN n f g) r c := by
  intro n
  induction n with
  | zero => intro _ _ _ _ k hk; exact absurd hk (by omega)
  | succ m ih =>
    intro hf he g hg k hk r c hT
    have hGm := foldN_good S rows cols f m (fun k hk => hf k (by omega)) g hg
    by_cases hkm : k = m
    · subst hkm
      exact he k (by omega) (foldN k f g) hGm.1 r c hT
    · have hprev := ih (fun k hk => hf k (by omega)) (fun k hk => he k (by omega))
        g hg k (by omega) r c hT
      exact (hf m (by omega) (foldN m f g) hGm.1).2 r c hprev

theorem foldDesc_good (S : Int) (rows cols : Nat)
    (f : Nat → (Nat → Nat → Int) → (Nat → Nat → Int)) :
    ∀ n, (∀ k, k < n → Good S rows cols (f k)) →
      Good S rows cols (foldDesc n f) := by
  intro n
  induction n with
  | zero => intro _ g hg; exact ⟨hg, fun _ _ h => h⟩
  | succ m ih =>
    intro hf g hg
    obtain ⟨h1, h2⟩ := hf m (by omega) g hg
    obtain ⟨h3, h4⟩ := ih (fun k hk => hf k (by omega)) (f m g) h1
    exact ⟨h3, fun r c h => h4 r c (h2 r c h)⟩

theorem foldDesc_estabT (S : Int) (rows cols : Nat)
    (f : Nat → (Nat → Nat → Int) → (Nat → Nat → Int))
    (T : Nat → Nat → Nat → Prop) :
    ∀ n, (∀ k, k < n → Good S rows cols (f k)) →
      (∀ k, k < n → ∀ g, GridInv S rows cols g →
        ∀ r c, T k r c → cellOk S (f k g) r c) →
      ∀ g, GridInv S rows cols g →
        ∀ k, k < n → ∀ r c, T k r c → cellOk S (foldDesc n f g) r c := by
  intro n
  induction n with
  | zero => intro _ _ _ _ k hk; exact absurd hk (by omega)
  | succ m ih =>
    intro hf he g hg k hk r c hT
    have h1 := hf m (by omega) g hg
    by_cases hkm : k = m
    · subst hkm
      have hcell := he k (by omega) g hg r c hT
      exact (foldDesc_good S rows cols f k (fun k hk => hf k (by omega))
        (f k g) h1.1).2 r c hcell
    · exact ih (fun k hk => hf k (by omega)) (fun k hk => he k (by omega))
        (f m g) h1.1 k (by omega) r c hT

theorem wrc_ok (S : Int) (rows cols i j a b : Nat) (hi : i < rows)
    (hj : j < cols) :
    Good S rows cols (wrc a b i j) ∧
    (∀ g, GridInv S rows cols g → cellOk S (wrc a b i j g) a b) := by
  constructor
  · intro g hg
    have h := updOk S rows cols a b g (g i j) (hg i j hi hj) hg
    exact ⟨h.1, h.2.1⟩
  · intro g hg
    exact (updOk S rows cols a b g (g i j) (hg i j hi hj) hg).2.2

/-- Rows written for parent row `i` by the level descent. -/
def rowChild (cbhn nbhn i r : Nat) : Prop :=
  r = 2 * i ∨ r = 2 * i + 1 ∨ (i = cbhn - 1 ∧ 2 * i + 2 ≤ r ∧ r < nbhn)

/-- Columns written for parent column `j` by the level descent. -/
def colChild (cbwn nbwn j c : Nat) : Prop :=
  c = 2 * j ∨ c = 2 * j + 1 ∨ (j = cbwn - 1 ∧ 2 * j + 2 ≤ c ∧ c < nbwn)

theorem rowChild_cover (cbhn nbhn : Nat) (h1 : 1 ≤ cbhn) (r : Nat)
    (hr : r < nbhn) : ∃ i, i < cbhn ∧ rowChild cbhn nbhn i r :=
  ⟨min (r / 2) (cbhn - 1), by omega, by unfold rowChild; omega⟩

theorem colChild_cover (cbwn nbwn : Nat) (h1 : 1 ≤ cbwn) (c : Nat)
    (hc : c < nbwn) : ∃ j, j < cbwn ∧ colChild cbwn nbwn j c :=
  ⟨min (c / 2) (cbwn - 1), by omega, by unfold colChild; omega⟩

theorem stage5_ok (S : Int) (cbhn cbwn nbhn nbwn i j : Nat)
    (hi : i < cbhn) (hj : j < cbwn) :
    Good S cbhn cbwn (fun g => foldRangeAsc (2 * i + 2) nbhn (fun k g =>
      foldRangeAsc (2 * j + 2) nbwn (fun l g => wrc k l i j g) g) g) ∧
    (∀ g, GridInv S cbhn cbwn g → ∀ r c,
      2 * i + 2 ≤ r → r < nbhn → 2 * j + 2 ≤ c → c < nbwn →
      cellOk S (foldRangeAsc (2 * i + 2) nbhn (fun k g =>
        foldRangeAsc (2 * j + 2) nbwn (fun l g => wrc k l i j g) g) g) r c) := by
  have hinner : ∀ k, Good S cbhn cbwn (fun g =>
      foldRangeAsc (2 * j + 2) nbwn (fun l g => wrc k l i j g) g) :=
    fun k => foldN_good S cbhn cbwn _ (nbwn - (2 * j + 2))
      (fun l _ => (wrc_ok S cbhn cbwn i j k (2 * j + 2 + l) hi hj).1)
  have hinnerE : ∀ k g, GridInv S cbhn cbwn g → ∀ c,
      2 * j + 2 ≤ c → c < nbwn →
      cellOk S (foldRangeAsc (2 * j + 2) nbwn (fun l g => wrc k l i j g) g)
        k c := by
    intro k g hg c hc1 hc2
    have := foldN_estabT S cbhn cbwn
      (fun l t => wrc k (2 * j + 2 + l) i j t)
      (fun l r c => r = k ∧ c = 2 * j + 2 + l) (nbwn - (2 * j + 2))
      (fun l _ => (wrc_ok S cbhn cbwn i j k (2 * j + 2 + l) hi hj).1)
      (fun l _ g hg r c hT => by
        obtain ⟨e1, e2⟩ := hT
        rw [e1, e2]
        exact (wrc_ok S cbhn cbwn i j k (2 * j + 2 + l) hi hj).2 g hg)
      g hg (c - (2 * j + 2)) (by omega) k c ⟨rfl, by omega⟩
    exact this
  constructor
  · exact foldN_good S cbhn cbwn _ (nbhn - (2 * i + 2))
      (fun k _ => hinner (2 * i + 2 + k))
  · intro g hg r c hr1 hr2 hc1 hc2
    exact foldN_estabT S cbhn cbwn
      (fun k t => foldRangeAsc (2 * j + 2) nbwn
        (fun l g => wrc (2 * i + 2 + k) l i j g) t)
      (fun k r c => r = 2 * i + 2 + k ∧ 2 * j + 2 ≤ c ∧ c < nbwn)
      (nbhn - (2 * i + 2))
      (fun k _ => hinner (2 * i + 2 + k))
      (fun k _ g hg r c hT => by
        obtain ⟨e1, hc1, hc2⟩ := hT
        subst e1
        exact hinnerE (2 * i + 2 + k) g hg c hc1 hc2)
      g hg (r - (2 * i + 2)) (by omega) r c ⟨by omega, hc1, hc2⟩

theorem stage6_ok (S : Int) (cbhn cbwn nbhn nbwn i j : Nat)
    (hi : i < cbhn) (hj : j < cbwn) :
    Good S cbhn cbwn (fun g => foldRangeAsc (2 * i + 2) nbhn (fun k g =>
      wrc k (2 * j + 1) i j (wrc k (2 * j) i j g)) g) ∧
    (∀ g, GridInv S cbhn cbwn g → ∀ r c,
      2 * i + 2 ≤ r → r < nbhn → (c = 2 * j ∨ c = 2 * j + 1) →
      cellOk S (foldRangeAsc (2 * i + 2) nbhn (fun k g =>
        wrc k (2 * j + 1) i j (wrc k (2 * j) i j g)) g) r c) := by
  have hstep : ∀ k, Good S cbhn cbwn (fun g =>
      wrc k (2 * j + 1) i j (wrc k (2 * j) i j g)) := by
    intro k g hg
    obtain ⟨h1, h2⟩ := (wrc_ok S cbhn cbwn i j k (2 * j) hi hj).1 g hg
    obtain ⟨h3, h4⟩ := (wrc_ok S cbhn cbwn i j k (2 * j + 1) hi hj).1 _ h1
    exact ⟨h3, fun r c h => h4 r c (h2 r c h)⟩
  constructor
  · exact foldN_good S cbhn cbwn _ (nbhn - (2 * i + 2))
      (fun k _ => hstep (2 * i + 2 + k))
  · intro g hg r c hr1 hr2 hc
    exact foldN_estabT S cbhn cbwn
      (fun k t => wrc (2 * i + 2 + k) (2 * j + 1) i j
        (wrc (2 * i + 2 + k) (2 * j) i j t))
      (fun k r c => r = 2 * i + 2 + k ∧ (c = 2 * j ∨ c = 2 * j + 1))
      (nbhn - (2 * i + 2))
      (fun k _ => hstep (2 * i + 2 + k))
      (fun k _ g hg r c hT => by
        obtain ⟨e1, hcc⟩ := hT
        rw [e1]
        have hg1 := (wrc_ok S cbhn cbwn i j (2 * i + 2 + k) (2 * j) hi hj).1 g hg
        rcases hcc with e2 | e2
        · rw [e2]
          have hcell :=
            (wrc_ok S cbhn cbwn i j (2 * i + 2 + k) (2 * j) hi hj).2 g hg
          exact ((wrc_ok S cbhn cbwn i j (2 * i + 2 + k) (2 * j + 1)
            hi hj).1 _ hg1.1).2 (2 * i + 2 + k) (2 * j) hcell
        · rw [e2]
          exact (wrc_ok S cbhn cbwn i j (2 * i + 2 + k) (2 * j + 1)
            hi hj).2 _ hg1.1)
      g hg (r - (2 * i + 2)) (by omega) r c ⟨by omega, hc⟩

theorem stage7_ok (S : Int) (cbhn cbwn nbhn nbwn i j : Nat)
    (hi : i < cbhn) (hj : j < cbwn) :
    Good S cbhn cbwn (fun g => foldRangeAsc (2 * j + 2) nbwn (fun l g =>
      wrc (2 * i + 1) l i j (wrc (2 * i) l i j g)) g) ∧
    (∀ g, GridInv S cbhn cbwn g → ∀ r c,
      2 * j + 2 ≤ c → c < nbwn → (r = 2 * i ∨ r = 2 * i + 1) →
      cellOk S (foldRangeAsc (2 * j + 2) nbwn (fun l g =>
        wrc (2 * i + 1) l i j (wrc (2 * i) l i j g)) g) r c) := by
  have hstep : ∀ l, Good S cbhn cbwn (fun g =>
      wrc (2 * i + 1) l i j (wrc (2 * i) l i j g)) := by
    intro l g hg
    obtain ⟨h1, h2⟩ := (wrc_ok S cbhn cbwn i j (2 * i) l hi hj).1 g hg
    obtain ⟨h3, h4⟩ := (wrc_ok S cbhn cbwn i j (2 * i + 1) l hi hj).1 _ h1
    exact ⟨h3, fun r c h => h4 r c (h2 r c h)⟩
  constructor
  · exact foldN_good S cbhn cbwn _ (nbwn - (2 * j + 2))
      (fun l _ => hstep (2 * j + 2 + l))
  · intro g hg r c hc1 hc2 hr
    exact foldN_estabT S cbhn cbwn
      (fun l t => wrc (2 * i + 1) (2 * j + 2 + l) i j
        (wrc (2 * i) (2 * j + 2 + l) i j t))
      (fun l r c => c = 2 * j + 2 + l ∧ (r = 2 * i ∨ r = 2 * i + 1))
      (nbwn - (2 * j + 2))
      (fun l _ => hstep (2 * j + 2 + l))
      (fun l _ g hg r c hT => by
        obtain ⟨e1, hrr⟩ := hT
        rw [e1]
        have hg1 := (wrc_ok S cbhn cbwn i j (2 * i) (2 * j + 2 + l) hi hj).1 g hg
        rcases hrr with e2 | e2
        · rw [e2]
          have hcell :=
            (wrc_ok S cbhn cbwn i j (2 * i) (2 * j + 2 + l) hi hj).2 g hg
          exact ((wrc_ok S cbhn cbwn i j (2 * i + 1) (2 * j + 2 + l)
            hi hj).1 _ hg1.1).2 (2 * i) (2 * j + 2 + l) hcell
        · rw [e2]
          exact (wrc_ok S cbhn cbwn i j (2 * i + 1) (2 * j + 2 + l)
            hi hj).2 _ hg1.1)
      g hg (c - (2 * j + 2)) (by omega) r c ⟨by omega, hr⟩

set_option maxHeartbeats 1000000 in
theorem goDownCell_ok (S : Int) (cbhn cbwn nbhn nbwn i j : Nat)
    (hi : i < cbhn) (hj : j < cbwn) :
    ∀ g, GridInv S cbhn cbwn g →
      (GridInv S cbhn cbwn (goDownCell cbhn cbwn nbhn nbwn i j g) ∧
        ∀ r c, cellOk S g r c →
          cellOk S (goDownCell cbhn cbwn nbhn nbwn i j g) r c) ∧
      (∀ r c, rowChild cbhn nbhn i r → colChild cbwn nbwn j c →
        cellOk S (goDownCell cbhn cbwn nbhn nbwn i j g) r c) := by
  have w1 := wrc_ok S cbhn cbwn i j (2 * i) (2 * j) hi hj
  have w2 := wrc_ok S cbhn cbwn i j (2 * i + 1) (2 * j) hi hj
  have w3 := wrc_ok S cbhn cbwn i j (2 * i) (2 * j + 1) hi hj
  have w4 := wrc_ok S cbhn cbwn i j (2 * i + 1) (2 * j + 1) hi hj
  have s5 := stage5_ok S cbhn cbwn nbhn nbwn i j hi hj
  have s6 := stage6_ok S cbhn cbwn nbhn nbwn i j hi hj
  have s7 := stage7_ok S cbhn cbwn nbhn nbwn i j hi hj
  intro g hg
  obtain ⟨hg1, hm1⟩ := w1.1 g hg
  obtain ⟨hg2, hm2⟩ := w2.1 _ hg1
  obtain ⟨hg3, hm3⟩ := w3.1 _ hg2
  obtain ⟨hg4, hm4⟩ := w4.1 _ hg3
  have e1 := hm4 _ _ (hm3 _ _ (hm2 _ _ (w1.2 g hg)))
  have e2 := hm4 _ _ (hm3 _ _ (w2.2 _ hg1))
  have e3 := hm4 _ _ (w3.2 _ hg2)
  have e4 := w4.2 _ hg3
  unfold goDownCell
  dsimp only
  by_cases h6 : i = cbhn - 1
  · by_cases h7 : j = cbwn - 1
    · -- corner: stages 5, 6, 7 all fire
      rw [if_pos (show i = cbhn - 1 ∧ j = cbwn - 1 from ⟨h6, h7⟩), if_pos h6,
        if_pos h7]
      obtain ⟨hg5, hm5⟩ := s5.1 _ hg4
      obtain ⟨hg6, hm6⟩ := s6.1 _ hg5
      obtain ⟨hg7, hm7⟩ := s7.1 _ hg6
      refine ⟨⟨hg7, fun r c h =>
        hm7 r c (hm6 r c (hm5 r c (hm4 r c (hm3 r c (hm2 r c (hm1 r c h))))))⟩,
        ?_⟩
      intro r c hr hc
      rcases hr with hr | hr | ⟨-, hr1, hr2⟩
      · rcases hc with hc | hc | ⟨-, hc1, hc2⟩
        · subst hr; subst hc; exact hm7 _ _ (hm6 _ _ (hm5 _ _ e1))
        · subst hr; subst hc; exact hm7 _ _ (hm6 _ _ (hm5 _ _ e3))
        · subst hr
          exact s7.2 _ hg6 (2 * i) c hc1 hc2 (Or.inl rfl)
      · rcases hc with hc | hc | ⟨-, hc1, hc2⟩
        · subst hr; subst hc; exact hm7 _ _ (hm6 _ _ (hm5 _ _ e2))
        · subst hr; subst hc; exact hm7 _ _ (hm6 _ _ (hm5 _ _ e4))
        · subst hr
          exact s7.2 _ hg6 (2 * i + 1) c hc1 hc2 (Or.inr rfl)
      · rcases hc with hc | hc | ⟨-, hc1, hc2⟩
        · subst hc
          exact hm7 _ _ (s6.2 _ hg5 r (2 * j) hr1 hr2 (Or.inl rfl))
        · subst hc
          exact hm7 _ _ (s6.2 _ hg5 r (2 * j + 1) hr1 hr2 (Or.inr rfl))
        · exact hm7 _ _ (hm6 _ _ (s5.2 _ hg4 r c hr1 hr2 hc1 hc2))
    · -- last row only: stage 6 fires
      rw [if_neg (show ¬(i = cbhn - 1 ∧ j = cbwn - 1) from fun h => h7 h.2),
        if_pos h6, if_neg h7]
      obtain ⟨hg6, hm6⟩ := s6.1 _ hg4
      refine ⟨⟨hg6, fun r c h =>
        hm6 r c (hm4 r c (hm3 r c (hm2 r c (hm1 r c h))))⟩, ?_⟩
      intro r c hr hc
      rcases hc with hc | hc | ⟨hc0, -, -⟩
      · rcases hr with hr | hr | ⟨-, hr1, hr2⟩
        · subst hr; subst hc; exact hm6 _ _ e1
        · subst hr; subst hc; exact hm6 _ _ e2
        · subst hc
          exact s6.2 _ hg4 r (2 * j) hr1 hr2 (Or.inl rfl)
      · rcases hr with hr | hr | ⟨-, hr1, hr2⟩
        · subst hr; subst hc; exact hm6 _ _ e3
        · subst hr; subst hc; exact hm6 _ _ e4
        · subst hc
          exact s6.2 _ hg4 r (2 * j + 1) hr1 hr2 (Or.inr rfl)
      · exact absurd hc0 h7
  · by_cases h7 : j = cbwn - 1
    · -- last column only: stage 7 fires
      rw [if_neg (show ¬(i = cbhn - 1 ∧ j = cbwn - 1) from fun h => h6 h.1),
        if_neg h6, if_pos h7]
      obtain ⟨hg7, hm7⟩ := s7.1 _ hg4
      refine ⟨⟨hg7, fun r c h =>
        hm7 r c (hm4 r c (hm3 r c (hm2 r c (hm1 r c h))))⟩, ?_⟩
      intro r c hr hc
      rcases hr with hr | hr | ⟨hr0, -, -⟩
      · rcases hc with hc | hc | ⟨-, hc1, hc2⟩
        · subst hr; subst hc; exact hm7 _ _ e1
        · subst hr; subst hc; exact hm7 _ _ e3
        · subst hr
          exact s7.2 _ hg4 (2 * i) c hc1 hc2 (Or.inl rfl)
      · rcases hc with hc | hc | ⟨-, hc1, hc2⟩
        · subst hr; subst hc; exact hm7 _ _ e2
        · subst hr; subst hc; exact hm7 _ _ e4
        · subst hr
          exact s7.2 _ hg4 (2 * i + 1) c hc1 hc2 (Or.inr rfl)
      · exact absurd hr0 h6
    · -- no remainders
      rw [if_neg (show ¬(i = cbhn - 1 ∧ j = cbwn - 1) from fun h => h6 h.1),
        if_neg h6, if_neg h7]
      refine ⟨⟨hg4, fun r c h =>
        hm4 r c (hm3 r c (hm2 r c (hm1 r c h)))⟩, ?_⟩
      intro r c hr hc
      rcases hr with hr | hr | ⟨hr0, -, -⟩
      · rcases hc with hc | hc | ⟨hc0, -, -⟩
        · subst hr; subst hc; exact e1
        · subst hr; subst hc; exact e3
        · exact absurd hc0 h7
      · rcases hc with hc | hc | ⟨hc0, -, -⟩
        · subst hr; subst hc; exact e2
        · subst hr; subst hc; exact e4
        · exact absurd hc0 h7
      · exact absurd hr0 h6

theorem descent_ok (S : Int) (cbhn cbwn nbhn nbwn : Nat)
    (h1 : 1 ≤ cbhn) (h2 : 1 ≤ cbwn) (g : Nat → Nat → Int)
    (hg : GridInv S cbhn cbwn g) :
    GridInv S nbhn nbwn (foldDesc cbhn (fun i g =>
      foldDesc cbwn (fun j g => goDownCell cbhn cbwn nbhn nbwn i j g) g) g) := by
  have hinner_good : ∀ i, i < cbhn →
      Good S cbhn cbwn (foldDesc cbwn
        (fun j g => goDownCell cbhn cbwn nbhn nbwn i j g)) :=
    fun i hi => foldDesc_good S cbhn cbwn _ cbwn
      (fun j hj g hg => (goDownCell_ok S cbhn cbwn nbhn nbwn i j hi hj g hg).1)
  have hout : ∀ i, i < cbhn → ∀ g, GridInv S cbhn cbwn g →
      ∀ r c, rowChild cbhn nbhn i r → c < nbwn →
      cellOk S (foldDesc cbwn
        (fun j g => goDownCell cbhn cbwn nbhn nbwn i j g) g) r c := by
    intro i hi g hg r c hrow hc
    obtain ⟨j0, hj0, hcol⟩ := colChild_cover cbwn nbwn h2 c hc
    exact foldDesc_estabT S cbhn cbwn _
      (fun j r c => rowChild cbhn nbhn i r ∧ colChild cbwn nbwn j c) cbwn
      (fun j hj g hg => (goDownCell_ok S cbhn cbwn nbhn nbwn i j hi hj g hg).1)
      (fun j hj g hg r c hT =>
        (goDownCell_ok S cbhn cbwn nbhn nbwn i j hi hj g hg).2 r c hT.1 hT.2)
      g hg j0 hj0 r c ⟨hrow, hcol⟩
  intro r c hr hc
  obtain ⟨i0, hi0, hrow⟩ := rowChild_cover cbhn nbhn h1 r hr
  exact foldDesc_estabT S cbhn cbwn _
    (fun i r c => rowChild cbhn nbhn i r ∧ c < nbwn) cbhn hinner_good
    (fun i hi g hg r c hT => hout i hi g hg r c hT.1 hT.2)
    g hg i0 hi0 r c ⟨hrow, hc⟩

theorem stampRow_cover (cbhn height minBH : Nat) (h1 : 1 ≤ cbhn)
    (hbh : 1 ≤ minBH) (r : Nat) (hr : r < height) :
    ∃ i, i < cbhn ∧ minBH * i ≤ r ∧
      r < (if i = cbhn - 1 then height else minBH * i + minBH) := by
  obtain ⟨q, m, hq, hm⟩ : ∃ q m, minBH * q + m = r ∧ m < minBH :=
    ⟨r / minBH, r % minBH, Nat.div_add_mod r minBH,
      Nat.mod_lt r (by omega)⟩
  by_cases hcase : cbhn - 1 ≤ q
  · refine ⟨cbhn - 1, by omega, ?_, ?_⟩
    · calc minBH * (cbhn - 1) ≤ minBH * q := Nat.mul_le_mul_left _ hcase
        _ ≤ r := by rw [← hq]; exact Nat.le_add_right _ _
    · rw [if_pos rfl]; exact hr
  · refine ⟨q, by omega, ?_, ?_⟩
    · rw [← hq]; exact Nat.le_add_right _ _
    · rw [if_neg (show ¬ q = cbhn - 1 by omega), ← hq]
      exact Nat.add_lt_add_left hm _

theorem stampCol_cover (cbwn width minBW : Nat) (h1 : 1 ≤ cbwn)
    (hbw : 1 ≤ minBW) (c : Nat) (hc : c < width) :
    ∃ j, j < cbwn ∧ minBW * j ≤ c ∧
      c < (if j = cbwn - 1 then width else minBW * j + minBW) := by
  obtain ⟨q, m, hq, hm⟩ : ∃ q m, minBW * q + m = c ∧ m < minBW :=
    ⟨c / minBW, c % minBW, Nat.div_add_mod c minBW,
      Nat.mod_lt c (by omega)⟩
  by_cases hcase : cbwn - 1 ≤ q
  · refine ⟨cbwn - 1, by omega, ?_, ?_⟩
    · calc minBW * (cbwn - 1) ≤ minBW * q := Nat.mul_le_mul_left _ hcase
        _ ≤ c := by rw [← hq]; exact Nat.le_add_right _ _
    · rw [if_pos rfl]; exact hc
  · refine ⟨q, by omega, ?_, ?_⟩
    · rw [← hq]; exact Nat.le_add_right _ _
    · rw [if_neg (show ¬ q = cbwn - 1 by omega), ← hq]
      exact Nat.add_lt_add_left hm _

theorem stamp_ok (S : Int) (cbhn cbwn height width minBH minBW : Nat)
    (h1 : 1 ≤ cbhn) (h2 : 1 ≤ cbwn) (hbh : 1 ≤ minBH) (hbw : 1 ≤ minBW)
    (g0 : Nat → Nat → Int) (hg : GridInv S cbhn cbwn g0) :
    GridInv S height width (foldN cbhn (fun i g =>
      foldN cbwn (fun j g =>
        foldRangeAsc (minBH * i)
          (if i = cbhn - 1 then height else minBH * i + minBH) (fun k g =>
          foldRangeAsc (minBW * j)
            (if j = cbwn - 1 then width else minBW * j + minBW) (fun l g =>
            upd2 g k l (g0 i j)) g) g) g) g0) := by
  have hval : ∀ i j, i < cbhn → j < cbwn → 0 ≤ g0 i j ∧ g0 i j < S :=
    fun i j hi hj => hg i j hi hj
  have hstep : ∀ i j, i < cbhn → j < cbwn → ∀ k l,
      Good S cbhn cbwn (fun g => upd2 g k l (g0 i j)) := by
    intro i j hi hj k l g hgg
    have h := updOk S cbhn cbwn k l g (g0 i j) (hval i j hi hj) hgg
    exact ⟨h.1, h.2.1⟩
  have hinner2 : ∀ i j, i < cbhn → j < cbwn → ∀ k,
      Good S cbhn cbwn (fun g => foldRangeAsc (minBW * j)
        (if j = cbwn - 1 then width else minBW * j + minBW)
        (fun l g => upd2 g k l (g0 i j)) g) :=
    fun i j hi hj k => foldN_good S cbhn cbwn _ _
      (fun l _ => hstep i j hi hj k (minBW * j + l))
  have hinner2E : ∀ i j, i < cbhn → j < cbwn → ∀ k g, GridInv S cbhn cbwn g →
      ∀ c, minBW * j ≤ c →
      c < (if j = cbwn - 1 then width else minBW * j + minBW) →
      cellOk S (foldRangeAsc (minBW * j)
        (if j = cbwn - 1 then width else minBW * j + minBW)
        (fun l g => upd2 g k l (g0 i j)) g) k c := by
    intro i j hi hj k g hgg c hc1 hc2
    exact foldN_estabT S cbhn cbwn
      (fun l t => upd2 t k (minBW * j + l) (g0 i j))
      (fun l r c => r = k ∧ c = minBW * j + l) _
      (fun l _ => hstep i j hi hj k (minBW * j + l))
      (fun l _ g hgg r c hT => by
        obtain ⟨e1, e2⟩ := hT
        rw [e1, e2]
        exact (updOk S cbhn cbwn k (minBW * j + l) g (g0 i j)
          (hval i j hi hj) hgg).2.2)
      g hgg (c - minBW * j) (by omega) k c ⟨rfl, by omega⟩
  have hinner1 : ∀ i j, i < cbhn → j < cbwn →
      Good S cbhn cbwn (fun g => foldRangeAsc (minBH * i)
        (if i = cbhn - 1 then height else minBH * i + minBH) (fun k g =>
        foldRangeAsc (minBW * j)
          (if j = cbwn - 1 then width else minBW * j + minBW) (fun l g =>
          upd2 g k l (g0 i j)) g) g) :=
    fun i j hi hj => foldN_good S cbhn cbwn _ _
      (fun k _ => hinner2 i j hi hj (minBH * i + k))
  have hinner1E : ∀ i j, i < cbhn → j < cbwn → ∀ g, GridInv S cbhn cbwn g →
      ∀ r c, minBH * i ≤ r →
      r < (if i = cbhn - 1 then height else minBH * i + minBH) →
      minBW * j ≤ c →
      c < (if j = cbwn - 1 then width else minBW * j + minBW) →
      cellOk S (foldRangeAsc (minBH * i)
        (if i = cbhn - 1 then height else minBH * i + minBH) (fun k g =>
        foldRangeAsc (minBW * j)
          (if j = cbwn - 1 then width else minBW * j + minBW) (fun l g =>
          upd2 g k l (g0 i j)) g) g) r c := by
    intro i j hi hj g hgg r c hr1 hr2 hc1 hc2
    exact foldN_estabT S cbhn cbwn
      (fun k t => foldRangeAsc (minBW * j)
        (if j = cbwn - 1 then width else minBW * j + minBW)
        (fun l g => upd2 g (minBH * i + k) l (g0 i j)) t)
      (fun k r c => r = minBH * i + k ∧ minBW * j ≤ c ∧
        c < (if j = cbwn - 1 then width else minBW * j + minBW)) _
      (fun k _ => hinner2 i j hi hj (minBH * i + k))
      (fun k _ g hgg r c hT => by
        obtain ⟨e1, hcc1, hcc2⟩ := hT
        rw [e1]
        exact hinner2E i j hi hj (minBH * i + k) g hgg c hcc1 hcc2)
      g hgg (r - minBH * i) (by omega) r c ⟨by omega, hc1, hc2⟩
  have hjfold : ∀ i, i < cbhn →
      Good S cbhn cbwn (foldN cbwn (fun j g =>
        foldRangeAsc (minBH * i)
          (if i = cbhn - 1 then height else minBH * i + minBH) (fun k g =>
          foldRangeAsc (minBW * j)
            (if j = cbwn - 1 then width else minBW * j + minBW) (fun l g =>
            upd2 g k l (g0 i j)) g) g)) :=
    fun i hi => foldN_good S cbhn cbwn _ cbwn
      (fun j hj => hinner1 i j hi hj)
  have hjfoldE : ∀ i, i < cbhn → ∀ g, GridInv S cbhn cbwn g →
      ∀ r c, minBH * i ≤ r →
      r < (if i = cbhn - 1 then height else minBH * i + minBH) → c < width →
      cellOk S (foldN cbwn (fun j g =>
        foldRangeAsc (minBH * i)
          (if i = cbhn - 1 then height else minBH * i + minBH) (fun k g =>
          foldRangeAsc (minBW * j)
            (if j = cbwn - 1 then width else minBW * j + minBW) (fun l g =>
            upd2 g k l (g0 i j)) g) g) g) r c := by
    intro i hi g hgg r c hr1 hr2 hc
    obtain ⟨j0, hj0, hcv1, hcv2⟩ := stampCol_cover cbwn width minBW h2 hbw c hc
    exact foldN_estabT S cbhn cbwn _
      (fun j r c => minBH * i ≤ r ∧
        r < (if i = cbhn - 1 then height else minBH * i + minBH) ∧
        minBW * j ≤ c ∧
        c < (if j = cbwn - 1 then width else minBW * j + minBW)) cbwn
      (fun j hj => hinner1 i j hi hj)
      (fun j hj g hgg r c hT =>
        hinner1E i j hi hj g hgg r c hT.1 hT.2.1 hT.2.2.1 hT.2.2.2)
      g hgg j0 hj0 r c ⟨hr1, hr2, hcv1, hcv2⟩
  intro r c hr hc
  obtain ⟨i0, hi0, hrv1, hrv2⟩ := stampRow_cover cbhn height minBH h1 hbh r hr
  exact foldN_estabT S cbhn cbwn _
    (fun i r c => minBH * i ≤ r ∧
      r < (if i = cbhn - 1 then height else minBH * i + minBH) ∧ c < width)
    cbhn (fun i hi => hjfold i hi)
    (fun i hi g hgg r c hT => hjfoldE i hi g hgg r c hT.1 hT.2.1 hT.2.2)
    g0 hg i0 hi0 r c ⟨hrv1, hrv2, hc⟩

/-- The labels of the current grid all lie in `[0, superpixels)`. -/
def StateLabelsOk (s : State) : Prop :=
  GridInv ((s.superpixelHeightNumber * s.superpixelWidthNumber : Nat) : Int)
    s.currentBlockHeightNumber s.currentBlockWidthNumber s.currentLabels

/-- The fields of the state that the sweeps and descents never change. -/
def BaseFrames (s t : State) : Prop :=
  t.superpixelHeightNumber = s.superpixelHeightNumber ∧
  t.superpixelWidthNumber = s.superpixelWidthNumber ∧
  t.height = s.height ∧ t.width = s.width ∧
  t.minimumBlockHeight = s.minimumBlockHeight ∧
  t.minimumBlockWidth = s.minimumBlockWidth ∧
  t.numberOfLevels = s.numberOfLevels

theorem baseFrames_trans {a b c : State} (h1 : BaseFrames a b)
    (h2 : BaseFrames b c) : BaseFrames a c :=
  ⟨h2.1.trans h1.1, h2.2.1.trans h1.2.1, h2.2.2.1.trans h1.2.2.1,
    h2.2.2.2.1.trans h1.2.2.2.1, h2.2.2.2.2.1.trans h1.2.2.2.2.1,
    h2.2.2.2.2.2.1.trans h1.2.2.2.2.2.1, h2.2.2.2.2.2.2.trans h1.2.2.2.2.2.2⟩

theorem goDownOneLevel_ok (s : State) (hok : StateLabelsOk s)
    (h1 : 1 ≤ s.currentBlockHeightNumber)
    (h2 : 1 ≤ s.currentBlockWidthNumber)
    (hbh : 1 ≤ s.minimumBlockHeight) (hbw : 1 ≤ s.minimumBlockWidth) :
    StateLabelsOk (goDownOneLevel s) ∧ BaseFrames s (goDownOneLevel s) ∧
    (goDownOneLevel s).currentLevel = s.currentLevel - 1 ∧
    (goDownOneLevel s).currentBlockHeightNumber =
      (if 0 < s.currentLevel - 1
        then getBlockHeightNumber s (s.currentLevel - 1) else s.height) ∧
    (goDownOneLevel s).currentBlockWidthNumber =
      (if 0 < s.currentLevel - 1
        then getBlockWidthNumber s (s.currentLevel - 1) else s.width) := by
  unfold goDownOneLevel
  dsimp only
  by_cases h : 0 < s.currentLevel - 1
  · rw [if_pos h, if_pos h, if_pos h]
    refine ⟨?_, ⟨rfl, rfl, rfl, rfl, rfl, rfl, rfl⟩, rfl, rfl, rfl⟩
    exact descent_ok _ s.currentBlockHeightNumber s.currentBlockWidthNumber
      _ _ h1 h2 s.currentLabels hok
  · rw [if_neg h, if_neg h, if_neg h]
    refine ⟨?_, ⟨rfl, rfl, rfl, rfl, rfl, rfl, rfl⟩, rfl, rfl, rfl⟩
    exact stamp_ok _ s.currentBlockHeightNumber s.currentBlockWidthNumber
      s.height s.width s.minimumBlockHeight s.minimumBlockWidth
      h1 h2 hbh hbw s.currentLabels hok

/-- Cells a block update may copy a label from: the block itself and its four
clamped neighbors. -/
def blockTargets (s : State) (i j : Nat) : List (Nat × Nat) :=
  [(i, j), (min (i + 1) (s.currentBlockHeightNumber - 1), j), (i - 1, j),
    (i, min (j + 1) (s.currentBlockWidthNumber - 1)), (i, j - 1)]

theorem blockTargets_lt (s : State) (i j : Nat)
    (hi : i < s.currentBlockHeightNumber)
    (hj : j < s.currentBlockWidthNumber) :
    ∀ p ∈ blockTargets s i j,
      p.1 < s.currentBlockHeightNumber ∧ p.2 < s.currentBlockWidthNumber := by
  intro p hp
  simp only [blockTargets, List.mem_cons, List.mem_singleton,
    List.not_mem_nil, or_false] at hp
  rcases hp with h | h | h | h | h <;> subst h <;>
    exact ⟨by simp; omega, by simp; omega⟩

theorem blockUpdateStep_target (T : Nat → Nat → Prop) (s : State) (i j : Nat)
    (cur : ℚ) (lN lF : Int) (chk : Bool) (iTo jTo : Nat) (b : BestMove)
    (hb : T b.iBest b.jBest) (ht : T iTo jTo) :
    T (blockUpdateStep s i j cur lN lF chk iTo jTo b).iBest
      (blockUpdateStep s i j cur lN lF chk iTo jTo b).jBest := by
  unfold blockUpdateStep
  dsimp only
  split_ifs <;> first | exact hb | exact ht

theorem performBlockUpdate_labels (s : State) (i j : Nat) :
    (performBlockUpdate s i j).currentLabels = s.currentLabels ∨
    ∃ p ∈ blockTargets s i j,
      (performBlockUpdate s i j).currentLabels
        = upd2 s.currentLabels i j (s.currentLabels p.1 p.2) := by
  unfold performBlockUpdate
  split
  · dsimp only
    split
    · split
      · split
        · right
          refine ⟨(_, _), ?_, rfl⟩
          apply blockUpdateStep_target (fun a b => (a, b) ∈ blockTargets s i j)
          · apply blockUpdateStep_target
              (fun a b => (a, b) ∈ blockTargets s i j)
            · apply blockUpdateStep_target
                (fun a b => (a, b) ∈ blockTargets s i j)
              · apply blockUpdateStep_target
                  (fun a b => (a, b) ∈ blockTargets s i j)
                · simp [blockTargets]
                · simp [blockTargets]
              · simp [blockTargets]
            · simp [blockTargets]
          · simp [blockTargets]
        · left; rfl
      · left; rfl
    · left; rfl
  · left; rfl

theorem performBlockUpdate_frame (s : State) (i j : Nat) :
    BaseFrames s (performBlockUpdate s i j) ∧
    (performBlockUpdate s i j).currentLevel = s.currentLevel ∧
    (performBlockUpdate s i j).currentBlockHeightNumber
      = s.currentBlockHeightNumber ∧
    (performBlockUpdate s i j).currentBlockWidthNumber
      = s.currentBlockWidthNumber := by
  unfold performBlockUpdate
  dsimp only
  split_ifs <;>
    exact ⟨⟨rfl, rfl, rfl, rfl, rfl, rfl, rfl⟩, rfl, rfl, rfl⟩

/-- The invariant carried through a block sweep: labels in range plus all the
geometry frames of the sweep entry state. -/
def SweepInv (s0 t : State) : Prop :=
  StateLabelsOk t ∧ BaseFrames s0 t ∧ t.currentLevel = s0.currentLevel ∧
  t.currentBlockHeightNumber = s0.currentBlockHeightNumber ∧
  t.currentBlockWidthNumber = s0.currentBlockWidthNumber

theorem foldN_presG {α : Type} (P : α → Prop) (f : Nat → α → α) :
    ∀ n, (∀ k, k < n → ∀ x, P x → P (f k x)) → ∀ x, P x → P (foldN n f x) := by
  intro n
  induction n with
  | zero => intro _ x hx; exact hx
  | succ m ih =>
    intro hf x hx
    exact hf m (by omega) _ (ih (fun k hk => hf k (by omega)) x hx)

theorem performBlockUpdate_sweepInv (s0 t : State) (i j : Nat)
    (h : SweepInv s0 t) (hi : i < s0.currentBlockHeightNumber)
    (hj : j < s0.currentBlockWidthNumber) :
    SweepInv s0 (performBlockUpdate t i j) := by
  obtain ⟨hok, hbf, hlvl, hcb, hcw⟩ := h
  have hi2 : i < t.currentBlockHeightNumber := by rw [hcb]; exact hi
  have hj2 : j < t.currentBlockWidthNumber := by rw [hcw]; exact hj
  obtain ⟨hbf2, hlvl2, hcb2, hcw2⟩ := performBlockUpdate_frame t i j
  refine ⟨?_, baseFrames_trans hbf hbf2, hlvl2.trans hlvl,
    hcb2.trans hcb, hcw2.trans hcw⟩
  intro r c hr hc
  rw [hcb2] at hr
  rw [hcw2] at hc
  rcases performBlockUpdate_labels t i j with hL | ⟨p, hp, hL⟩
  · show cellOk _ (performBlockUpdate t i j).currentLabels r c
    rw [hL, hbf2.1, hbf2.2.1]
    exact hok r c hr hc
  · show cellOk _ (performBlockUpdate t i j).currentLabels r c
    rw [hL, hbf2.1, hbf2.2.1]
    have hp2 := blockTargets_lt t i j hi2 hj2 p hp
    have hval := hok p.1 p.2 hp2.1 hp2.2
    unfold cellOk upd2
    by_cases hrc : r = i ∧ c = j
    · rw [if_pos hrc]
      exact hval
    · rw [if_neg hrc]
      exact hok r c hr hc

theorem blockSweeps_ok (s : State) (iterations : Nat)
    (hok : StateLabelsOk s) : SweepInv s (blockSweeps s iterations) := by
  have hstart : SweepInv s s :=
    ⟨hok, ⟨rfl, rfl, rfl, rfl, rfl, rfl, rfl⟩, rfl, rfl, rfl⟩
  unfold blockSweeps
  refine foldN_presG (SweepInv s) _ iterations (fun it _ t ht => ?_) s hstart
  refine foldN_presG (SweepInv s) _ s.currentBlockHeightNumber
    (fun i hi t ht => ?_) t ht
  refine foldN_presG (SweepInv s) _ s.currentBlockWidthNumber
    (fun j hj t ht => ?_) t ht
  exact performBlockUpdate_sweepInv s t i j ht hi hj

/-- Cells a pixel update may copy a label from: the pixel itself and its four
clamped neighbors. -/
def pixelTargets (s : State) (i j : Nat) : List (Nat × Nat) :=
  [(i, j), (min (i + 1) (s.height - 1), j), (i - 1, j),
    (i, min (j + 1) (s.width - 1)), (i, j - 1)]

theorem pixelTargets_lt (s : State) (i j : Nat) (hi : i < s.height)
    (hj : j < s.width) :
    ∀ p ∈ pixelTargets s i j, p.1 < s.height ∧ p.2 < s.width := by
  intro p hp
  simp only [pixelTargets, List.mem_cons, List.mem_singleton,
    List.not_mem_nil, or_false] at hp
  rcases hp with h | h | h | h | h <;> subst h <;>
    exact ⟨by simp; omega, by simp; omega⟩

theorem pixelUpdateStep_target (T : Nat → Nat → Prop) (s : State) (i j : Nat)
    (cur : ℚ) (lN lF : Int) (chk : Bool) (iTo jTo : Nat) (b : BestMove)
    (hb : T b.iBest b.jBest) (ht : T iTo jTo) :
    T (pixelUpdateStep s i j cur lN lF chk iTo jTo b).iBest
      (pixelUpdateStep s i j cur lN lF chk iTo jTo b).jBest := by
  unfold pixelUpdateStep
  dsimp only
  split_ifs <;> first | exact hb | exact ht

theorem performPixelUpdate_labels (s : State) (i j : Nat) :
    (performPixelUpdate s i j).currentLabels = s.currentLabels ∨
    ∃ p ∈ pixelTargets s i j,
      (performPixelUpdate s i j).currentLabels
        = upd2 s.currentLabels i j (s.currentLabels p.1 p.2) := by
  unfold performPixelUpdate
  split
  · dsimp only
    split
    · split
      · split
        · right
          refine ⟨(_, _), ?_, rfl⟩
          apply pixelUpdateStep_target (fun a b => (a, b) ∈ pixelTargets s i j)
          · apply pixelUpdateStep_target
              (fun a b => (a, b) ∈ pixelTargets s i j)
            · apply pixelUpdateStep_target
                (fun a b => (a, b) ∈ pixelTargets s i j)
              · apply pixelUpdateStep_target
                  (fun a b => (a, b) ∈ pixelTargets s i j)
                · simp [pixelTargets]
                · simp [pixelTargets]
              · simp [pixelTargets]
            · simp [pixelTargets]
          · simp [pixelTargets]
        · left; rfl
      · left; rfl
    · left; rfl
  · left; rfl

theorem performPixelUpdate_frame (s : State) (i j : Nat) :
    BaseFrames s (performPixelUpdate s i j) ∧
    (performPixelUpdate s i j).currentLevel = s.currentLevel ∧
    (performPixelUpdate s i j).currentBlockHeightNumber
      = s.currentBlockHeightNumber ∧
    (performPixelUpdate s i j).currentBlockWidthNumber
      = s.currentBlockWidthNumber := by
  unfold performPixelUpdate
  dsimp only
  split_ifs <;>
    exact ⟨⟨rfl, rfl, rfl, rfl, rfl, rfl, rfl⟩, rfl, rfl, rfl⟩

theorem performPixelUpdate_sweepInv (s0 t : State) (i j : Nat)
    (h : SweepInv s0 t) (hdim1 : s0.currentBlockHeightNumber = s0.height)
    (hdim2 : s0.currentBlockWidthNumber = s0.width)
    (hi : i < s0.height) (hj : j < s0.width) :
    SweepInv s0 (performPixelUpdate t i j) := by
  obtain ⟨hok, hbf, hlvl, hcb, hcw⟩ := h
  have hi2 : i < t.height := by rw [hbf.2.2.1]; exact hi
  have hj2 : j < t.width := by rw [hbf.2.2.2.1]; exact hj
  have hicb : i < t.currentBlockHeightNumber := by
    rw [hcb, hdim1]; exact hi
  have hjcw : j < t.currentBlockWidthNumber := by
    rw [hcw, hdim2]; exact hj
  have hcbh : t.currentBlockHeightNumber = t.height := by
    rw [hcb, hdim1, hbf.2.2.1]
  have hcww : t.currentBlockWidthNumber = t.width := by
    rw [hcw, hdim2, hbf.2.2.2.1]
  obtain ⟨hbf2, hlvl2, hcb2, hcw2⟩ := performPixelUpdate_frame t i j
  refine ⟨?_, baseFrames_trans hbf hbf2, hlvl2.trans hlvl,
    hcb2.trans hcb, hcw2.trans hcw⟩
  intro r c hr hc
  rw [hcb2] at hr
  rw [hcw2] at hc
  rcases performPixelUpdate_labels t i j with hL | ⟨p, hp, hL⟩
  · show cellOk _ (performPixelUpdate t i j).currentLabels r c
    rw [hL, hbf2.1, hbf2.2.1]
    exact hok r c hr hc
  · show cellOk _ (performPixelUpdate t i j).currentLabels r c
    rw [hL, hbf2.1, hbf2.2.1]
    have hp2 := pixelTargets_lt t i j hi2 hj2 p hp
    have hval := hok p.1 p.2 (by rw [hcbh]; exact hp2.1)
      (by rw [hcww]; exact hp2.2)
    unfold cellOk upd2
    by_cases hrc : r = i ∧ c = j
    · rw [if_pos hrc]
      exact hval
    · rw [if_neg hrc]
      exact hok r c hr hc

/-- The geometry precondition of the pipeline: positive block sizes and at
least one level, with the coarsest block fitting inside the image. -/
def ValidGeometry (s : State) : Prop :=
  1 ≤ s.minimumBlockHeight ∧ 1 ≤ s.minimumBlockWidth ∧ 1 ≤ s.numberOfLevels ∧
  s.minimumBlockHeight * 2 ^ (s.numberOfLevels - 1) ≤ s.height ∧
  s.minimumBlockWidth * 2 ^ (s.numberOfLevels - 1) ≤ s.width

theorem bhn_pos (s : State) (hg : ValidGeometry s) (lvl : Nat)
    (h2 : lvl ≤ s.numberOfLevels) : 1 ≤ getBlockHeightNumber s lvl := by
  unfold getBlockHeightNumber getBlockHeight
  have hdiv : s.minimumBlockHeight * 2 ^ (lvl - 1) ≤ s.height := by
    refine le_trans ?_ hg.2.2.2.1
    exact Nat.mul_le_mul_left _ (Nat.pow_le_pow_right (by omega) (by omega))
  have hpos : 0 < s.minimumBlockHeight * 2 ^ (lvl - 1) :=
    Nat.mul_pos hg.1 (Nat.pow_pos (by omega))
  exact Nat.div_pos hdiv hpos

theorem bwn_pos (s : State) (hg : ValidGeometry s) (lvl : Nat)
    (h2 : lvl ≤ s.numberOfLevels) : 1 ≤ getBlockWidthNumber s lvl := by
  unfold getBlockWidthNumber getBlockWidth
  have hdiv : s.minimumBlockWidth * 2 ^ (lvl - 1) ≤ s.width := by
    refine le_trans ?_ hg.2.2.2.2
    exact Nat.mul_le_mul_left _ (Nat.pow_le_pow_right (by omega) (by omega))
  have hpos : 0 < s.minimumBlockWidth * 2 ^ (lvl - 1) :=
    Nat.mul_pos hg.2.1 (Nat.pow_pos (by omega))
  exact Nat.div_pos hdiv hpos

theorem validGeometry_frames {a b : State} (h : BaseFrames a b)
    (hg : ValidGeometry a) : ValidGeometry b := by
  obtain ⟨e1, e2, e3, e4, e5, e6, e7⟩ := h
  exact ⟨by rw [e5]; exact hg.1, by rw [e6]; exact hg.2.1,
    by rw [e7]; exact hg.2.2.1,
    by rw [e5, e7, e3]; exact hg.2.2.2.1,
    by rw [e6, e7, e4]; exact hg.2.2.2.2⟩

theorem bhn_frames {a b : State} (h : BaseFrames a b) (lvl : Nat) :
    getBlockHeightNumber b lvl = getBlockHeightNumber a lvl := by
  unfold getBlockHeightNumber getBlockHeight
  rw [h.2.2.1, h.2.2.2.2.1]

theorem bwn_frames {a b : State} (h : BaseFrames a b) (lvl : Nat) :
    getBlockWidthNumber b lvl = getBlockWidthNumber a lvl := by
  unfold getBlockWidthNumber getBlockWidth
  rw [h.2.2.2.1, h.2.2.2.2.2.1]

/-- The invariant of the level loop of iterate: valid geometry, labels in
range, and the block counters tracking the current level (image dimensions at
level zero). -/
def IterInv (s : State) : Prop :=
  ValidGeometry s ∧ StateLabelsOk s ∧ s.currentLevel ≤ s.numberOfLevels ∧
  ((0 < s.currentLevel ∧
      s.currentBlockHeightNumber = getBlockHeightNumber s s.currentLevel ∧
      s.currentBlockWidthNumber = getBlockWidthNumber s s.currentLevel) ∨
    (s.currentLevel = 0 ∧ s.currentBlockHeightNumber = s.height ∧
      s.currentBlockWidthNumber = s.width))

theorem iterPass_ok (s : State) (iterations : Nat) (hinv : IterInv s)
    (hpos : 0 < s.currentLevel) :
    IterInv (goDownOneLevel (blockSweeps (reinitSpatialMemory s) iterations)) ∧
    (goDownOneLevel (blockSweeps (reinitSpatialMemory s)
      iterations)).currentLevel = s.currentLevel - 1 ∧
    BaseFrames s (goDownOneLevel (blockSweeps (reinitSpatialMemory s)
      iterations)) := by
  obtain ⟨hgeom, hok, hle, hdims⟩ := hinv
  have hdims2 : s.currentBlockHeightNumber
        = getBlockHeightNumber s s.currentLevel ∧
      s.currentBlockWidthNumber = getBlockWidthNumber s s.currentLevel := by
    rcases hdims with ⟨-, ha, hb⟩ | ⟨h0, -, -⟩
    · exact ⟨ha, hb⟩
    · omega
  have h1 : 1 ≤ s.currentBlockHeightNumber := by
    rw [hdims2.1]; exact bhn_pos s hgeom s.currentLevel hle
  have h2 : 1 ≤ s.currentBlockWidthNumber := by
    rw [hdims2.2]; exact bwn_pos s hgeom s.currentLevel hle
  obtain ⟨hokT, hbfT, hlvlT, hcbT, hcwT⟩ :=
    blockSweeps_ok (reinitSpatialMemory s) iterations hok
  have hbfTs : BaseFrames s (blockSweeps (reinitSpatialMemory s) iterations) :=
    hbfT
  have hlvlTs : (blockSweeps (reinitSpatialMemory s) iterations).currentLevel
      = s.currentLevel := hlvlT
  have hcbTs : (blockSweeps (reinitSpatialMemory s)
      iterations).currentBlockHeightNumber = s.currentBlockHeightNumber := hcbT
  have hcwTs : (blockSweeps (reinitSpatialMemory s)
      iterations).currentBlockWidthNumber = s.currentBlockWidthNumber := hcwT
  have h1T : 1 ≤ (blockSweeps (reinitSpatialMemory s)
      iterations).currentBlockHeightNumber := by rw [hcbTs]; exact h1
  have h2T : 1 ≤ (blockSweeps (reinitSpatialMemory s)
      iterations).currentBlockWidthNumber := by rw [hcwTs]; exact h2
  have hbhT : 1 ≤ (blockSweeps (reinitSpatialMemory s)
      iterations).minimumBlockHeight := by
    rw [hbfTs.2.2.2.2.1]; exact hgeom.1
  have hbwT : 1 ≤ (blockSweeps (reinitSpatialMemory s)
      iterations).minimumBlockWidth := by
    rw [hbfTs.2.2.2.2.2.1]; exact hgeom.2.1
  obtain ⟨hokG, hbfG, hlvlG, hcbG, hcwG⟩ :=
    goDownOneLevel_ok (blockSweeps (reinitSpatialMemory s) iterations)
      hokT h1T h2T hbhT hbwT
  have hbfSG := baseFrames_trans hbfTs hbfG
  have hlvlSG : (goDownOneLevel (blockSweeps (reinitSpatialMemory s)
      iterations)).currentLevel = s.currentLevel - 1 := by
    rw [hlvlG, hlvlTs]
  refine ⟨⟨validGeometry_frames hbfSG hgeom, hokG, ?_, ?_⟩, hlvlSG, hbfSG⟩
  · rw [hlvlSG, hbfSG.2.2.2.2.2.2]
    omega
  · by_cases hll : 0 < s.currentLevel - 1
    · left
      refine ⟨by rw [hlvlSG]; exact hll, ?_, ?_⟩
      · have he : getBlockHeightNumber (goDownOneLevel (blockSweeps
            (reinitSpatialMemory s) iterations)) ((goDownOneLevel (blockSweeps
            (reinitSpatialMemory s) iterations)).currentLevel)
            = getBlockHeightNumber s (s.currentLevel - 1) := by
          rw [bhn_frames hbfSG, hlvlSG]
        rw [he, hcbG, hlvlTs, if_pos hll, bhn_frames hbfTs]
      · have he : getBlockWidthNumber (goDownOneLevel (blockSweeps
            (reinitSpatialMemory s) iterations)) ((goDownOneLevel (blockSweeps
            (reinitSpatialMemory s) iterations)).currentLevel)
            = getBlockWidthNumber s (s.currentLevel - 1) := by
          rw [bwn_frames hbfSG, hlvlSG]
        rw [he, hcwG, hlvlTs, if_pos hll, bwn_frames hbfTs]
    · right
      refine ⟨by rw [hlvlSG]; omega, ?_, ?_⟩
      · rw [hcbG, hlvlTs, if_neg hll, hbfTs.2.2.1, hbfSG.2.2.1]
      · rw [hcwG, hlvlTs, if_neg hll, hbfTs.2.2.2.1, hbfSG.2.2.2.1]

theorem iterLevels_ok (iterations : Nat) :
    ∀ fuel s, IterInv s → s.currentLevel = fuel →
      IterInv (iterLevels iterations fuel s) ∧
      (iterLevels iterations fuel s).currentLevel = 0 ∧
      BaseFrames s (iterLevels iterations fuel s) := by
  intro fuel
  induction fuel with
  | zero =>
    intro s hinv hf
    exact ⟨hinv, hf, ⟨rfl, rfl, rfl, rfl, rfl, rfl, rfl⟩⟩
  | succ m ih =>
    intro s hinv hf
    have hpos : 0 < s.currentLevel := by omega
    have hstep : iterLevels iterations (m + 1) s = iterLevels iterations m
        (goDownOneLevel (blockSweeps (reinitSpatialMemory s) iterations)) := by
      simp only [iterLevels]
      rw [if_pos hpos]
    obtain ⟨hinvP, hlvlP, hbfP⟩ := iterPass_ok s iterations hinv hpos
    obtain ⟨hinvR, hlvlR, hbfR⟩ := ih
      (goDownOneLevel (blockSweeps (reinitSpatialMemory s) iterations))
      hinvP (by omega)
    rw [hstep]
    exact ⟨hinvR, hlvlR, baseFrames_trans hbfP hbfR⟩

theorem iterate_ok (s : State) (n : Nat) (hinv : IterInv s) :
    StateLabelsOk (iterate s n) ∧ BaseFrames s (iterate s n) ∧
    (iterate s n).currentBlockHeightNumber = s.height ∧
    (iterate s n).currentBlockWidthNumber = s.width ∧
    (iterate s n).currentLevel = 0 := by
  obtain ⟨hinvL, hlvlL, hbfL⟩ := iterLevels_ok n s.currentLevel s hinv rfl
  obtain ⟨hgeomL, hokL, hleL, hdimsL⟩ := hinvL
  have hdims0 : (iterLevels n s.currentLevel s).currentBlockHeightNumber
        = (iterLevels n s.currentLevel s).height ∧
      (iterLevels n s.currentLevel s).currentBlockWidthNumber
        = (iterLevels n s.currentLevel s).width := by
    rcases hdimsL with ⟨hp, -, -⟩ | ⟨-, ha, hb⟩
    · omega
    · exact ⟨ha, hb⟩
  have hok2 : StateLabelsOk
      (reinitSpatialMemory (iterLevels n s.currentLevel s)) := hokL
  have hstart : SweepInv (reinitSpatialMemory (iterLevels n s.currentLevel s))
      (reinitSpatialMemory (iterLevels n s.currentLevel s)) :=
    ⟨hok2, ⟨rfl, rfl, rfl, rfl, rfl, rfl, rfl⟩, rfl, rfl, rfl⟩
  have hdim1 : (reinitSpatialMemory (iterLevels n
        s.currentLevel s)).currentBlockHeightNumber
      = (reinitSpatialMemory (iterLevels n s.currentLevel s)).height :=
    hdims0.1
  have hdim2 : (reinitSpatialMemory (iterLevels n
        s.currentLevel s)).currentBlockWidthNumber
      = (reinitSpatialMemory (iterLevels n s.currentLevel s)).width :=
    hdims0.2
  have hsw : SweepInv (reinitSpatialMemory (iterLevels n s.currentLevel s))
      (foldN (2 * n) (fun _ t =>
        foldN (reinitSpatialMemory (iterLevels n s.currentLevel s)).height
          (fun i t =>
            foldN (reinitSpatialMemory (iterLevels n s.currentLevel s)).width
              (fun j t => performPixelUpdate t i j) t) t)
        (reinitSpatialMemory (iterLevels n s.currentLevel s))) := by
    refine foldN_presG _ _ (2 * n) (fun it _ t ht => ?_) _ hstart
    refine foldN_presG _ _ _ (fun i hi t2 ht2 => ?_) t ht
    refine foldN_presG _ _ _ (fun j hj t3 ht3 => ?_) t2 ht2
    exact performPixelUpdate_sweepInv _ t3 i j ht3 hdim1 hdim2 hi hj
  obtain ⟨hokF, hbfF, hlvlF, hcbF, hcwF⟩ := hsw
  have h12 : BaseFrames (iterLevels n s.currentLevel s)
      (reinitSpatialMemory (iterLevels n s.currentLevel s)) :=
    ⟨rfl, rfl, rfl, rfl, rfl, rfl, rfl⟩
  refine ⟨hokF, baseFrames_trans (baseFrames_trans hbfL h12) hbfF, ?_, ?_, ?_⟩
  · have he : (iterate s n).currentBlockHeightNumber
        = (reinitSpatialMemory (iterLevels n
          s.currentLevel s)).currentBlockHeightNumber := hcbF
    rw [he, hdim1]
    exact hbfL.2.2.1
  · have he : (iterate s n).currentBlockWidthNumber
        = (reinitSpatialMemory (iterLevels n
          s.currentLevel s)).currentBlockWidthNumber := hcwF
    rw [he, hdim2]
    exact hbfL.2.2.2.1
  · have he : (iterate s n).currentLevel
        = (reinitSpatialMemory (iterLevels n
          s.currentLevel s)).currentLevel := hlvlF
    rw [he]
    exact hlvlL

theorem rowmajor_lt (a b r c : Nat) (hr : r < a) (hc : c < b) :
    r * b + c < a * b := by
  calc r * b + c < r * b + b := by omega
    _ = (r + 1) * b := by ring
    _ ≤ a * b := Nat.mul_le_mul_right b hr

theorem initInnerOut (sphn spwn : Nat) (i : Nat) (hi : ¬ i < sphn) :
    ∀ w (g : Nat → Nat → Int) (C : Int),
      (foldN w (fun j (acc : (Nat → Nat → Int) × Int) =>
        if i < sphn ∧ j < spwn then (upd2 acc.1 i j acc.2, acc.2 + 1)
        else (upd2 acc.1 i j (-1), acc.2)) (g, C)).2 = C ∧
      (∀ r c, ¬(r = i ∧ c < w) →
        (foldN w (fun j (acc : (Nat → Nat → Int) × Int) =>
          if i < sphn ∧ j < spwn then (upd2 acc.1 i j acc.2, acc.2 + 1)
          else (upd2 acc.1 i j (-1), acc.2)) (g, C)).1 r c = g r c) := by
  intro w
  induction w with
  | zero => exact fun g C => ⟨rfl, fun r c _ => rfl⟩
  | succ m ih =>
    intro g C
    obtain ⟨ihC, ihG⟩ := ih g C
    have hcond : ¬(i < sphn ∧ m < spwn) := fun h => hi h.1
    constructor
    · show (if i < sphn ∧ m < spwn then _ else _ : (Nat → Nat → Int) × Int).2 = C
      rw [if_neg hcond]
      exact ihC
    · intro r c hrc
      show (if i < sphn ∧ m < spwn then _ else _ : (Nat → Nat → Int) × Int).1 r c = g r c
      rw [if_neg hcond]
      show upd2 _ i m _ r c = g r c
      rw [upd2_other _ _ (fun h => hrc ⟨h.1, by omega⟩)]
      exact ihG r c (fun h => hrc ⟨h.1, by omega⟩)

theorem initInnerIn (sphn spwn : Nat) (i : Nat) (hi : i < sphn) :
    ∀ w (g : Nat → Nat → Int) (C : Int),
      (foldN w (fun j (acc : (Nat → Nat → Int) × Int) =>
        if i < sphn ∧ j < spwn then (upd2 acc.1 i j acc.2, acc.2 + 1)
        else (upd2 acc.1 i j (-1), acc.2)) (g, C)).2 = C + ((min w spwn : Nat) : Int) ∧
      (∀ c, c < min w spwn →
        (foldN w (fun j (acc : (Nat → Nat → Int) × Int) =>
          if i < sphn ∧ j < spwn then (upd2 acc.1 i j acc.2, acc.2 + 1)
          else (upd2 acc.1 i j (-1), acc.2)) (g, C)).1 i c = C + (c : Int)) ∧
      (∀ r c, ¬(r = i ∧ c < w) →
        (foldN w (fun j (acc : (Nat → Nat → Int) × Int) =>
          if i < sphn ∧ j < spwn then (upd2 acc.1 i j acc.2, acc.2 + 1)
          else (upd2 acc.1 i j (-1), acc.2)) (g, C)).1 r c = g r c) := by
  intro w
  induction w with
  | zero =>
    intro g C
    refine ⟨show C = C + ((min 0 spwn : Nat) : Int) by simp,
      fun c hc => absurd hc (by simp), fun r c _ => rfl⟩
  | succ m ih =>
    intro g C
    obtain ⟨ihC, ihV, ihG⟩ := ih g C
    by_cases hm : m < spwn
    · have hmin1 : min m spwn = m := by omega
      have hmin2 : min (m + 1) spwn = m + 1 := by omega
      refine ⟨?_, ?_, ?_⟩
      · show (if i < sphn ∧ m < spwn then _ else _ : (Nat → Nat → Int) × Int).2
            = C + ((min (m + 1) spwn : Nat) : Int)
        rw [if_pos ⟨hi, hm⟩]
        show _ + 1 = _
        rw [ihC, hmin1, hmin2]
        push_cast
        ring
      · intro c hc
        show (if i < sphn ∧ m < spwn then _ else _ : (Nat → Nat → Int) × Int).1 i c
            = C + (c : Int)
        rw [if_pos ⟨hi, hm⟩]
        by_cases hcm : c = m
        · subst hcm
          show upd2 _ i c _ i c = _
          rw [upd2_same, ihC, hmin1]
        · show upd2 _ i m _ i c = _
          rw [upd2_other _ _ (fun h => hcm h.2)]
          exact ihV c (by omega)
      · intro r c hrc
        show (if i < sphn ∧ m < spwn then _ else _ : (Nat → Nat → Int) × Int).1 r c = g r c
        rw [if_pos ⟨hi, hm⟩]
        show upd2 _ i m _ r c = g r c
        rw [upd2_other _ _ (fun h => hrc ⟨h.1, by omega⟩)]
        exact ihG r c (fun h => hrc ⟨h.1, by omega⟩)
    · have hmin3 : min (m + 1) spwn = min m spwn := by omega
      refine ⟨?_, ?_, ?_⟩
      · show (if i < sphn ∧ m < spwn then _ else _ : (Nat → Nat → Int) × Int).2
            = C + ((min (m + 1) spwn : Nat) : Int)
        rw [if_neg (fun h => hm h.2)]
        show _ = _
        rw [ihC, hmin3]
      · intro c hc
        show (if i < sphn ∧ m < spwn then _ else _ : (Nat → Nat → Int) × Int).1 i c
            = C + (c : Int)
        rw [if_neg (fun h => hm h.2)]
        show upd2 _ i m _ i c = _
        have hcm : c ≠ m := by omega
        rw [upd2_other _ _ (fun h => hcm h.2)]
        exact ihV c (by omega)
      · intro r c hrc
        show (if i < sphn ∧ m < spwn then _ else _ : (Nat → Nat → Int) × Int).1 r c = g r c
        rw [if_neg (fun h => hm h.2)]
        show upd2 _ i m _ r c = g r c
        rw [upd2_other _ _ (fun h => hrc ⟨h.1, by omega⟩)]
        exact ihG r c (fun h => hrc ⟨h.1, by omega⟩)

theorem initOuter (sphn spwn width : Nat) (hw : spwn ≤ width) :
    ∀ h (g : Nat → Nat → Int),
      (foldN h (fun i acc =>
        foldN width (fun j (acc : (Nat → Nat → Int) × Int) =>
          if i < sphn ∧ j < spwn then (upd2 acc.1 i j acc.2, acc.2 + 1)
          else (upd2 acc.1 i j (-1), acc.2)) acc) (g, 0)).2
        = ((min h sphn * spwn : Nat) : Int) ∧
      (∀ r c, r < min h sphn → c < spwn →
        (foldN h (fun i acc =>
          foldN width (fun j (acc : (Nat → Nat → Int) × Int) =>
            if i < sphn ∧ j < spwn then (upd2 acc.1 i j acc.2, acc.2 + 1)
            else (upd2 acc.1 i j (-1), acc.2)) acc) (g, 0)).1 r c
          = ((r * spwn + c : Nat) : Int)) := by
  intro h
  induction h with
  | zero =>
    intro g
    exact ⟨show (0 : Int) = ((min 0 sphn * spwn : Nat) : Int) by simp,
      fun r c hr _ => absurd hr (by simp)⟩
  | succ m ih =>
    intro g
    obtain ⟨ihC, ihV⟩ := ih g
    by_cases hm : m < sphn
    · obtain ⟨hC, hV, hG⟩ := initInnerIn sphn spwn m hm width
        (foldN m (fun i acc =>
          foldN width (fun j (acc : (Nat → Nat → Int) × Int) =>
            if i < sphn ∧ j < spwn then (upd2 acc.1 i j acc.2, acc.2 + 1)
            else (upd2 acc.1 i j (-1), acc.2)) acc) (g, 0)).1
        (foldN m (fun i acc =>
          foldN width (fun j (acc : (Nat → Nat → Int) × Int) =>
            if i < sphn ∧ j < spwn then (upd2 acc.1 i j acc.2, acc.2 + 1)
            else (upd2 acc.1 i j (-1), acc.2)) acc) (g, 0)).2
      have e1 : min width spwn = spwn := by omega
      have e2 : min m sphn = m := by omega
      have e3 : min (m + 1) sphn = m + 1 := by omega
      constructor
      · have hC2 : (foldN (m + 1) (fun i acc =>
            foldN width (fun j (acc : (Nat → Nat → Int) × Int) =>
              if i < sphn ∧ j < spwn then (upd2 acc.1 i j acc.2, acc.2 + 1)
              else (upd2 acc.1 i j (-1), acc.2)) acc) (g, 0)).2
            = (foldN m (fun i acc =>
            foldN width (fun j (acc : (Nat → Nat → Int) × Int) =>
              if i < sphn ∧ j < spwn then (upd2 acc.1 i j acc.2, acc.2 + 1)
              else (upd2 acc.1 i j (-1), acc.2)) acc) (g, 0)).2
            + ((min width spwn : Nat) : Int) := hC
        rw [hC2, ihC, e1, e2, e3]
        push_cast
        ring
      · intro r c hr hc
        by_cases hrm : r = m
        · subst hrm
          have hV2 : (foldN (r + 1) (fun i acc =>
              foldN width (fun j (acc : (Nat → Nat → Int) × Int) =>
                if i < sphn ∧ j < spwn then (upd2 acc.1 i j acc.2, acc.2 + 1)
                else (upd2 acc.1 i j (-1), acc.2)) acc) (g, 0)).1 r c
              = (foldN r (fun i acc =>
              foldN width (fun j (acc : (Nat → Nat → Int) × Int) =>
                if i < sphn ∧ j < spwn then (upd2 acc.1 i j acc.2, acc.2 + 1)
                else (upd2 acc.1 i j (-1), acc.2)) acc) (g, 0)).2
              + (c : Int) := hV c (by omega)
          rw [hV2, ihC, e2]
          push_cast
          ring
        · have hG2 : (foldN (m + 1) (fun i acc =>
              foldN width (fun j (acc : (Nat → Nat → Int) × Int) =>
                if i < sphn ∧ j < spwn then (upd2 acc.1 i j acc.2, acc.2 + 1)
                else (upd2 acc.1 i j (-1), acc.2)) acc) (g, 0)).1 r c
              = (foldN m (fun i acc =>
              foldN width (fun j (acc : (Nat → Nat → Int) × Int) =>
                if i < sphn ∧ j < spwn then (upd2 acc.1 i j acc.2, acc.2 + 1)
                else (upd2 acc.1 i j (-1), acc.2)) acc) (g, 0)).1 r c
              := hG r c (fun hh => hrm hh.1)
          rw [hG2]
          exact ihV r c (by omega) hc
    · obtain ⟨hC, hG⟩ := initInnerOut sphn spwn m hm width
        (foldN m (fun i acc =>
          foldN width (fun j (acc : (Nat → Nat → Int) × Int) =>
            if i < sphn ∧ j < spwn then (upd2 acc.1 i j acc.2, acc.2 + 1)
            else (upd2 acc.1 i j (-1), acc.2)) acc) (g, 0)).1
        (foldN m (fun i acc =>
          foldN width (fun j (acc : (Nat → Nat → Int) × Int) =>
            if i < sphn ∧ j < spwn then (upd2 acc.1 i j acc.2, acc.2 + 1)
            else (upd2 acc.1 i j (-1), acc.2)) acc) (g, 0)).2
      have e4 : min (m + 1) sphn = min m sphn := by omega
      constructor
      · have hC2 : (foldN (m + 1) (fun i acc =>
            foldN width (fun j (acc : (Nat → Nat → Int) × Int) =>
              if i < sphn ∧ j < spwn then (upd2 acc.1 i j acc.2, acc.2 + 1)
              else (upd2 acc.1 i j (-1), acc.2)) acc) (g, 0)).2
            = (foldN m (fun i acc =>
            foldN width (fun j (acc : (Nat → Nat → Int) × Int) =>
              if i < sphn ∧ j < spwn then (upd2 acc.1 i j acc.2, acc.2 + 1)
              else (upd2 acc.1 i j (-1), acc.2)) acc) (g, 0)).2 := hC
        rw [hC2, ihC, e4]
      · intro r c hr hc
        have hrm : ¬(r = m ∧ c < width) := fun hh => by omega
        have hG2 : (foldN (m + 1) (fun i acc =>
            foldN width (fun j (acc : (Nat → Nat → Int) × Int) =>
              if i < sphn ∧ j < spwn then (upd2 acc.1 i j acc.2, acc.2 + 1)
              else (upd2 acc.1 i j (-1), acc.2)) acc) (g, 0)).1 r c
            = (foldN m (fun i acc =>
            foldN width (fun j (acc : (Nat → Nat → Int) × Int) =>
              if i < sphn ∧ j < spwn then (upd2 acc.1 i j acc.2, acc.2 + 1)
              else (upd2 acc.1 i j (-1), acc.2)) acc) (g, 0)).1 r c
            := hG r c hrm
        rw [hG2]
        exact ihV r c (by omega) hc

/-- The state built by initializeLabels just before its final goDownOneLevel
call: counters and superpixel geometry at the top level, the row-major label
grid, and a fully marked spatial memory. -/
def initLabelsPre (s : State) : State :=
  { s with
    currentLevel := s.numberOfLevels,
    currentBlockWidth := getBlockWidth s s.numberOfLevels,
    currentBlockHeight := getBlockHeight s s.numberOfLevels,
    currentBlockWidthNumber := getBlockWidthNumber s s.numberOfLevels,
    currentBlockHeightNumber := getBlockHeightNumber s s.numberOfLevels,
    superpixelWidthNumber := getBlockWidthNumber s s.numberOfLevels,
    superpixelHeightNumber := getBlockHeightNumber s s.numberOfLevels,
    superpixelWidth := getBlockWidth s s.numberOfLevels,
    superpixelHeight := getBlockHeight s s.numberOfLevels,
    currentLabels := (foldN s.height (fun i acc =>
      foldN s.width (fun j (acc : (Nat → Nat → Int) × Int) =>
        if i < getBlockHeightNumber s s.numberOfLevels
            ∧ j < getBlockWidthNumber s s.numberOfLevels then
          (upd2 acc.1 i j acc.2, acc.2 + 1)
        else (upd2 acc.1 i j (-1), acc.2)) acc) (s.currentLabels, 0)).1,
    spatialMemory := foldN s.height (fun i m =>
      foldN s.width (fun j m => upd2 m i j true) m) s.spatialMemory }

theorem initLabels_eq_pre (s : State) :
    initLabels s = goDownOneLevel (initLabelsPre s) := rfl

theorem initLabelsPre_ok (s : State) : StateLabelsOk (initLabelsPre s) := by
  intro r c hr hc
  have hr2 : r < getBlockHeightNumber s s.numberOfLevels := hr
  have hc2 : c < getBlockWidthNumber s s.numberOfLevels := hc
  have hsw : getBlockWidthNumber s s.numberOfLevels ≤ s.width :=
    Nat.div_le_self _ _
  obtain ⟨-, hV⟩ := initOuter (getBlockHeightNumber s s.numberOfLevels)
    (getBlockWidthNumber s s.numberOfLevels) s.width hsw s.height
    s.currentLabels
  have hsh : getBlockHeightNumber s s.numberOfLevels ≤ s.height :=
    Nat.div_le_self _ _
  have hval : (initLabelsPre s).currentLabels r c
      = ((r * getBlockWidthNumber s s.numberOfLevels + c : Nat) : Int) :=
    hV r c (by omega) hc2
  constructor
  · show 0 ≤ (initLabelsPre s).currentLabels r c
    rw [hval]
    exact Int.ofNat_nonneg _
  · show (initLabelsPre s).currentLabels r c
        < ((getBlockHeightNumber s s.numberOfLevels
            * getBlockWidthNumber s s.numberOfLevels : Nat) : Int)
    rw [hval]
    exact_mod_cast rowmajor_lt (getBlockHeightNumber s s.numberOfLevels)
      (getBlockWidthNumber s s.numberOfLevels) r c hr2 hc2

theorem initLabels_ok (s : State) (hg : ValidGeometry s) :
    IterInv (initLabels s) ∧
    (initLabels s).currentLevel = s.numberOfLevels - 1 ∧
    (initLabels s).superpixelHeightNumber
      = getBlockHeightNumber s s.numberOfLevels ∧
    (initLabels s).superpixelWidthNumber
      = getBlockWidthNumber s s.numberOfLevels ∧
    (initLabels s).height = s.height ∧ (initLabels s).width = s.width ∧
    (initLabels s).numberOfLevels = s.numberOfLevels := by
  have hok : StateLabelsOk (initLabelsPre s) := initLabelsPre_ok s
  have hgP : ValidGeometry (initLabelsPre s) := hg
  have h1 : 1 ≤ (initLabelsPre s).currentBlockHeightNumber :=
    bhn_pos s hg s.numberOfLevels (le_refl _)
  have h2 : 1 ≤ (initLabelsPre s).currentBlockWidthNumber :=
    bwn_pos s hg s.numberOfLevels (le_refl _)
  have hbh : 1 ≤ (initLabelsPre s).minimumBlockHeight := hg.1
  have hbw : 1 ≤ (initLabelsPre s).minimumBlockWidth := hg.2.1
  obtain ⟨hokG, hbfG, hlvlG, hcbG, hcwG⟩ :=
    goDownOneLevel_ok (initLabelsPre s) hok h1 h2 hbh hbw
  have hlvlP : (initLabelsPre s).currentLevel = s.numberOfLevels := rfl
  have hnolG : (goDownOneLevel (initLabelsPre s)).numberOfLevels
      = s.numberOfLevels := hbfG.2.2.2.2.2.2
  have hlvl2 : (goDownOneLevel (initLabelsPre s)).currentLevel
      = s.numberOfLevels - 1 := by rw [hlvlG, hlvlP]
  rw [initLabels_eq_pre s]
  refine ⟨⟨validGeometry_frames hbfG hgP, hokG, ?_, ?_⟩, hlvl2,
    ?_, ?_, ?_, ?_, ?_⟩
  · rw [hlvl2, hnolG]
    omega
  · by_cases hp : 0 < (initLabelsPre s).currentLevel - 1
    · left
      refine ⟨?_, ?_, ?_⟩
      · rw [hlvlG]
        exact hp
      · rw [hcbG, if_pos hp, bhn_frames hbfG, hlvlG]
      · rw [hcwG, if_pos hp, bwn_frames hbfG, hlvlG]
    · right
      refine ⟨?_, ?_, ?_⟩
      · rw [hlvlG]
        omega
      · rw [hcbG, if_neg hp]
        exact hbfG.2.2.1.symm
      · rw [hcwG, if_neg hp]
        exact hbfG.2.2.2.1.symm
  · rw [hbfG.1]
    rfl
  · rw [hbfG.2.1]
    rfl
  · rw [hbfG.2.2.1]
    rfl
  · rw [hbfG.2.2.2.1]
    rfl
  · rw [hbfG.2.2.2.2.2.2]
    rfl

/-- Claim C2: for every valid instance, after initialize() followed by
iterate(n) for any n >= 0, the label grid has the image's dimensions (the
current block counters equal the image height and width, so getLabels()
writes an H x W grid) and every pixel carries exactly one label, in the
range [0, superpixelRows * superpixelCols) where superpixelRows and
superpixelCols are the top-level block numbers
height / (minimumBlockHeight * 2^(numberOfLevels-1)) and
width / (minimumBlockWidth * 2^(numberOfLevels-1)). -/
theorem claim_C2 (s : State) (n : Nat) (hg : ValidGeometry s) :
    (iterate (initAll s) n).currentBlockHeightNumber = s.height ∧
    (iterate (initAll s) n).currentBlockWidthNumber = s.width ∧
    (iterate (initAll s) n).superpixelHeightNumber
      = getBlockHeightNumber s s.numberOfLevels ∧
    (iterate (initAll s) n).superpixelWidthNumber
      = getBlockWidthNumber s s.numberOfLevels ∧
    ∀ r c, r < s.height → c < s.width →
      0 ≤ (iterate (initAll s) n).currentLabels r c ∧
      (iterate (initAll s) n).currentLabels r c
        < ((getBlockHeightNumber s s.numberOfLevels
            * getBlockWidthNumber s s.numberOfLevels : Nat) : Int) := by
  obtain ⟨hinvI, hlvlI, hsphnI, hspwnI, hhI, hwI, hLI⟩ := initLabels_ok s hg
  have hinvH : IterInv (initAll s) := hinvI
  obtain ⟨hokF, hbfF, hcbF, hcwF, hlvlF⟩ := iterate_ok (initAll s) n hinvH
  have hhA : (initAll s).height = s.height := hhI
  have hwA : (initAll s).width = s.width := hwI
  have hsphnA : (initAll s).superpixelHeightNumber
      = getBlockHeightNumber s s.numberOfLevels := hsphnI
  have hspwnA : (initAll s).superpixelWidthNumber
      = getBlockWidthNumber s s.numberOfLevels := hspwnI
  refine ⟨by rw [hcbF, hhA], by rw [hcwF, hwA], ?_, ?_, ?_⟩
  · rw [hbfF.1, hsphnA]
  · rw [hbfF.2.1, hspwnA]
  · intro r c hr hc
    have hr2 : r < (iterate (initAll s) n).currentBlockHeightNumber := by
      rw [hcbF, hhA]
      exact hr
    have hc2 : c < (iterate (initAll s) n).currentBlockWidthNumber := by
      rw [hcwF, hwA]
      exact hc
    obtain ⟨h1v, h2v⟩ := hokF r c hr2 hc2
    refine ⟨h1v, ?_⟩
    have hS : (iterate (initAll s) n).superpixelHeightNumber
        * (iterate (initAll s) n).superpixelWidthNumber
        = getBlockHeightNumber s s.numberOfLevels
          * getBlockWidthNumber s s.numberOfLevels := by
      rw [hbfF.1, hbfF.2.1, hsphnA, hspwnA]
    rw [hS] at h2v
    exact h2v

/-- A concrete valid instance: a 5x4 one-channel image, two levels, 1x1
minimum blocks, two bins. -/
def cexC2w : State :=
  seedsRevisedCtor 5 4 1 (fun _ _ j => if j < 2 then 0 else 1) 2 1 1 2 0 0

theorem claim_C2_witness :
    ValidGeometry cexC2w ∧
    ((iterate (initAll cexC2w) 1).currentBlockHeightNumber = cexC2w.height ∧
      (iterate (initAll cexC2w) 1).currentBlockWidthNumber = cexC2w.width ∧
      (iterate (initAll cexC2w) 1).superpixelHeightNumber
        = getBlockHeightNumber cexC2w cexC2w.numberOfLevels ∧
      (iterate (initAll cexC2w) 1).superpixelWidthNumber
        = getBlockWidthNumber cexC2w cexC2w.numberOfLevels ∧
      ∀ r c, r < cexC2w.height → c < cexC2w.width →
        0 ≤ (iterate (initAll cexC2w) 1).currentLabels r c ∧
        (iterate (initAll cexC2w) 1).currentLabels r c
          < ((getBlockHeightNumber cexC2w cexC2w.numberOfLevels
              * getBlockWidthNumber cexC2w cexC2w.numberOfLevels : Nat) : Int)) := by
  have hvg : ValidGeometry cexC2w :=
    ⟨by decide, by decide, by decide, by decide, by decide⟩
  exact ⟨hvg, claim_C2 cexC2w 1 hvg⟩

end SeedsRevised
